import Mathlib

/-!
Verification of the ndn-lite TLV codec and packet layer (sigcomm-tutorial).

This file gives a shallow embedding of the core encode/decode pipeline:
the varint codec, the TLV encoder/decoder, the name and component layer,
the metainfo and signature layers, the Data packet signing/verification
pipeline, the encrypted-content codec, and the direct-face callback
dispatch.  Functions present in the repository sources
(`encode/name.c`, `encode/data.c`, `encode/signature.h`,
`face/direct-face.c`, `security/ndn-lite-aes.c`) are translated
statement by statement.  Functions whose C sources are not part of the
repository snapshot (the TLV encoder/decoder, the name-component
helpers, metainfo, the signature-info/value TLV codecs, the constants
header and the crypto backends) are modelled from the specification and
are marked as such in their doc comments.

Conventions:
 - bytes are `Nat` values (< 256 for well-formed data); C buffers are
   `List Nat`;
 - C functions that return an `int` code and mutate through pointers
   become Lean functions returning a tuple `(Int × mutated state)`;
   on an error return the state components carry the same value the C
   code would leave (unchanged state, or a dummy `0` where the C value
   is indeterminate);
 - machine integers are `Nat` with an explicit `% 2^w` at the points
   where a narrowing conversion happens in C (the AES size arguments).
-/

/-! ### Error codes

Modelled from the spec: the constants header `ndn-error-code.h` is not in
the repository snapshot.  The spec fixes the taxonomy ("codes, not
types", success is zero, failures are negative) but not the numeric
values; distinct negative values are chosen here. -/

def NDN_SUCCESS : Int := 0
def NDN_OVERSIZE : Int := -10
def NDN_NAME_INVALID_FORMAT : Int := -11
def NDN_WRONG_TLV_TYPE : Int := -12
def NDN_INVALID_VARINT : Int := -13
def NDN_BUFFER_UNDERFLOW : Int := -14
def NDN_SEC_UNSUPPORT_SIGN_TYPE : Int := -20
def NDN_SEC_WRONG_SIG_SIZE : Int := -21
def NDN_SEC_FAIL_VERIFY : Int := -22
def NDN_FWD_NO_MATCHED_CALLBACK : Int := -30
def NDN_FWD_APP_FACE_CB_TABLE_FULL : Int := -31

/-! ### Wire-format and configuration constants

Modelled from the spec: `ndn-constants.h` is not in the repository
snapshot.  TLV type codes come from the spec's wire-format table;
configuration values are the spec's defaults. -/

def TLV_Interest : Nat := 5
def TLV_Data : Nat := 6
def TLV_Name : Nat := 7
def TLV_GenericNameComponent : Nat := 8
def TLV_MetaInfo : Nat := 20
def TLV_Content : Nat := 21
def TLV_SignatureInfo : Nat := 22
def TLV_SignatureValue : Nat := 23
def TLV_ContentType : Nat := 24
def TLV_FreshnessPeriod : Nat := 25
def TLV_FinalBlockId : Nat := 26
def TLV_SignatureType : Nat := 27
def TLV_KeyLocator : Nat := 28
def TLV_Nonce : Nat := 38
def TLV_SignedInterestTimestamp : Nat := 44
def TLV_ValidityPeriod : Nat := 253
def TLV_NotBefore : Nat := 254
def TLV_NotAfter : Nat := 255
def TLV_AC_ENCRYPTED_CONTENT : Nat := 130
def TLV_AC_AES_IV : Nat := 131
def TLV_AC_ENCRYPTED_PAYLOAD : Nat := 132

def NDN_NAME_COMPONENTS_SIZE : Nat := 10
def NDN_NAME_COMPONENT_BUFFER_SIZE : Nat := 36
def NDN_CONTENT_BUFFER_SIZE : Nat := 256
def NDN_SIGNATURE_BUFFER_SIZE : Nat := 128
def NDN_AES_BLOCK_SIZE : Nat := 16
def NDN_SEC_SHA256_HASH_SIZE : Nat := 32
def NDN_TLV_TYPE_FIELD_MAX_SIZE : Nat := 9
def NDN_TLV_LENGTH_FIELD_MAX_SIZE : Nat := 9
def NDN_SIG_TYPE_DIGEST_SHA256 : Nat := 0
def NDN_SIG_TYPE_ECDSA_SHA256 : Nat := 3
def NDN_SIG_TYPE_HMAC_SHA256 : Nat := 4

/-- Modelled from the spec: the maximum ASN.1 DER encoding of an
ECDSA-P256 signature is 72 bytes (the spec requires the signature buffer
to be at least this large). -/
def NDN_ASN1_ECDSA_MAX_ENCODED_SIG_SIZE : Nat := 72

/-- Modelled from the spec: the minimum ASN.1 DER encoding of an ECDSA
signature, a SEQUENCE of two minimal INTEGERs (8 bytes). -/
def NDN_ASN1_ECDSA_MIN_ENCODED_SIG_SIZE : Nat := 8

/-! ### Big-endian byte strings -/

/-- Big-endian encoding of `v` on exactly `n` bytes. -/
def be_bytes : Nat → Nat → List Nat
  | 0, _ => []
  | n + 1, v => be_bytes n (v / 256) ++ [v % 256]

/-- Big-endian decoding of a byte string. -/
def be_decode (l : List Nat) : Nat := l.foldl (fun acc b => acc * 256 + b) 0

theorem be_bytes_length (n v : Nat) : (be_bytes n v).length = n := by
  induction n generalizing v with
  | zero => rfl
  | succ n ih => simp [be_bytes, ih]

theorem be_decode_append_singleton (l : List Nat) (b : Nat) :
    be_decode (l ++ [b]) = be_decode l * 256 + b := by
  simp [be_decode, List.foldl_append]

theorem be_decode_be_bytes (n v : Nat) (h : v < 256 ^ n) :
    be_decode (be_bytes n v) = v := by
  induction n generalizing v with
  | zero =>
      interval_cases v
      rfl
  | succ n ih =>
      have hdiv : v / 256 < 256 ^ n := by
        have : v < 256 ^ n * 256 := by
          calc v < 256 ^ (n + 1) := h
          _ = 256 ^ n * 256 := by ring
        omega
      rw [be_bytes, be_decode_append_singleton, ih _ hdiv]
      omega

/-! ### Varint codec (NDN TLV-VAR)

Modelled from the spec: the varint codec source (`encoder.h` /
`decoder.h`) is not in the repository snapshot.  A value `v` encodes as
one byte if `v < 253`; as lead byte `0xFD` plus two big-endian bytes if
`v < 2^16`; as lead `0xFE` plus four big-endian bytes if `v < 2^32`;
as lead `0xFF` plus eight big-endian bytes otherwise. -/

def var_size (v : Nat) : Nat :=
  if v < 253 then 1 else if v < 2 ^ 16 then 3 else if v < 2 ^ 32 then 5 else 9

def var_encode (v : Nat) : List Nat :=
  if v < 253 then [v]
  else if v < 2 ^ 16 then 253 :: be_bytes 2 v
  else if v < 2 ^ 32 then 254 :: be_bytes 4 v
  else 255 :: be_bytes 8 v

theorem var_encode_length (v : Nat) : (var_encode v).length = var_size v := by
  unfold var_encode var_size
  split <;> try rfl
  split <;> try simp [be_bytes_length]
  split <;> simp [be_bytes_length]

/-- Shortest big-endian length in 1, 2, 4, 8 bytes; spec operation
`probe_uint_length`. -/
def encoder_probe_uint_length (v : Nat) : Nat :=
  if v < 2 ^ 8 then 1 else if v < 2 ^ 16 then 2 else if v < 2 ^ 32 then 4 else 8

/-- Non-negative integer TLV value encoding (shortest of 1/2/4/8 bytes,
big-endian), per the spec's second encoding variant. -/
def uint_encode (v : Nat) : List Nat := be_bytes (encoder_probe_uint_length v) v

theorem uint_encode_length (v : Nat) :
    (uint_encode v).length = encoder_probe_uint_length v := by
  simp [uint_encode, be_bytes_length]

/-! ### TLV decoder

Modelled from the spec: the decoder source (`decoder.h`) is not in the
repository snapshot.  Decoder state is a borrowed source buffer, its
length, and a current byte offset; reads fail with a negative code on
truncation and leave the state unchanged (out-of-bounds reads are
undefined behaviour in C and are modelled as failures with a dummy `0`
result value). -/

structure ndn_decoder where
  input : List Nat
  offset : Nat
deriving DecidableEq

def decoder_init (block_value : List Nat) : ndn_decoder := ⟨block_value, 0⟩

/-- Read one NDN varint at the current offset (spec operation
`read_var`, used for both TLV type and TLV length fields). -/
def decoder_get_var (d : ndn_decoder) : Int × Nat × ndn_decoder :=
  if d.input.length < d.offset + 1 then (NDN_INVALID_VARINT, 0, d)
  else
    let b := d.input.getD d.offset 0
    if b < 253 then (NDN_SUCCESS, b, ⟨d.input, d.offset + 1⟩)
    else
      let n := if b = 253 then 2 else if b = 254 then 4 else 8
      if d.input.length < d.offset + 1 + n then (NDN_INVALID_VARINT, 0, d)
      else (NDN_SUCCESS, be_decode ((d.input.drop (d.offset + 1)).take n),
            ⟨d.input, d.offset + 1 + n⟩)

def decoder_get_type (d : ndn_decoder) : Int × Nat × ndn_decoder := decoder_get_var d

def decoder_get_length (d : ndn_decoder) : Int × Nat × ndn_decoder := decoder_get_var d

/-- Read `n` raw bytes at the current offset (spec operation
`get_raw(dst, n)`). -/
def decoder_get_raw_buffer_value (d : ndn_decoder) (n : Nat) :
    Int × List Nat × ndn_decoder :=
  if d.input.length < d.offset + n then (NDN_BUFFER_UNDERFLOW, [], d)
  else (NDN_SUCCESS, (d.input.drop d.offset).take n, ⟨d.input, d.offset + n⟩)

/-- Move the read cursor back by `n` bytes (spec operation
`move_backward`, the packet decoder's one-byte lookahead concession). -/
def decoder_move_backward (d : ndn_decoder) (n : Nat) : ndn_decoder :=
  ⟨d.input, d.offset - n⟩

/-- Read an `n`-byte big-endian non-negative integer TLV value (spec
operation `get_uint_tlv`, value part). -/
def decoder_get_uint (d : ndn_decoder) (n : Nat) : Int × Nat × ndn_decoder :=
  if d.input.length < d.offset + n then (NDN_BUFFER_UNDERFLOW, 0, d)
  else (NDN_SUCCESS, be_decode ((d.input.drop d.offset).take n), ⟨d.input, d.offset + n⟩)

/-! ### TLV encoder

Modelled from the spec: the encoder source (`encoder.h`) is not in the
repository snapshot.  Encoder state is a caller-provided destination
buffer, its max capacity and a current byte offset; `output` holds the
bytes written so far (the C buffer's written prefix), and writes past
`max` fail with `OVERSIZE` leaving the state unchanged. -/

structure ndn_encoder where
  output : List Nat
  output_max_size : Nat
  offset : Nat
deriving DecidableEq

def encoder_init (max : Nat) : ndn_encoder := ⟨[], max, 0⟩

/-- Overwrite `bs` into `out` starting at byte offset `off` (the written
region keeps its other bytes; C pointer arithmetic write). -/
def buf_write (out : List Nat) (off : Nat) (bs : List Nat) : List Nat :=
  out.take off ++ bs ++ out.drop (off + bs.length)

def encoder_append_raw_buffer_value (e : ndn_encoder) (bs : List Nat) :
    Int × ndn_encoder :=
  if e.offset + bs.length ≤ e.output_max_size then
    (NDN_SUCCESS, ⟨buf_write e.output e.offset bs, e.output_max_size,
                   e.offset + bs.length⟩)
  else (NDN_OVERSIZE, e)

/-- Append a TLV type field as a varint (spec operation `append_type`). -/
def encoder_append_type (e : ndn_encoder) (t : Nat) : Int × ndn_encoder :=
  encoder_append_raw_buffer_value e (var_encode t)

/-- Append a TLV length field as a varint (spec operation `append_length`). -/
def encoder_append_length (e : ndn_encoder) (l : Nat) : Int × ndn_encoder :=
  encoder_append_raw_buffer_value e (var_encode l)

/-- Append a shortest big-endian non-negative integer value. -/
def encoder_append_uint_value (e : ndn_encoder) (v : Nat) : Int × ndn_encoder :=
  encoder_append_raw_buffer_value e (uint_encode v)

/-- Advance the write cursor by `n` bytes without writing (spec operation
`move_forward`; the skipped bytes are uninitialized in C, modelled as 0). -/
def encoder_move_forward (e : ndn_encoder) (n : Nat) : Int × ndn_encoder :=
  if e.offset + n ≤ e.output_max_size then
    (NDN_SUCCESS, ⟨e.output ++ List.replicate (e.offset + n - e.output.length) 0,
                   e.output_max_size, e.offset + n⟩)
  else (NDN_OVERSIZE, e)

def encoder_get_var_size (v : Nat) : Nat := var_size v

/-- Full encoded size of a TLV block with type `t` and value length `l`
(spec operation `probe_block_size`). -/
def encoder_probe_block_size (t l : Nat) : Nat := var_size t + var_size l + l

/-! ### Name components

Modelled from the spec: the name-component source (`name-component.*`)
is not in the repository snapshot.  A component is a pair of a component
type tag and a bounded payload byte sequence. -/

structure name_component where
  type : Nat
  value : List Nat
deriving DecidableEq

def default_component : name_component := ⟨0, []⟩

/-- Modelled from the spec: build a component of the given type from a
byte buffer, failing `OVERSIZE` past the configured component buffer. -/
def name_component_from_buffer (type : Nat) (value : List Nat) (size : Nat) :
    Int × name_component :=
  if size ≤ NDN_NAME_COMPONENT_BUFFER_SIZE then
    (NDN_SUCCESS, ⟨type, value.take size⟩)
  else (NDN_OVERSIZE, default_component)

/-- Modelled from the spec: build a generic component from the first
`size` characters of a string. -/
def name_component_from_string (string : List Char) (size : Nat) :
    Int × name_component :=
  name_component_from_buffer TLV_GenericNameComponent
    (string.map (fun c => c.toNat % 256)) size

/-- Modelled from the spec: encoded size of one component TLV. -/
def name_component_probe_block_size (c : name_component) : Nat :=
  encoder_probe_block_size c.type c.value.length

/-- Modelled from the spec: emit one component as `type, length, payload`. -/
def name_component_tlv_encode (e : ndn_encoder) (c : name_component) :
    Int × ndn_encoder :=
  let (r1, e) := encoder_append_type e c.type
  if r1 < 0 then (r1, e)
  else
    let (r2, e) := encoder_append_length e c.value.length
    if r2 < 0 then (r2, e)
    else encoder_append_raw_buffer_value e c.value

/-- Modelled from the spec: read one component TLV (any component type),
failing `OVERSIZE` past the configured component buffer. -/
def name_component_tlv_decode (d : ndn_decoder) :
    Int × name_component × ndn_decoder :=
  let (r1, t, d) := decoder_get_type d
  if r1 < 0 then (r1, default_component, d)
  else
    let (r2, l, d) := decoder_get_length d
    if r2 < 0 then (r2, default_component, d)
    else if l > NDN_NAME_COMPONENT_BUFFER_SIZE then (NDN_OVERSIZE, default_component, d)
    else
      let (r3, bs, d) := decoder_get_raw_buffer_value d l
      if r3 < 0 then (r3, default_component, d)
      else (NDN_SUCCESS, ⟨t, bs⟩, d)

/-- Lexicographic comparison of payload byte strings. -/
def bytes_compare : List Nat → List Nat → Int
  | [], [] => 0
  | [], _ :: _ => -1
  | _ :: _, [] => 1
  | a :: as, b :: bs => if a < b then -1 else if b < a then 1 else bytes_compare as bs

/-- Modelled from the spec: component comparison with the type tag as
primary key and lexicographic payload comparison; returns 0 iff equal. -/
def name_component_compare (a b : name_component) : Int :=
  if a.type < b.type then -1
  else if b.type < a.type then 1
  else bytes_compare a.value b.value

theorem bytes_compare_self (l : List Nat) : bytes_compare l l = 0 := by
  induction l with
  | nil => rfl
  | cons a as ih => simp [bytes_compare, ih]

theorem bytes_compare_eq_zero {a b : List Nat} (h : bytes_compare a b = 0) :
    a = b := by
  induction a generalizing b with
  | nil => cases b with
    | nil => rfl
    | cons x xs => simp [bytes_compare] at h
  | cons x xs ih =>
      cases b with
      | nil => simp [bytes_compare] at h
      | cons y ys =>
          by_cases h1 : x < y
          · simp [bytes_compare, h1] at h
          · by_cases h2 : y < x
            · simp [bytes_compare, h1, h2] at h
            · have hxy : x = y := by omega
              simp [bytes_compare, h1, h2] at h
              simp [hxy, ih h]

theorem name_component_compare_self (c : name_component) :
    name_component_compare c c = 0 := by
  simp [name_component_compare, bytes_compare_self]

theorem name_component_compare_eq_zero {a b : name_component}
    (h : name_component_compare a b = 0) : a = b := by
  unfold name_component_compare at h
  by_cases h1 : a.type < b.type
  · simp [h1] at h
  · by_cases h2 : b.type < a.type
    · simp [h1, h2] at h
    · have ht : a.type = b.type := by omega
      simp [h1, h2] at h
      have hv : a.value = b.value := bytes_compare_eq_zero h
      cases a; cases b
      simp_all

/-! ### Names

The name record: the fixed component array (length
`NDN_NAME_COMPONENTS_SIZE` in C) and the in-use component count.
The operations below are translated from `src/ndn-lite/encode/name.c`. -/

structure ndn_name where
  components : List name_component
  components_size : Nat
deriving DecidableEq

/-- Source `ndn_name_init` (name.c): copy the first `size` components
into the array when `size` is within bounds, else fail `OVERSIZE`. -/
def ndn_name_init (name : ndn_name) (components : List name_component)
    (size : Nat) : Int × ndn_name :=
  if size ≤ NDN_NAME_COMPONENTS_SIZE then
    (NDN_SUCCESS, ⟨components.take size ++ name.components.drop size, size⟩)
  else (NDN_OVERSIZE, name)

/-- Source `ndn_name_append_component` (name.c): write the component at
slot `components_size` and bump the count, or fail `OVERSIZE`. -/
def ndn_name_append_component (name : ndn_name) (component : name_component) :
    Int × ndn_name :=
  if name.components_size + 1 ≤ NDN_NAME_COMPONENTS_SIZE then
    (NDN_SUCCESS, ⟨name.components.set name.components_size component,
                   name.components_size + 1⟩)
  else (NDN_OVERSIZE, name)

/-- Component-decoding loop of source `ndn_name_tlv_decode` (name.c):
while the cursor is before `end_offset`, check the component counter
bound, decode one component into the slot at the counter, and repeat.
Recursion is on the remaining slot budget, mirroring the counter
check. -/
def ndn_name_decode_loop (d : ndn_decoder) (end_offset : Nat)
    (counter : Nat) (comps : List name_component) (budget : Nat) :
    Int × Nat × List name_component × ndn_decoder :=
  if d.offset < end_offset then
    match budget with
    | 0 => (NDN_OVERSIZE, counter, comps, d)
    | budget + 1 =>
        let (r, c, d) := name_component_tlv_decode d
        if r < 0 then (r, counter, comps, d)
        else ndn_name_decode_loop d end_offset (counter + 1)
               (comps.set counter c) budget
  else (NDN_SUCCESS, counter, comps, d)

/-- Source `ndn_name_tlv_decode` (name.c): read the `TLV_Name` header,
then decode components until the declared length is consumed; the
counter bound `counter >= NDN_NAME_COMPONENTS_SIZE -> OVERSIZE` is the
`budget` argument of the loop. -/
def ndn_name_tlv_decode (d : ndn_decoder) (name : ndn_name) :
    Int × ndn_name × ndn_decoder :=
  let (_, type, d) := decoder_get_type d
  if type ≠ TLV_Name then (NDN_WRONG_TLV_TYPE, name, d)
  else
    let (_, length, d) := decoder_get_length d
    let start_offset := d.offset
    let (r, counter, comps, d) :=
      ndn_name_decode_loop d (start_offset + length) 0 name.components
        NDN_NAME_COMPONENTS_SIZE
    if r < 0 then (r, ⟨comps, name.components_size⟩, d)
    else (NDN_SUCCESS, ⟨comps, counter⟩, d)

/-- Source `ndn_name_from_block` (name.c). -/
def ndn_name_from_block (name : ndn_name) (block_value : List Nat) :
    Int × ndn_name :=
  let d := decoder_init block_value
  let (r, name, _) := ndn_name_tlv_decode d name
  (r, name)

def nul_char : Char := Char.ofNat 0

/-- Scanning loop of source `ndn_name_from_string` (name.c), one call
per loop iteration of the C `while (i < size)`.  At an unescaped slash
the bytes since the previous divider become a component; reaching the
final index flushes the trailing component.  The C code ignores the
return code of `name_component_from_string` and returns early when an
append fails.  Characters past the list model the C string's
terminator region (`nul_char`).  The loop advances `i` by one per
iteration, so it runs for exactly `size - i` iterations; that
iteration budget is the structural `fuel` argument (the wrapper always
passes `size - i`, under which the fuel-exhausted branch is
unreachable). -/
def ndn_name_from_string_loop (string : List Char) (size : Nat) :
    Nat → Nat → Nat → ndn_name → Int × ndn_name
  | 0, _, _, name => (NDN_SUCCESS, name)
  | fuel + 1, i, last_divider, name =>
    if i < size then
      let step1 : Int × Nat × ndn_name :=
        if string.getD i nul_char = '/' then
          let (_, component) :=
            name_component_from_string (string.drop (last_divider + 1))
              (i - last_divider - 1)
          let (result, name) := ndn_name_append_component name component
          (result, i, name)
        else (NDN_SUCCESS, last_divider, name)
      let (result, last_divider, name) := step1
      if result < 0 then (result, name)
      else if i = size - 1 then
        let (_, component) :=
          name_component_from_string (string.drop (last_divider + 1))
            (i - last_divider)
        let (result, name) := ndn_name_append_component name component
        if result < 0 then (result, name)
        else ndn_name_from_string_loop string size fuel (i + 1) last_divider name
      else ndn_name_from_string_loop string size fuel (i + 1) last_divider name
    else (NDN_SUCCESS, name)

/-- Source `ndn_name_from_string` (name.c): reset the component count,
require a leading slash, then scan from index 1 (iteration budget
`size - 1`). -/
def ndn_name_from_string (name : ndn_name) (string : List Char) (size : Nat) :
    Int × ndn_name :=
  let name : ndn_name := ⟨name.components, 0⟩
  if string.getD 0 nul_char ≠ '/' then (NDN_NAME_INVALID_FORMAT, name)
  else ndn_name_from_string_loop string size (size - 1) 1 0 name

/-- Component-emitting loop of source `ndn_name_tlv_encode` (name.c). -/
def name_components_encode_loop (e : ndn_encoder) :
    List name_component → Int × ndn_encoder
  | [] => (NDN_SUCCESS, e)
  | c :: cs =>
      let (r, e) := name_component_tlv_encode e c
      if r < 0 then (r, e) else name_components_encode_loop e cs

/-- Source `ndn_name_tlv_encode` (name.c): emit `TLV_Name`, the probed
total component length, then each in-use component. -/
def ndn_name_tlv_encode (e : ndn_encoder) (name : ndn_name) : Int × ndn_encoder :=
  let (_, e) := encoder_append_type e TLV_Name
  let value_size := ((name.components.take name.components_size).map
    name_component_probe_block_size).sum
  let (_, e) := encoder_append_length e value_size
  name_components_encode_loop e (name.components.take name.components_size)

/-- Modelled from the spec: encoded size of a whole name TLV, probed by
summing each in-use component's probed size. -/
def ndn_name_probe_block_size (name : ndn_name) : Nat :=
  encoder_probe_block_size TLV_Name
    (((name.components.take name.components_size).map
      name_component_probe_block_size).sum)

/-- Source `ndn_name_compare` (name.c): `0` iff the component counts are
equal and every in-use component pair compares equal; the C loop's early
`return -1` on the first mismatch is observably this bounded check. -/
def ndn_name_compare (lhs rhs : ndn_name) : Int :=
  if lhs.components_size ≠ rhs.components_size then -1
  else if (List.range lhs.components_size).all (fun i =>
      name_component_compare (lhs.components.getD i default_component)
        (rhs.components.getD i default_component) == 0) then 0
  else -1

/-- Source `ndn_name_is_prefix_of` (name.c): `1` when `lhs` has more
components than `rhs` or some in-use component of `lhs` differs from
`rhs`'s component at the same slot; `0` otherwise (prefix, equality
included). -/
def ndn_name_is_prefix_of (lhs rhs : ndn_name) : Int :=
  if lhs.components_size > rhs.components_size then 1
  else if (List.range lhs.components_size).all (fun i =>
      name_component_compare (lhs.components.getD i default_component)
        (rhs.components.getD i default_component) == 0) then 0
  else 1

/-! ### Metainfo

Modelled from the spec: the metainfo source is not in the repository
snapshot.  Metainfo is an optional bag of sub-TLVs — content-type,
freshness-period, final-block-id — any subset absent, order fixed.
Enable flags follow the C `uint8_t` flag convention (`> 0` is set). -/

structure ndn_metainfo where
  content_type : Nat
  enable_ContentType : Nat
  freshness_period : Nat
  enable_FreshnessPeriod : Nat
  final_block_id : name_component
  enable_FinalBlockId : Nat
deriving DecidableEq

/-- Modelled from the spec: total size of the metainfo value bytes. -/
def ndn_metainfo_value_size (m : ndn_metainfo) : Nat :=
  (if m.enable_ContentType > 0 then
    encoder_probe_block_size TLV_ContentType
      (encoder_probe_uint_length m.content_type) else 0) +
  (if m.enable_FreshnessPeriod > 0 then
    encoder_probe_block_size TLV_FreshnessPeriod
      (encoder_probe_uint_length m.freshness_period) else 0) +
  (if m.enable_FinalBlockId > 0 then
    encoder_probe_block_size TLV_FinalBlockId
      (name_component_probe_block_size m.final_block_id) else 0)

/-- Modelled from the spec: probed size of the whole metainfo TLV. -/
def ndn_metainfo_probe_block_size (m : ndn_metainfo) : Nat :=
  encoder_probe_block_size TLV_MetaInfo (ndn_metainfo_value_size m)

/-- Modelled from the spec: emit `TLV_MetaInfo` and the present sub-TLVs
in the fixed order content-type, freshness-period, final-block-id. -/
def ndn_metainfo_tlv_encode (e : ndn_encoder) (m : ndn_metainfo) :
    Int × ndn_encoder :=
  let (_, e) := encoder_append_type e TLV_MetaInfo
  let (_, e) := encoder_append_length e (ndn_metainfo_value_size m)
  let e :=
    if m.enable_ContentType > 0 then
      let (_, e) := encoder_append_type e TLV_ContentType
      let (_, e) := encoder_append_length e (encoder_probe_uint_length m.content_type)
      let (_, e) := encoder_append_uint_value e m.content_type
      e
    else e
  let e :=
    if m.enable_FreshnessPeriod > 0 then
      let (_, e) := encoder_append_type e TLV_FreshnessPeriod
      let (_, e) := encoder_append_length e (encoder_probe_uint_length m.freshness_period)
      let (_, e) := encoder_append_uint_value e m.freshness_period
      e
    else e
  let e :=
    if m.enable_FinalBlockId > 0 then
      let (_, e) := encoder_append_type e TLV_FinalBlockId
      let (_, e) := encoder_append_length e (name_component_probe_block_size m.final_block_id)
      let (_, e) := name_component_tlv_encode e m.final_block_id
      e
    else e
  (NDN_SUCCESS, e)

/-- Modelled from the spec: decode a metainfo TLV.  When the next type
is not `TLV_MetaInfo` the byte is unread and all fields are absent;
otherwise the optional sub-TLVs are read in their fixed order, setting
the matching enable flag for each present field, and anything else
before the declared end is ignored.  Read codes inside the optional
section are not checked (failed reads yield dummy values, as the C
callers ignore these codes). -/
def ndn_metainfo_tlv_decode (d : ndn_decoder) (m : ndn_metainfo) :
    Int × ndn_metainfo × ndn_decoder :=
  let (r0, t, d) := decoder_get_type d
  if r0 < 0 then (r0, m, d)
  else if t ≠ TLV_MetaInfo then
    (NDN_SUCCESS,
     { m with enable_ContentType := 0, enable_FreshnessPeriod := 0,
              enable_FinalBlockId := 0 },
     decoder_move_backward d (var_size t))
  else
    let (_, length, d) := decoder_get_length d
    let end_offset := d.offset + length
    let m := { m with enable_ContentType := 0, enable_FreshnessPeriod := 0,
                      enable_FinalBlockId := 0 }
    let (m, d) :=
      if d.offset < end_offset then
        let (_, t1, d1) := decoder_get_type d
        if t1 = TLV_ContentType then
          let (_, l1, d1) := decoder_get_length d1
          let (_, v1, d1) := decoder_get_uint d1 l1
          ({ m with content_type := v1, enable_ContentType := 1 }, d1)
        else (m, d)
      else (m, d)
    let (m, d) :=
      if d.offset < end_offset then
        let (_, t2, d2) := decoder_get_type d
        if t2 = TLV_FreshnessPeriod then
          let (_, l2, d2) := decoder_get_length d2
          let (_, v2, d2) := decoder_get_uint d2 l2
          ({ m with freshness_period := v2, enable_FreshnessPeriod := 1 }, d2)
        else (m, d)
      else (m, d)
    let (m, d) :=
      if d.offset < end_offset then
        let (_, t3, d3) := decoder_get_type d
        if t3 = TLV_FinalBlockId then
          let (_, _, d3) := decoder_get_length d3
          let (_, c3, d3) := name_component_tlv_decode d3
          ({ m with final_block_id := c3, enable_FinalBlockId := 1 }, d3)
        else (m, d)
      else (m, d)
    (NDN_SUCCESS, m, ⟨d.input, end_offset⟩)

/-! ### Signature record

Translated from `src/ndn-lite/encode/signature.h`. -/

structure ndn_validity_period where
  not_before : List Nat
  not_after : List Nat
deriving DecidableEq

structure ndn_signature where
  sig_type : Nat
  sig_value : List Nat
  sig_size : Nat
  key_locator_name : ndn_name
  enable_SignatureInfoNonce : Nat
  signature_info_nonce : Nat
  enable_Timestamp : Nat
  timestamp : Nat
  validity_period : ndn_validity_period
  enable_KeyLocator : Nat
  enable_ValidityPeriod : Nat
deriving DecidableEq

/-- Source `ndn_signature_init` (signature.h): disable key locator,
validity period, nonce and timestamp. -/
def ndn_signature_init (signature : ndn_signature) : ndn_signature :=
  { signature with enable_KeyLocator := 0, enable_ValidityPeriod := 0,
                   enable_SignatureInfoNonce := 0, signature_info_nonce := 0,
                   enable_Timestamp := 0, timestamp := 0 }

/-- Source `ndn_signature_set_signature_type` (signature.h): set the
expected signature size for the known signature types, or fail with
`SEC_UNSUPPORT_SIGN_TYPE`. -/
def ndn_signature_set_signature_type (signature : ndn_signature) (type : Nat) :
    Int × ndn_signature :=
  if type = NDN_SIG_TYPE_DIGEST_SHA256 then
    (NDN_SUCCESS, { signature with sig_size := NDN_SEC_SHA256_HASH_SIZE,
                                   sig_type := type })
  else if type = NDN_SIG_TYPE_ECDSA_SHA256 then
    (NDN_SUCCESS, { signature with sig_size := NDN_ASN1_ECDSA_MAX_ENCODED_SIG_SIZE,
                                   sig_type := type })
  else if type = NDN_SIG_TYPE_HMAC_SHA256 then
    (NDN_SUCCESS, { signature with sig_size := NDN_SEC_SHA256_HASH_SIZE,
                                   sig_type := type })
  else (NDN_SEC_UNSUPPORT_SIGN_TYPE, signature)

/-- Source `ndn_signature_set_signature` (signature.h): reject sizes
above the signature buffer with `OVERSIZE`; require size exactly 64 for
ECDSA and exactly 32 for HMAC and DIGEST (`SEC_WRONG_SIG_SIZE`
otherwise); then copy the bytes and record the size. -/
def ndn_signature_set_signature (signature : ndn_signature)
    (sig_value : List Nat) (sig_size : Nat) : Int × ndn_signature :=
  if sig_size > NDN_SIGNATURE_BUFFER_SIZE then (NDN_OVERSIZE, signature)
  else if signature.sig_type = NDN_SIG_TYPE_ECDSA_SHA256 ∧ sig_size ≠ 64 then
    (NDN_SEC_WRONG_SIG_SIZE, signature)
  else if signature.sig_type = NDN_SIG_TYPE_HMAC_SHA256 ∧ sig_size ≠ 32 then
    (NDN_SEC_WRONG_SIG_SIZE, signature)
  else if signature.sig_type = NDN_SIG_TYPE_DIGEST_SHA256 ∧ sig_size ≠ 32 then
    (NDN_SEC_WRONG_SIG_SIZE, signature)
  else
    (NDN_SUCCESS,
     { signature with sig_size := sig_size,
                      sig_value := sig_value.take sig_size ++
                                   signature.sig_value.drop sig_size })

/-- Source `ndn_signature_set_key_locator` (signature.h). -/
def ndn_signature_set_key_locator (signature : ndn_signature)
    (key_name : ndn_name) : ndn_signature :=
  { signature with enable_KeyLocator := 1, key_locator_name := key_name }

/-- Source `ndn_signature_set_timestamp` (signature.h). -/
def ndn_signature_set_timestamp (signature : ndn_signature)
    (timestamp : Nat) : ndn_signature :=
  { signature with enable_Timestamp := 1, timestamp := timestamp }

/-- Source `ndn_signature_set_signature_info_nonce` (signature.h). -/
def ndn_signature_set_signature_info_nonce (signature : ndn_signature)
    (nonce : Nat) : ndn_signature :=
  { signature with enable_SignatureInfoNonce := 1, signature_info_nonce := nonce }

/-- Source `ndn_signature_set_validity_period` (signature.h): copy the
two 15-byte ISO 8601 timestamps. -/
def ndn_signature_set_validity_period (signature : ndn_signature)
    (not_before not_after : List Nat) : ndn_signature :=
  { signature with enable_ValidityPeriod := 1,
                   validity_period := ⟨not_before.take 15, not_after.take 15⟩ }

/-- Inner value size accumulated by source
`ndn_signature_info_probe_block_size` (signature.h). -/
def ndn_signature_info_value_size (signature : ndn_signature) : Nat :=
  encoder_probe_block_size TLV_SignatureType 1 +
  (if signature.enable_KeyLocator > 0 then
    encoder_probe_block_size TLV_KeyLocator
      (ndn_name_probe_block_size signature.key_locator_name) else 0) +
  (if signature.enable_ValidityPeriod > 0 then
    encoder_probe_block_size TLV_ValidityPeriod
      (encoder_probe_block_size TLV_NotBefore 15 +
       encoder_probe_block_size TLV_NotAfter 15) else 0) +
  (if signature.enable_SignatureInfoNonce > 0 then
    encoder_probe_block_size TLV_Nonce 4 else 0) +
  (if signature.enable_Timestamp > 0 then
    encoder_probe_block_size TLV_SignedInterestTimestamp
      (encoder_probe_uint_length signature.timestamp) else 0)

/-- Source `ndn_signature_info_probe_block_size` (signature.h). -/
def ndn_signature_info_probe_block_size (signature : ndn_signature) : Nat :=
  encoder_probe_block_size TLV_SignatureInfo
    (ndn_signature_info_value_size signature)

/-- Source `ndn_signature_value_probe_block_size` (signature.h). -/
def ndn_signature_value_probe_block_size (signature : ndn_signature) : Nat :=
  encoder_probe_block_size TLV_SignatureValue signature.sig_size

/-- Modelled from the spec: `signature.c` is not in the repository
snapshot.  Emit `TLV_SignatureInfo` containing, in strict order, the
one-byte signature type and the enabled optional fields: key locator,
validity period, nonce, signed-interest timestamp. -/
def ndn_signature_info_tlv_encode (e : ndn_encoder) (signature : ndn_signature) :
    Int × ndn_encoder :=
  let (_, e) := encoder_append_type e TLV_SignatureInfo
  let (_, e) := encoder_append_length e (ndn_signature_info_value_size signature)
  let (_, e) := encoder_append_type e TLV_SignatureType
  let (_, e) := encoder_append_length e 1
  let (_, e) := encoder_append_raw_buffer_value e [signature.sig_type % 256]
  let e :=
    if signature.enable_KeyLocator > 0 then
      let (_, e) := encoder_append_type e TLV_KeyLocator
      let (_, e) := encoder_append_length e
        (ndn_name_probe_block_size signature.key_locator_name)
      let (_, e) := ndn_name_tlv_encode e signature.key_locator_name
      e
    else e
  let e :=
    if signature.enable_ValidityPeriod > 0 then
      let (_, e) := encoder_append_type e TLV_ValidityPeriod
      let (_, e) := encoder_append_length e
        (encoder_probe_block_size TLV_NotBefore 15 +
         encoder_probe_block_size TLV_NotAfter 15)
      let (_, e) := encoder_append_type e TLV_NotBefore
      let (_, e) := encoder_append_length e 15
      let (_, e) := encoder_append_raw_buffer_value e
        (signature.validity_period.not_before.take 15)
      let (_, e) := encoder_append_type e TLV_NotAfter
      let (_, e) := encoder_append_length e 15
      let (_, e) := encoder_append_raw_buffer_value e
        (signature.validity_period.not_after.take 15)
      e
    else e
  let e :=
    if signature.enable_SignatureInfoNonce > 0 then
      let (_, e) := encoder_append_type e TLV_Nonce
      let (_, e) := encoder_append_length e 4
      let (_, e) := encoder_append_raw_buffer_value e
        (be_bytes 4 signature.signature_info_nonce)
      e
    else e
  let e :=
    if signature.enable_Timestamp > 0 then
      let (_, e) := encoder_append_type e TLV_SignedInterestTimestamp
      let (_, e) := encoder_append_length e
        (encoder_probe_uint_length signature.timestamp)
      let (_, e) := encoder_append_uint_value e signature.timestamp
      e
    else e
  (NDN_SUCCESS, e)

/-- Modelled from the spec: decode a signature-info TLV.  The decoder
mirrors the emission order, requires the leading signature-type
sub-TLV, sets the matching enable flag for each optional field found,
and ignores anything else up to the declared signature-info length.
Read codes inside the optional section are not checked. -/
def ndn_signature_info_tlv_decode_optional (end_offset : Nat)
    (signature : ndn_signature) (d : ndn_decoder) :
    ndn_signature × ndn_decoder :=
  let (signature, d) :=
        if d.offset < end_offset then
          let (_, t2, d2) := decoder_get_type d
          if t2 = TLV_KeyLocator then
            let (_, _, d2) := decoder_get_length d2
            let (_, kl, d2) := ndn_name_tlv_decode d2 signature.key_locator_name
            ({ signature with key_locator_name := kl, enable_KeyLocator := 1 }, d2)
          else (signature, d)
        else (signature, d)
      let (signature, d) :=
        if d.offset < end_offset then
          let (_, t3, d3) := decoder_get_type d
          if t3 = TLV_ValidityPeriod then
            let (_, _, d3) := decoder_get_length d3
            let (_, _, d3) := decoder_get_type d3
            let (_, _, d3) := decoder_get_length d3
            let (_, nb, d3) := decoder_get_raw_buffer_value d3 15
            let (_, _, d3) := decoder_get_type d3
            let (_, _, d3) := decoder_get_length d3
            let (_, na, d3) := decoder_get_raw_buffer_value d3 15
            ({ signature with validity_period := ⟨nb, na⟩,
                              enable_ValidityPeriod := 1 }, d3)
          else (signature, d)
        else (signature, d)
      let (signature, d) :=
        if d.offset < end_offset then
          let (_, t4, d4) := decoder_get_type d
          if t4 = TLV_Nonce then
            let (_, _, d4) := decoder_get_length d4
            let (_, nonce, d4) := decoder_get_uint d4 4
            ({ signature with signature_info_nonce := nonce,
                              enable_SignatureInfoNonce := 1 }, d4)
          else (signature, d)
        else (signature, d)
      let (signature, d) :=
        if d.offset < end_offset then
          let (_, t5, d5) := decoder_get_type d
          if t5 = TLV_SignedInterestTimestamp then
            let (_, l5, d5) := decoder_get_length d5
            let (_, ts, d5) := decoder_get_uint d5 l5
            ({ signature with timestamp := ts, enable_Timestamp := 1 }, d5)
          else (signature, d)
        else (signature, d)
  (signature, d)

def ndn_signature_info_tlv_decode (d : ndn_decoder) (signature : ndn_signature) :
    Int × ndn_signature × ndn_decoder :=
  let (r0, t, d) := decoder_get_type d
  if r0 < 0 then (r0, signature, d)
  else if t ≠ TLV_SignatureInfo then (NDN_WRONG_TLV_TYPE, signature, d)
  else
    let (_, length, d) := decoder_get_length d
    let end_offset := d.offset + length
    let (_, t1, d) := decoder_get_type d
    if t1 ≠ TLV_SignatureType then (NDN_WRONG_TLV_TYPE, signature, d)
    else
      let (_, _, d) := decoder_get_length d
      let (_, sig_type, d) := decoder_get_uint d 1
      let signature :=
        { signature with sig_type := sig_type, enable_KeyLocator := 0,
                         enable_ValidityPeriod := 0,
                         enable_SignatureInfoNonce := 0, enable_Timestamp := 0 }
      let (signature, d) := ndn_signature_info_tlv_decode_optional end_offset signature d
      (NDN_SUCCESS, signature, ⟨d.input, end_offset⟩)

/-- Modelled from the spec: `TLV_SignatureValue` holds the raw signature
bytes at the length recorded in the signature record. -/
def ndn_signature_value_tlv_encode (e : ndn_encoder) (signature : ndn_signature) :
    Int × ndn_encoder :=
  let (_, e) := encoder_append_type e TLV_SignatureValue
  let (_, e) := encoder_append_length e signature.sig_size
  encoder_append_raw_buffer_value e (signature.sig_value.take signature.sig_size)

/-- Modelled from the spec: decode a signature-value TLV into the
signature record's bounded signature buffer. -/
def ndn_signature_value_tlv_decode (d : ndn_decoder) (signature : ndn_signature) :
    Int × ndn_signature × ndn_decoder :=
  let (r0, t, d) := decoder_get_type d
  if r0 < 0 then (r0, signature, d)
  else if t ≠ TLV_SignatureValue then (NDN_WRONG_TLV_TYPE, signature, d)
  else
    let (_, l, d) := decoder_get_length d
    if l > NDN_SIGNATURE_BUFFER_SIZE then (NDN_OVERSIZE, signature, d)
    else
      let (r1, bs, d) := decoder_get_raw_buffer_value d l
      if r1 < 0 then (r1, signature, d)
      else (NDN_SUCCESS,
            { signature with sig_size := l,
                             sig_value := bs ++ signature.sig_value.drop l }, d)

/-! ### Crypto collaborators

Modelled from the spec: the crypto backends are external collaborators;
the spec fixes only their contracts (`sha256_sign(msg) -> digest(32)`,
`ecdsa_sign(msg, priv_key, curve) -> der_sig (variable)`,
`aes_cbc_encrypt(pt, iv, key) -> ct`).  The C source dispatches through
ambient global backend registries; here the backend is an explicit
function argument, per the spec's capability-object design note. -/

/-- Modelled from the spec: SHA-256 signing writes the 32-byte digest of
the input into the output buffer, failing `OVERSIZE` when the output
buffer is smaller than 32 bytes.  `sha` is the backend digest function. -/
def ndn_sha256_sign (sha : List Nat → List Nat) (input_value : List Nat)
    (output_max_size : Nat) : Int × List Nat × Nat :=
  if output_max_size < NDN_SEC_SHA256_HASH_SIZE then (NDN_OVERSIZE, [], 0)
  else (NDN_SUCCESS, sha input_value, NDN_SEC_SHA256_HASH_SIZE)

/-- Modelled from the spec: SHA-256 verification recomputes the digest
and compares it with the 32-byte signature value. -/
def ndn_sha256_verify (sha : List Nat → List Nat) (input_value : List Nat)
    (sig_value : List Nat) : Int :=
  if sig_value.length ≠ NDN_SEC_SHA256_HASH_SIZE then NDN_SEC_WRONG_SIG_SIZE
  else if sha input_value = sig_value then NDN_SUCCESS else NDN_SEC_FAIL_VERIFY

/-- The ECC private key record: the abstract key material lives in the
backend; the packet layer reads only `key_id` and `curve_type`. -/
structure ndn_ecc_prv where
  key_id : Nat
  curve_type : Nat
deriving DecidableEq

/-- Modelled from the spec: ECDSA signing produces a variable-length
ASN.1 DER signature of the input; `ecdsa` is the backend signer (closed
over the private key and curve), and signing fails when the signature
does not fit the output buffer. -/
def ndn_ecdsa_sign (ecdsa : List Nat → List Nat) (input_value : List Nat)
    (output_max_size : Nat) : Int × List Nat × Nat :=
  let s := ecdsa input_value
  if s.length ≤ output_max_size then (NDN_SUCCESS, s, s.length)
  else (NDN_OVERSIZE, [], 0)

/-- The AES backend interface of `ndn-lite-aes.h`: the `cbc_encrypt`
implementation receives the input bytes, the (already narrowed) input
and output sizes, and the IV, and returns the ciphertext bytes it
writes. -/
structure ndn_aes_backend where
  cbc_encrypt : List Nat → Nat → Nat → List Nat → Int × List Nat

/-- Source `ndn_aes_cbc_encrypt` (ndn-lite-aes.c): forward to the
backend's `cbc_encrypt`.  The C prototypes declare `input_size` and
`output_size` as `uint8_t`, so both 32-bit sizes narrow mod `2^8` at
this call boundary. -/
def ndn_aes_cbc_encrypt (backend : ndn_aes_backend) (input_value : List Nat)
    (input_size : Nat) (output_size : Nat) (aes_iv : List Nat) :
    Int × List Nat :=
  backend.cbc_encrypt input_value (input_size % 2 ^ 8) (output_size % 2 ^ 8) aes_iv

/-! ### Data packets

Translated from `src/ndn-lite/encode/data.c`.  In the C source most
intermediate return codes are discarded (the calls appear as bare
statements); the translation mirrors that by binding them to `_`. -/

structure ndn_data where
  name : ndn_name
  metainfo : ndn_metainfo
  content_value : List Nat
  content_size : Nat
  signature : ndn_signature
deriving DecidableEq

/-- Source `_ndn_data_prepare_unsigned_block` (data.c): emit name,
metainfo, content TLV and signature info; the C function ignores all
sub-results and returns the constant 0. -/
def _ndn_data_prepare_unsigned_block (e : ndn_encoder) (data : ndn_data) :
    ndn_encoder :=
  let (_, e) := ndn_name_tlv_encode e data.name
  let (_, e) := ndn_metainfo_tlv_encode e data.metainfo
  let (_, e) := encoder_append_type e TLV_Content
  let (_, e) := encoder_append_length e data.content_size
  let (_, e) := encoder_append_raw_buffer_value e
    (data.content_value.take data.content_size)
  let (_, e) := ndn_signature_info_tlv_encode e data.signature
  e

/-- Source `_prepare_signature_info` (data.c): initialize the signature,
set its type, copy the producer identity into the key locator, then
append a `KEY` component (the C passes `sizeof("KEY")`, which includes
the string's NUL terminator, so the component carries 4 bytes) and the
4-byte big-endian key id, both by direct array writes. -/
def _prepare_signature_info (data : ndn_data) (signature_type : Nat)
    (producer_identity : ndn_name) (key_id : Nat) : ndn_data :=
  let raw_key_id := be_bytes 4 (key_id % 2 ^ 32)
  let sig := ndn_signature_init data.signature
  let (_, sig) := ndn_signature_set_signature_type sig signature_type
  let sig := ndn_signature_set_key_locator sig producer_identity
  let pos := sig.key_locator_name.components_size
  let (_, key_comp) := name_component_from_string ['K', 'E', 'Y', nul_char] 4
  let kname : ndn_name :=
    ⟨sig.key_locator_name.components.set pos key_comp, pos + 1⟩
  let pos := kname.components_size
  let (_, id_comp) := name_component_from_buffer TLV_GenericNameComponent raw_key_id 4
  let kname : ndn_name := ⟨kname.components.set pos id_comp, pos + 1⟩
  { data with signature := { sig with key_locator_name := kname } }

/-- Source `ndn_data_tlv_encode_digest_sign` (data.c): probe the total
length, emit the `TLV_Data` header, emit the unsigned block, hash the
signed byte range into the signature buffer, then emit the
signature-value TLV. -/
def ndn_data_tlv_encode_digest_sign (sha : List Nat → List Nat)
    (e : ndn_encoder) (data : ndn_data) : Int × ndn_encoder × ndn_data :=
  let sig := ndn_signature_init data.signature
  let (_, sig) := ndn_signature_set_signature_type sig NDN_SIG_TYPE_DIGEST_SHA256
  let data := { data with signature := sig }
  let data_buffer_size :=
    ndn_name_probe_block_size data.name +
    ndn_metainfo_probe_block_size data.metainfo +
    encoder_probe_block_size TLV_Content data.content_size +
    ndn_signature_info_probe_block_size data.signature +
    ndn_signature_value_probe_block_size data.signature
  let (_, e) := encoder_append_type e TLV_Data
  let (_, e) := encoder_append_length e data_buffer_size
  let sign_input_starting := e.offset
  let e := _ndn_data_prepare_unsigned_block e data
  let sign_input_ending := e.offset
  let (result, sig_bytes, _) := ndn_sha256_sign sha
    ((e.output.drop sign_input_starting).take
      (sign_input_ending - sign_input_starting))
    data.signature.sig_size
  let data := { data with signature :=
    { data.signature with sig_value :=
        sig_bytes ++ data.signature.sig_value.drop sig_bytes.length } }
  if result < 0 then (result, e, data)
  else
    let (_, e) := ndn_signature_value_tlv_encode e data.signature
    (NDN_SUCCESS, e, data)

/-- Copy `n` bytes within the buffer from offset `src` to offset `dst`
(C `memmove`); bytes read past the written region are uninitialized in
C and modelled as 0. -/
def mem_move (out : List Nat) (dst src n : Nat) : List Nat :=
  let bytes := (out.drop src).take n
  buf_write out dst (bytes ++ List.replicate (n - bytes.length) 0)

/-- Source `ndn_data_tlv_encode_ecdsa_sign` (data.c): reserve the
maximal header gap, emit the unsigned block, sign it, probe the outer
length (counting only `sig_len` for the signature value), write the
outer length and type immediately before the unsigned block, memmove
the packet to offset 0, reset the cursor with the source's literal
`+ 1` arithmetic, and emit the signature-value TLV. -/
def ndn_data_tlv_encode_ecdsa_sign (ecdsa : List Nat → List Nat)
    (e : ndn_encoder) (data : ndn_data) (producer_identity : ndn_name)
    (prv_key : ndn_ecc_prv) : Int × ndn_encoder × ndn_data :=
  let data := _prepare_signature_info data NDN_SIG_TYPE_ECDSA_SHA256
    producer_identity prv_key.key_id
  let initial_offset := NDN_TLV_TYPE_FIELD_MAX_SIZE + NDN_TLV_LENGTH_FIELD_MAX_SIZE
  let (_, e) := encoder_move_forward e initial_offset
  let sign_input_starting := e.offset
  let e := _ndn_data_prepare_unsigned_block e data
  let sign_input_ending := e.offset
  let (result, sig_bytes, sig_len) := ndn_ecdsa_sign ecdsa
    ((e.output.drop sign_input_starting).take
      (sign_input_ending - sign_input_starting))
    data.signature.sig_size
  let data := { data with signature :=
    { data.signature with sig_value :=
        sig_bytes ++ data.signature.sig_value.drop sig_bytes.length } }
  let data_buffer_size :=
    ndn_name_probe_block_size data.name +
    ndn_metainfo_probe_block_size data.metainfo +
    encoder_probe_block_size TLV_Content data.content_size +
    ndn_signature_info_probe_block_size data.signature +
    sig_len
  let data_tlv_length_field_size := encoder_get_var_size data_buffer_size
  let e := { e with offset := sign_input_starting - data_tlv_length_field_size }
  let (_, e) := encoder_append_length e data_buffer_size
  let data_tlv_type_field_size := encoder_get_var_size TLV_Data
  let e := { e with offset :=
    e.offset - (data_tlv_length_field_size + data_tlv_type_field_size) }
  let (_, e) := encoder_append_type e TLV_Data
  let data_size_without_signature := data_tlv_type_field_size +
    data_tlv_length_field_size + data_buffer_size
  let e := { e with output := (mem_move e.output 0
    (initial_offset - (data_tlv_type_field_size + data_tlv_length_field_size))
    data_size_without_signature) }
  if result < 0 then (result, e, data)
  else
    let e := { e with offset := e.offset + data_tlv_type_field_size +
      data_tlv_length_field_size + data_buffer_size - sig_len -
      initial_offset + 1 }
    let data := { data with signature := { data.signature with sig_size := sig_len } }
    let (_, e) := ndn_signature_value_tlv_encode e data.signature
    (NDN_SUCCESS, e, data)

/-- Content step of the Data decoders (data.c): the switch block that
appears verbatim in all four decode variants (`no_verify`,
`digest_verify`, `ecdsa_verify`, `hmac_verify`).  Peek the next TLV
type: `TLV_Content` reads the declared bytes into the content buffer
(OVERSIZE past the configured bound; the raw-read code is ignored, as
in the source); `TLV_SignatureInfo` rewinds one byte and records empty
content; anything else is `WRONG_TLV_TYPE`. -/
def ndn_data_decode_content_step (d : ndn_decoder) (data : ndn_data) :
    Int × ndn_data × ndn_decoder :=
  let (_, probe, d) := decoder_get_type d
  if probe = TLV_Content then
    let (_, probe, d) := decoder_get_length d
    if probe > NDN_CONTENT_BUFFER_SIZE then (NDN_OVERSIZE, data, d)
    else
      let data := { data with content_size := probe }
      let (_, bs, d) := decoder_get_raw_buffer_value d data.content_size
      let data := { data with content_value :=
        bs ++ data.content_value.drop bs.length }
      (NDN_SUCCESS, data, d)
  else if probe = TLV_SignatureInfo then
    (NDN_SUCCESS, { data with content_size := 0 }, decoder_move_backward d 1)
  else (NDN_WRONG_TLV_TYPE, data, d)

/-- Source `ndn_data_tlv_decode_no_verify` (data.c): walk the outer
header, name, metainfo, content, signature info and signature value.
The source checks only the content-switch code and the final
signature-value code. -/
def ndn_data_tlv_decode_no_verify (data : ndn_data) (block_value : List Nat)
    (block_size : Nat) : Int × ndn_data :=
  let d := decoder_init (block_value.take block_size)
  let (_, _, d) := decoder_get_type d
  let (_, _, d) := decoder_get_length d
  let (_, name, d) := ndn_name_tlv_decode d data.name
  let data := { data with name := name }
  let (_, mi, d) := ndn_metainfo_tlv_decode d data.metainfo
  let data := { data with metainfo := mi }
  let (rc, data, d) := ndn_data_decode_content_step d data
  if rc < 0 then (rc, data)
  else
    let (_, sig, d) := ndn_signature_info_tlv_decode d data.signature
    let data := { data with signature := sig }
    let (result, sig, _) := ndn_signature_value_tlv_decode d data.signature
    let data := { data with signature := sig }
    if result < 0 then (result, data) else (NDN_SUCCESS, data)

/-- Source `ndn_data_tlv_decode_digest_verify` (data.c): decode like
`no_verify`, recording the signed byte range (after the outer length up
to the end of signature info), then recompute the SHA-256 digest over
that range and compare it with the decoded signature value. -/
def ndn_data_tlv_decode_digest_verify (sha : List Nat → List Nat)
    (data : ndn_data) (block_value : List Nat) (block_size : Nat) :
    Int × ndn_data :=
  let d := decoder_init (block_value.take block_size)
  let (_, _, d) := decoder_get_type d
  let (_, _, d) := decoder_get_length d
  let input_starting := d.offset
  let (_, name, d) := ndn_name_tlv_decode d data.name
  let data := { data with name := name }
  let (_, mi, d) := ndn_metainfo_tlv_decode d data.metainfo
  let data := { data with metainfo := mi }
  let (rc, data, d) := ndn_data_decode_content_step d data
  if rc < 0 then (rc, data)
  else
    let (_, sig, d) := ndn_signature_info_tlv_decode d data.signature
    let data := { data with signature := sig }
    let input_ending := d.offset
    let (_, sig, d) := ndn_signature_value_tlv_decode d data.signature
    let data := { data with signature := sig }
    let result := ndn_sha256_verify sha
      ((d.input.drop input_starting).take (input_ending - input_starting))
      (data.signature.sig_value.take data.signature.sig_size)
    if result = 0 then (NDN_SUCCESS, data) else (result, data)

/-- Source `ndn_data_set_encrypted_content` (data.c): probe the
encrypted-content envelope size against the content buffer, zero the
content buffer, emit the envelope header, key-id name, IV TLV and
payload header into `data.content_value`, invoke AES-CBC to write the
ciphertext at the cursor, then advance the cursor — by the *stale*
`data->content_size` read before it is assigned, plus one block — and
record the cursor as the new `content_size`. -/
def ndn_data_set_encrypted_content (backend : ndn_aes_backend)
    (data : ndn_data) (content_value : List Nat) (content_size : Nat)
    (key_id : ndn_name) (aes_iv : List Nat) : Int × ndn_data :=
  let v_size := ndn_name_probe_block_size key_id +
    encoder_probe_block_size TLV_AC_AES_IV NDN_AES_BLOCK_SIZE +
    encoder_probe_block_size TLV_AC_ENCRYPTED_PAYLOAD
      (content_size + NDN_AES_BLOCK_SIZE)
  if v_size > NDN_CONTENT_BUFFER_SIZE then (NDN_OVERSIZE, data)
  else
    let e := encoder_init NDN_CONTENT_BUFFER_SIZE
    let (_, e) := encoder_append_type e TLV_AC_ENCRYPTED_CONTENT
    let (_, e) := encoder_append_length e v_size
    let (_, e) := ndn_name_tlv_encode e key_id
    let (_, e) := encoder_append_type e TLV_AC_AES_IV
    let (_, e) := encoder_append_length e NDN_AES_BLOCK_SIZE
    let (_, e) := encoder_append_raw_buffer_value e (aes_iv.take NDN_AES_BLOCK_SIZE)
    let (_, e) := encoder_append_type e TLV_AC_ENCRYPTED_PAYLOAD
    let (_, e) := encoder_append_length e (content_size + NDN_AES_BLOCK_SIZE)
    let (_, ct) := ndn_aes_cbc_encrypt backend (content_value.take content_size)
      content_size (e.output_max_size - e.offset) aes_iv
    let e := { e with output := buf_write e.output e.offset ct }
    let e := { e with offset := e.offset + data.content_size + NDN_AES_BLOCK_SIZE }
    let data := { data with
      content_value := e.output ++
        List.replicate (NDN_CONTENT_BUFFER_SIZE - e.output.length) 0,
      content_size := e.offset }
    (NDN_SUCCESS, data)

/-! ### Direct face callback dispatch

Translated from `src/ndn-lite/face/direct-face.c`.  Callbacks are
function pointers in C; here they are opaque identifiers, and the
result carries the list of callback invocations the call performs (the
C field `is_prefix` is rendered `prefix_flag`). -/

structure ndn_cb_entry where
  interest_name : ndn_name
  prefix_flag : Nat
  on_data : Nat
  on_interest : Nat
  on_timeout : Nat
deriving DecidableEq

inductive face_callback where
  | onData (cb : Nat)
  | onInterest (cb : Nat)
deriving DecidableEq

/-- Table scan of source `ndn_direct_face_send` (direct-face.c): walk
the callback entries in index order; a data packet fires `on_data` of
the first exact-match entry (`prefix_flag = 0`, names compare equal), an
interest fires `on_interest` of the first prefix entry whose stored name
is a prefix of the packet name; the scan stops at the first match. -/
def ndn_direct_face_send_loop (entries : List ndn_cb_entry) (isInterest : Nat)
    (name : ndn_name) : Int × List face_callback :=
  match entries with
  | [] => (NDN_FWD_NO_MATCHED_CALLBACK, [])
  | entry :: rest =>
      if entry.prefix_flag = isInterest ∧ isInterest = 0 ∧
          ndn_name_compare entry.interest_name name = 0 then
        (NDN_SUCCESS, [face_callback.onData entry.on_data])
      else if entry.prefix_flag = isInterest ∧ isInterest = 1 ∧
          ndn_name_is_prefix_of entry.interest_name name = 0 then
        (NDN_SUCCESS, [face_callback.onInterest entry.on_interest])
      else ndn_direct_face_send_loop rest isInterest name

/-- Source `ndn_direct_face_send` (direct-face.c): peek the packet's
first TLV type to classify interest vs data (anything else returns 1),
require a pre-decoded name (`bypass`), then scan the callback table. -/
def ndn_direct_face_send (entries : List ndn_cb_entry) (name : Option ndn_name)
    (packet : List Nat) (size : Nat) : Int × List face_callback :=
  let d := decoder_init (packet.take size)
  let (_, probe, _) := decoder_get_type d
  if probe = TLV_Interest ∨ probe = TLV_Data then
    let isInterest : Nat := if probe = TLV_Interest then 1 else 0
    match name with
    | none => (1, [])
    | some name => ndn_direct_face_send_loop entries isInterest name
  else (1, [])

/-! ### List bookkeeping lemmas -/

theorem getD_drop_zero (l : List Nat) (n : Nat) (d : Nat) :
    l.getD n d = (l.drop n).getD 0 d := by
  simp [List.getD_eq_getElem?_getD, List.getElem?_drop]

theorem getD_set_ne {l : List name_component} {i j : Nat}
    (h : i ≠ j) (c d : name_component) : (l.set i c).getD j d = l.getD j d := by
  simp [List.getD_eq_getElem?_getD, List.getElem?_set_ne h]

theorem getD_set_self {l : List name_component} {i : Nat}
    (h : i < l.length) (c d : name_component) : (l.set i c).getD i d = c := by
  simp [List.getD_eq_getElem?_getD, List.getElem?_set_self, h]

theorem drop_of_drop_append {L : List Nat} {off : Nat} {a rest : List Nat}
    (h : L.drop off = a ++ rest) : L.drop (off + a.length) = rest := by
  have : (L.drop off).drop a.length = L.drop (off + a.length) := by
    simp [List.drop_drop, Nat.add_comm]
  rw [← this, h, List.drop_left]

theorem offset_le_of_drop_ne_nil {L : List Nat} {off : Nat}
    (h : L.drop off ≠ []) : off ≤ L.length := by
  by_contra hc
  push_neg at hc
  exact h (List.drop_eq_nil_of_le (le_of_lt hc))

theorem length_of_drop_append {L : List Nat} {off : Nat} {a rest : List Nat}
    (h : L.drop off = a ++ rest) (hoff : off ≤ L.length) :
    off + a.length + rest.length = L.length := by
  have hlen : L.length - off = a.length + rest.length := by
    have := congrArg List.length h
    simpa using this
  omega

theorem var_encode_ne_nil (v : Nat) : var_encode v ≠ [] := by
  unfold var_encode
  split <;> try simp
  split <;> try simp
  split <;> simp

theorem length_ge_of_drop_append {L : List Nat} {off v : Nat} {rest : List Nat}
    (h : L.drop off = var_encode v ++ rest) :
    off + (var_encode v).length + rest.length = L.length := by
  refine length_of_drop_append h (offset_le_of_drop_ne_nil ?_)
  rw [h]
  simp [var_encode_ne_nil]

/-! ### Decoder primitive lemmas (suffix form)

Each lemma: when the bytes at the decoder's cursor start with a given
encoded fragment, the read returns the encoded value and advances the
cursor by the fragment's length. -/

theorem decoder_get_var_suffix {L : List Nat} {off v : Nat} {rest : List Nat}
    (hL : L.drop off = var_encode v ++ rest) (hv : v < 2 ^ 64) :
    decoder_get_var ⟨L, off⟩ =
      (NDN_SUCCESS, v, ⟨L, off + var_size v⟩) := by
  have hlen := length_ge_of_drop_append hL
  rw [var_encode_length] at hlen
  have hd0 : L.getD off 0 = (var_encode v ++ rest).getD 0 0 := by
    rw [getD_drop_zero, hL]
  unfold var_encode var_size at *
  by_cases h1 : v < 253
  · simp only [if_pos h1] at hL hd0 hlen ⊢
    simp only [List.cons_append, List.getD_cons_zero] at hd0
    unfold decoder_get_var
    rw [if_neg (show ¬(L.length < off + 1) by omega)]
    simp only [hd0, if_pos h1]
  · by_cases h2 : v < 2 ^ 16
    · simp only [if_neg h1, if_pos h2] at hL hd0 hlen ⊢
      simp only [List.cons_append, List.getD_cons_zero] at hd0
      have hdrop1 : L.drop (off + 1) = be_bytes 2 v ++ rest := by
        have h' : L.drop off = [253] ++ (be_bytes 2 v ++ rest) := by
          simpa using hL
        simpa using drop_of_drop_append h'

      have htake : (L.drop (off + 1)).take 2 = be_bytes 2 v := by
        rw [hdrop1, List.take_left' (be_bytes_length 2 v)]
      unfold decoder_get_var
      rw [if_neg (show ¬(L.length < off + 1) by omega)]
      simp only [hd0]
      norm_num
      rw [if_neg (show ¬(L.length < off + 1 + 2) by omega), htake,
          be_decode_be_bytes 2 v (by norm_num; omega)]
    · by_cases h3 : v < 2 ^ 32
      · simp only [if_neg h1, if_neg h2, if_pos h3] at hL hd0 hlen ⊢
        simp only [List.cons_append, List.getD_cons_zero] at hd0
        have hdrop1 : L.drop (off + 1) = be_bytes 4 v ++ rest := by
          have h' : L.drop off = [254] ++ (be_bytes 4 v ++ rest) := by
            simpa using hL
          simpa using drop_of_drop_append h'

        have htake : (L.drop (off + 1)).take 4 = be_bytes 4 v := by
          rw [hdrop1, List.take_left' (be_bytes_length 4 v)]
        unfold decoder_get_var
        rw [if_neg (show ¬(L.length < off + 1) by omega)]
        simp only [hd0]
        norm_num
        rw [if_neg (show ¬(L.length < off + 1 + 4) by omega), htake,
            be_decode_be_bytes 4 v (by norm_num; omega)]
      · simp only [if_neg h1, if_neg h2, if_neg h3] at hL hd0 hlen ⊢
        simp only [List.cons_append, List.getD_cons_zero] at hd0
        have hdrop1 : L.drop (off + 1) = be_bytes 8 v ++ rest := by
          have h' : L.drop off = [255] ++ (be_bytes 8 v ++ rest) := by
            simpa using hL
          simpa using drop_of_drop_append h'

        have htake : (L.drop (off + 1)).take 8 = be_bytes 8 v := by
          rw [hdrop1, List.take_left' (be_bytes_length 8 v)]
        unfold decoder_get_var
        rw [if_neg (show ¬(L.length < off + 1) by omega)]
        simp only [hd0]
        norm_num
        rw [if_neg (show ¬(L.length < off + 1 + 8) by omega), htake,
            be_decode_be_bytes 8 v (by norm_num; omega)]

theorem decoder_get_raw_suffix {L : List Nat} {off : Nat} {bs rest : List Nat}
    (hL : L.drop off = bs ++ rest) (hoff : off ≤ L.length) :
    decoder_get_raw_buffer_value ⟨L, off⟩ bs.length =
      (NDN_SUCCESS, bs, ⟨L, off + bs.length⟩) := by
  have hlen := length_of_drop_append hL hoff
  unfold decoder_get_raw_buffer_value
  rw [if_neg (show ¬(L.length < off + bs.length) by omega)]
  simp only [hL, List.take_left]

theorem be_decode_take_suffix {L : List Nat} {off n v : Nat} {rest : List Nat}
    (hL : L.drop off = be_bytes n v ++ rest) (hoff : off ≤ L.length)
    (hv : v < 256 ^ n) :
    decoder_get_uint ⟨L, off⟩ n = (NDN_SUCCESS, v, ⟨L, off + n⟩) := by
  have hlen := length_of_drop_append hL hoff
  rw [be_bytes_length] at hlen
  unfold decoder_get_uint
  rw [if_neg (show ¬(L.length < off + n) by omega)]
  rw [hL, List.take_left' (be_bytes_length n v), be_decode_be_bytes n v hv]

theorem uint_encode_bound (v : Nat) (hv : v < 2 ^ 64) :
    v < 256 ^ encoder_probe_uint_length v := by
  unfold encoder_probe_uint_length
  split
  · norm_num; omega
  · split
    · norm_num; omega
    · split
      · norm_num; omega
      · norm_num; omega

theorem decoder_get_uint_suffix {L : List Nat} {off v : Nat} {rest : List Nat}
    (hL : L.drop off = uint_encode v ++ rest) (hoff : off ≤ L.length)
    (hv : v < 2 ^ 64) :
    decoder_get_uint ⟨L, off⟩ (encoder_probe_uint_length v) =
      (NDN_SUCCESS, v, ⟨L, off + encoder_probe_uint_length v⟩) :=
  be_decode_take_suffix hL hoff (uint_encode_bound v hv)

/-! ### Encoder primitive lemmas (append-at-end form)

In the append-only encoding pipeline the cursor always sits at the end
of the written prefix; each lemma shows one append extends the written
bytes and keeps the cursor at the end. -/

theorem buf_write_at_end (out bs : List Nat) :
    buf_write out out.length bs = out ++ bs := by
  unfold buf_write
  rw [List.take_length]
  have : out.drop (out.length + bs.length) = [] :=
    List.drop_eq_nil_of_le (by omega)
  rw [this, List.append_nil]

theorem encoder_append_raw_at_end (out bs : List Nat) (max : Nat)
    (h : out.length + bs.length ≤ max) :
    encoder_append_raw_buffer_value ⟨out, max, out.length⟩ bs =
      (NDN_SUCCESS, ⟨out ++ bs, max, (out ++ bs).length⟩) := by
  unfold encoder_append_raw_buffer_value
  rw [if_pos (by simpa using h)]
  simp [buf_write_at_end]

theorem encoder_append_type_at_end (out : List Nat) (t : Nat) (max : Nat)
    (h : out.length + var_size t ≤ max) :
    encoder_append_type ⟨out, max, out.length⟩ t =
      (NDN_SUCCESS, ⟨out ++ var_encode t, max, (out ++ var_encode t).length⟩) := by
  unfold encoder_append_type
  rw [encoder_append_raw_at_end out (var_encode t) max (by rw [var_encode_length]; omega)]

theorem encoder_append_length_at_end (out : List Nat) (l : Nat) (max : Nat)
    (h : out.length + var_size l ≤ max) :
    encoder_append_length ⟨out, max, out.length⟩ l =
      (NDN_SUCCESS, ⟨out ++ var_encode l, max, (out ++ var_encode l).length⟩) := by
  unfold encoder_append_length
  rw [encoder_append_raw_at_end out (var_encode l) max (by rw [var_encode_length]; omega)]

theorem encoder_append_uint_at_end (out : List Nat) (v : Nat) (max : Nat)
    (h : out.length + encoder_probe_uint_length v ≤ max) :
    encoder_append_uint_value ⟨out, max, out.length⟩ v =
      (NDN_SUCCESS, ⟨out ++ uint_encode v, max, (out ++ uint_encode v).length⟩) := by
  unfold encoder_append_uint_value
  rw [encoder_append_raw_at_end out (uint_encode v) max (by rw [uint_encode_length]; omega)]

/-! ### Wire images

Pure byte-level images of each encoder layer, used to state and prove
the codec lemmas; each equals the bytes the corresponding encode
function appends. -/

def name_component_wire (c : name_component) : List Nat :=
  var_encode c.type ++ var_encode c.value.length ++ c.value

theorem name_component_wire_length (c : name_component) :
    (name_component_wire c).length = name_component_probe_block_size c := by
  simp [name_component_wire, name_component_probe_block_size,
        encoder_probe_block_size, var_encode_length]
  omega

theorem name_component_encode_at_end (out : List Nat) (max : Nat)
    (c : name_component)
    (h : out.length + (name_component_wire c).length ≤ max) :
    name_component_tlv_encode ⟨out, max, out.length⟩ c =
      (NDN_SUCCESS, ⟨out ++ name_component_wire c, max,
                     (out ++ name_component_wire c).length⟩) := by
  have hw : (name_component_wire c).length =
      var_size c.type + var_size c.value.length + c.value.length := by
    simp [name_component_wire, var_encode_length]
    omega
  unfold name_component_tlv_encode
  rw [encoder_append_type_at_end out c.type max (by omega)]
  dsimp only
  rw [if_neg (show ¬(NDN_SUCCESS < 0) by norm_num [NDN_SUCCESS])]
  rw [encoder_append_length_at_end _ c.value.length max
    (by simp [var_encode_length]; omega)]
  dsimp only
  rw [if_neg (show ¬(NDN_SUCCESS < 0) by norm_num [NDN_SUCCESS])]
  rw [encoder_append_raw_at_end _ c.value max
    (by simp [var_encode_length]; omega)]
  simp [name_component_wire, List.append_assoc]

def name_value_size (n : ndn_name) : Nat :=
  ((n.components.take n.components_size).map name_component_probe_block_size).sum

def name_value_wire (n : ndn_name) : List Nat :=
  ((n.components.take n.components_size).map name_component_wire).flatten

def name_wire (n : ndn_name) : List Nat :=
  var_encode TLV_Name ++ var_encode (name_value_size n) ++ name_value_wire n

theorem flatten_wire_length (cs : List name_component) :
    ((cs.map name_component_wire).flatten).length =
      (cs.map name_component_probe_block_size).sum := by
  induction cs with
  | nil => rfl
  | cons c cs ih => simp [ih, name_component_wire_length]

theorem map_wire_length_eq (l : List name_component) :
    l.map (List.length ∘ name_component_wire) =
      l.map name_component_probe_block_size := by
  induction l with
  | nil => rfl
  | cons c cs ih => simp [ih, Function.comp, name_component_wire_length]

theorem name_value_wire_length (n : ndn_name) :
    (name_value_wire n).length = name_value_size n := by
  simp [name_value_wire, name_value_size, flatten_wire_length,
        ← List.map_take, map_wire_length_eq]

theorem name_wire_length (n : ndn_name) :
    (name_wire n).length = ndn_name_probe_block_size n := by
  simp [name_wire, ndn_name_probe_block_size, encoder_probe_block_size,
        var_encode_length, name_value_wire_length, name_value_size]
  omega

theorem name_components_encode_loop_at_end (out : List Nat) (max : Nat)
    (cs : List name_component)
    (h : out.length + ((cs.map name_component_wire).flatten).length ≤ max) :
    name_components_encode_loop ⟨out, max, out.length⟩ cs =
      (NDN_SUCCESS, ⟨out ++ (cs.map name_component_wire).flatten, max,
                     (out ++ (cs.map name_component_wire).flatten).length⟩) := by
  induction cs generalizing out with
  | nil => simp [name_components_encode_loop]
  | cons c cs ih =>
      simp only [List.map_cons, List.flatten_cons, List.length_append] at h ⊢
      unfold name_components_encode_loop
      rw [name_component_encode_at_end out max c (by simp at h ⊢; omega)]
      dsimp only
      rw [if_neg (show ¬(NDN_SUCCESS < 0) by norm_num [NDN_SUCCESS])]
      rw [ih _ (by simp at h ⊢; omega)]
      simp [List.append_assoc]

theorem ndn_name_tlv_encode_at_end (out : List Nat) (max : Nat) (n : ndn_name)
    (h : out.length + (name_wire n).length ≤ max) :
    ndn_name_tlv_encode ⟨out, max, out.length⟩ n =
      (NDN_SUCCESS, ⟨out ++ name_wire n, max, (out ++ name_wire n).length⟩) := by
  have hw : (name_wire n).length = var_size TLV_Name +
      var_size (name_value_size n) + name_value_size n := by
    simp [name_wire, var_encode_length, name_value_wire_length]
    omega
  unfold ndn_name_tlv_encode
  rw [encoder_append_type_at_end out TLV_Name max (by omega)]
  dsimp only
  rw [show ((n.components.take n.components_size).map
      name_component_probe_block_size).sum = name_value_size n from rfl]
  rw [encoder_append_length_at_end _ (name_value_size n) max
    (by simp [var_encode_length]; omega)]
  dsimp only
  rw [name_components_encode_loop_at_end _ max _
    (by simp [var_encode_length, flatten_wire_length, ← List.map_take,
              map_wire_length_eq]
        simp [name_value_size] at hw ⊢
        omega)]
  simp [name_wire, name_value_wire, List.append_assoc]

def metainfo_ct_wire (m : ndn_metainfo) : List Nat :=
  if m.enable_ContentType > 0 then
    var_encode TLV_ContentType ++
    var_encode (encoder_probe_uint_length m.content_type) ++
    uint_encode m.content_type
  else []

def metainfo_fp_wire (m : ndn_metainfo) : List Nat :=
  if m.enable_FreshnessPeriod > 0 then
    var_encode TLV_FreshnessPeriod ++
    var_encode (encoder_probe_uint_length m.freshness_period) ++
    uint_encode m.freshness_period
  else []

def metainfo_fb_wire (m : ndn_metainfo) : List Nat :=
  if m.enable_FinalBlockId > 0 then
    var_encode TLV_FinalBlockId ++
    var_encode (name_component_probe_block_size m.final_block_id) ++
    name_component_wire m.final_block_id
  else []

def metainfo_wire (m : ndn_metainfo) : List Nat :=
  var_encode TLV_MetaInfo ++ var_encode (ndn_metainfo_value_size m) ++
  metainfo_ct_wire m ++ metainfo_fp_wire m ++ metainfo_fb_wire m

theorem metainfo_ct_wire_length (m : ndn_metainfo) :
    (metainfo_ct_wire m).length =
      if m.enable_ContentType > 0 then
        encoder_probe_block_size TLV_ContentType
          (encoder_probe_uint_length m.content_type) else 0 := by
  unfold metainfo_ct_wire
  split <;> simp [encoder_probe_block_size, var_encode_length, uint_encode_length]
  omega

theorem metainfo_fp_wire_length (m : ndn_metainfo) :
    (metainfo_fp_wire m).length =
      if m.enable_FreshnessPeriod > 0 then
        encoder_probe_block_size TLV_FreshnessPeriod
          (encoder_probe_uint_length m.freshness_period) else 0 := by
  unfold metainfo_fp_wire
  split <;> simp [encoder_probe_block_size, var_encode_length, uint_encode_length]
  omega

theorem metainfo_fb_wire_length (m : ndn_metainfo) :
    (metainfo_fb_wire m).length =
      if m.enable_FinalBlockId > 0 then
        encoder_probe_block_size TLV_FinalBlockId
          (name_component_probe_block_size m.final_block_id) else 0 := by
  unfold metainfo_fb_wire
  split <;> simp [encoder_probe_block_size, var_encode_length,
                  name_component_wire_length]
  omega

theorem metainfo_wire_length (m : ndn_metainfo) :
    (metainfo_wire m).length = ndn_metainfo_probe_block_size m := by
  simp [metainfo_wire, ndn_metainfo_probe_block_size, ndn_metainfo_value_size,
        encoder_probe_block_size, var_encode_length, metainfo_ct_wire_length,
        metainfo_fp_wire_length, metainfo_fb_wire_length]
  omega

theorem ndn_metainfo_tlv_encode_at_end (out : List Nat) (max : Nat)
    (m : ndn_metainfo)
    (h : out.length + (metainfo_wire m).length ≤ max) :
    ndn_metainfo_tlv_encode ⟨out, max, out.length⟩ m =
      (NDN_SUCCESS, ⟨out ++ metainfo_wire m, max,
                     (out ++ metainfo_wire m).length⟩) := by
  have hW : (metainfo_wire m).length =
      var_size TLV_MetaInfo + var_size (ndn_metainfo_value_size m) +
      (metainfo_ct_wire m).length + (metainfo_fp_wire m).length +
      (metainfo_fb_wire m).length := by
    simp [metainfo_wire, var_encode_length]
    omega
  unfold ndn_metainfo_tlv_encode
  rw [encoder_append_type_at_end out TLV_MetaInfo max (by omega)]
  dsimp only
  rw [encoder_append_length_at_end _ (ndn_metainfo_value_size m) max
    (by simp [var_encode_length]; omega)]
  dsimp only
  set out1 : List Nat := out ++ var_encode TLV_MetaInfo ++
    var_encode (ndn_metainfo_value_size m) with hout1
  have hlen1 : out1.length = out.length + var_size TLV_MetaInfo +
      var_size (ndn_metainfo_value_size m) := by
    simp [hout1, var_encode_length]
    omega
  have hct : (if m.enable_ContentType > 0 then
        let (_, e) := encoder_append_type ⟨out1, max, out1.length⟩ TLV_ContentType
        let (_, e) := encoder_append_length e
          (encoder_probe_uint_length m.content_type)
        let (_, e) := encoder_append_uint_value e m.content_type
        e
      else ⟨out1, max, out1.length⟩) =
      ⟨out1 ++ metainfo_ct_wire m, max, (out1 ++ metainfo_ct_wire m).length⟩ := by
    have hcw := metainfo_ct_wire_length m
    by_cases hc : m.enable_ContentType > 0
    · rw [if_pos hc] at hcw ⊢
      simp [encoder_probe_block_size] at hcw
      rw [encoder_append_type_at_end out1 TLV_ContentType max (by omega)]
      dsimp only
      rw [encoder_append_length_at_end _ _ max (by simp [var_encode_length]; omega)]
      dsimp only
      rw [encoder_append_uint_at_end _ _ max (by simp [var_encode_length]; omega)]
      simp [metainfo_ct_wire, hc, List.append_assoc]
    · rw [if_neg hc]
      simp [metainfo_ct_wire, hc]
  rw [hct]
  set out2 : List Nat := out1 ++ metainfo_ct_wire m with hout2
  have hlen2 : out2.length = out1.length + (metainfo_ct_wire m).length := by
    simp [hout2]
  have hfp : (if m.enable_FreshnessPeriod > 0 then
        let (_, e) := encoder_append_type ⟨out2, max, out2.length⟩ TLV_FreshnessPeriod
        let (_, e) := encoder_append_length e
          (encoder_probe_uint_length m.freshness_period)
        let (_, e) := encoder_append_uint_value e m.freshness_period
        e
      else ⟨out2, max, out2.length⟩) =
      ⟨out2 ++ metainfo_fp_wire m, max, (out2 ++ metainfo_fp_wire m).length⟩ := by
    have hfw := metainfo_fp_wire_length m
    by_cases hc : m.enable_FreshnessPeriod > 0
    · rw [if_pos hc] at hfw ⊢
      simp [encoder_probe_block_size] at hfw
      rw [encoder_append_type_at_end out2 TLV_FreshnessPeriod max (by omega)]
      dsimp only
      rw [encoder_append_length_at_end _ _ max (by simp [var_encode_length]; omega)]
      dsimp only
      rw [encoder_append_uint_at_end _ _ max (by simp [var_encode_length]; omega)]
      simp [metainfo_fp_wire, hc, List.append_assoc]
    · rw [if_neg hc]
      simp [metainfo_fp_wire, hc]
  rw [hfp]
  set out3 : List Nat := out2 ++ metainfo_fp_wire m with hout3
  have hlen3 : out3.length = out2.length + (metainfo_fp_wire m).length := by
    simp [hout3]
  have hfb : (if m.enable_FinalBlockId > 0 then
        let (_, e) := encoder_append_type ⟨out3, max, out3.length⟩ TLV_FinalBlockId
        let (_, e) := encoder_append_length e
          (name_component_probe_block_size m.final_block_id)
        let (_, e) := name_component_tlv_encode e m.final_block_id
        e
      else ⟨out3, max, out3.length⟩) =
      ⟨out3 ++ metainfo_fb_wire m, max, (out3 ++ metainfo_fb_wire m).length⟩ := by
    have hbw := metainfo_fb_wire_length m
    by_cases hc : m.enable_FinalBlockId > 0
    · rw [if_pos hc] at hbw ⊢
      simp [encoder_probe_block_size] at hbw
      rw [encoder_append_type_at_end out3 TLV_FinalBlockId max (by omega)]
      dsimp only
      rw [encoder_append_length_at_end _ _ max (by simp [var_encode_length]; omega)]
      dsimp only
      rw [name_component_encode_at_end _ max _
        (by simp [var_encode_length, name_component_wire_length]; omega)]
      simp [metainfo_fb_wire, hc, List.append_assoc]
    · rw [if_neg hc]
      simp [metainfo_fb_wire, hc]
  rw [hfb]
  simp [hout3, hout2, hout1, metainfo_wire, List.append_assoc]

def siginfo_plain_wire (s : ndn_signature) : List Nat :=
  var_encode TLV_SignatureInfo ++ var_encode (ndn_signature_info_value_size s) ++
  var_encode TLV_SignatureType ++ var_encode 1 ++ [s.sig_type % 256]

theorem siginfo_plain_value_size (s : ndn_signature)
    (hkl : s.enable_KeyLocator = 0) (hvp : s.enable_ValidityPeriod = 0)
    (hn : s.enable_SignatureInfoNonce = 0) (hts : s.enable_Timestamp = 0) :
    ndn_signature_info_value_size s = 3 := by
  simp only [ndn_signature_info_value_size, hkl, hvp, hn, hts, gt_iff_lt,
             lt_self_iff_false, if_false]
  decide

theorem siginfo_plain_wire_length (s : ndn_signature)
    (hkl : s.enable_KeyLocator = 0) (hvp : s.enable_ValidityPeriod = 0)
    (hn : s.enable_SignatureInfoNonce = 0) (hts : s.enable_Timestamp = 0) :
    (siginfo_plain_wire s).length = ndn_signature_info_probe_block_size s := by
  simp only [siginfo_plain_wire, ndn_signature_info_probe_block_size,
             siginfo_plain_value_size s hkl hvp hn hts, List.length_append,
             var_encode_length, List.length_singleton]
  decide

theorem ndn_signature_info_tlv_encode_plain_at_end (out : List Nat) (max : Nat)
    (s : ndn_signature)
    (hkl : s.enable_KeyLocator = 0) (hvp : s.enable_ValidityPeriod = 0)
    (hn : s.enable_SignatureInfoNonce = 0) (hts : s.enable_Timestamp = 0)
    (h : out.length + (siginfo_plain_wire s).length ≤ max) :
    ndn_signature_info_tlv_encode ⟨out, max, out.length⟩ s =
      (NDN_SUCCESS, ⟨out ++ siginfo_plain_wire s, max,
                     (out ++ siginfo_plain_wire s).length⟩) := by
  have hW : (siginfo_plain_wire s).length =
      var_size TLV_SignatureInfo + var_size (ndn_signature_info_value_size s) +
      var_size TLV_SignatureType + var_size 1 + 1 := by
    simp [siginfo_plain_wire, var_encode_length]
    omega
  unfold ndn_signature_info_tlv_encode
  rw [encoder_append_type_at_end out TLV_SignatureInfo max (by omega)]
  dsimp only
  rw [encoder_append_length_at_end _ (ndn_signature_info_value_size s) max
    (by simp [var_encode_length]; omega)]
  dsimp only
  rw [encoder_append_type_at_end _ TLV_SignatureType max
    (by simp [var_encode_length]; omega)]
  dsimp only
  rw [encoder_append_length_at_end _ 1 max (by simp [var_encode_length]; omega)]
  dsimp only
  rw [encoder_append_raw_at_end _ [s.sig_type % 256] max
    (by simp [var_encode_length]; omega)]
  dsimp only
  rw [if_neg (by omega), if_neg (by omega), if_neg (by omega), if_neg (by omega)]
  simp [siginfo_plain_wire, List.append_assoc]

def sigvalue_wire (s : ndn_signature) : List Nat :=
  var_encode TLV_SignatureValue ++ var_encode s.sig_size ++
  s.sig_value.take s.sig_size

theorem sigvalue_wire_length (s : ndn_signature)
    (h : s.sig_size ≤ s.sig_value.length) :
    (sigvalue_wire s).length = ndn_signature_value_probe_block_size s := by
  simp [sigvalue_wire, ndn_signature_value_probe_block_size,
        encoder_probe_block_size, var_encode_length]
  omega

theorem ndn_signature_value_tlv_encode_at_end (out : List Nat) (max : Nat)
    (s : ndn_signature)
    (h : out.length + (sigvalue_wire s).length ≤ max) :
    ndn_signature_value_tlv_encode ⟨out, max, out.length⟩ s =
      (NDN_SUCCESS, ⟨out ++ sigvalue_wire s, max,
                     (out ++ sigvalue_wire s).length⟩) := by
  have hW : (sigvalue_wire s).length = var_size TLV_SignatureValue +
      var_size s.sig_size + (s.sig_value.take s.sig_size).length := by
    simp [sigvalue_wire, var_encode_length]
    omega
  unfold ndn_signature_value_tlv_encode
  rw [encoder_append_type_at_end out TLV_SignatureValue max (by omega)]
  dsimp only
  rw [encoder_append_length_at_end _ s.sig_size max
    (by simp [var_encode_length]; omega)]
  dsimp only
  rw [encoder_append_raw_at_end _ (s.sig_value.take s.sig_size) max
    (by simp [var_encode_length] at hW ⊢; omega)]
  simp [sigvalue_wire, List.append_assoc]

def content_wire (d : ndn_data) : List Nat :=
  var_encode TLV_Content ++ var_encode d.content_size ++
  d.content_value.take d.content_size

theorem content_wire_length (d : ndn_data)
    (h : d.content_size ≤ d.content_value.length) :
    (content_wire d).length =
      encoder_probe_block_size TLV_Content d.content_size := by
  simp [content_wire, encoder_probe_block_size, var_encode_length]
  omega

def data_unsigned_wire (d : ndn_data) : List Nat :=
  name_wire d.name ++ metainfo_wire d.metainfo ++ content_wire d ++
  siginfo_plain_wire d.signature

theorem prepare_unsigned_block_at_end (out : List Nat) (max : Nat)
    (d : ndn_data)
    (hkl : d.signature.enable_KeyLocator = 0)
    (hvp : d.signature.enable_ValidityPeriod = 0)
    (hn : d.signature.enable_SignatureInfoNonce = 0)
    (hts : d.signature.enable_Timestamp = 0)
    (hcs : d.content_size ≤ d.content_value.length)
    (h : out.length + (data_unsigned_wire d).length ≤ max) :
    _ndn_data_prepare_unsigned_block ⟨out, max, out.length⟩ d =
      ⟨out ++ data_unsigned_wire d, max,
       (out ++ data_unsigned_wire d).length⟩ := by
  have hW : (data_unsigned_wire d).length = (name_wire d.name).length +
      (metainfo_wire d.metainfo).length + (content_wire d).length +
      (siginfo_plain_wire d.signature).length := by
    simp [data_unsigned_wire]
    omega
  have hCW : (content_wire d).length = var_size TLV_Content +
      var_size d.content_size + (d.content_value.take d.content_size).length := by
    simp [content_wire, var_encode_length]
    omega
  have hj : (d.content_value.take d.content_size).length = d.content_size := by
    simp [List.length_take, Nat.min_eq_left hcs]
  unfold _ndn_data_prepare_unsigned_block
  rw [ndn_name_tlv_encode_at_end out max d.name (by omega)]
  dsimp only
  rw [ndn_metainfo_tlv_encode_at_end _ max d.metainfo (by simp; omega)]
  dsimp only
  rw [encoder_append_type_at_end _ TLV_Content max (by simp; omega)]
  dsimp only
  rw [encoder_append_length_at_end _ d.content_size max
    (by simp [var_encode_length]; omega)]
  dsimp only
  rw [encoder_append_raw_at_end _ (d.content_value.take d.content_size) max
    (by simp [var_encode_length]; omega)]
  dsimp only
  rw [ndn_signature_info_tlv_encode_plain_at_end _ max d.signature hkl hvp hn hts
    (by simp [var_encode_length]; omega)]
  dsimp only
  simp [data_unsigned_wire, content_wire, List.append_assoc]

/-! ### The digest-signed Data packet image -/

def digest_signature (s : ndn_signature) : ndn_signature :=
  (ndn_signature_set_signature_type (ndn_signature_init s)
    NDN_SIG_TYPE_DIGEST_SHA256).2

def data_digest_prep (d : ndn_data) : ndn_data :=
  { d with signature := digest_signature d.signature }

def digest_block_size (d : ndn_data) : Nat :=
  ndn_name_probe_block_size d.name + ndn_metainfo_probe_block_size d.metainfo +
  encoder_probe_block_size TLV_Content d.content_size +
  ndn_signature_info_probe_block_size (digest_signature d.signature) +
  ndn_signature_value_probe_block_size (digest_signature d.signature)

def data_digest_packet (sha : List Nat → List Nat) (d : ndn_data) : List Nat :=
  var_encode TLV_Data ++ var_encode (digest_block_size d) ++
  data_unsigned_wire (data_digest_prep d) ++
  var_encode TLV_SignatureValue ++ var_encode NDN_SEC_SHA256_HASH_SIZE ++
  sha (data_unsigned_wire (data_digest_prep d))

theorem digest_signature_eq (s : ndn_signature) :
    digest_signature s =
      { s with enable_KeyLocator := 0, enable_ValidityPeriod := 0,
               enable_SignatureInfoNonce := 0, signature_info_nonce := 0,
               enable_Timestamp := 0, timestamp := 0,
               sig_size := NDN_SEC_SHA256_HASH_SIZE,
               sig_type := NDN_SIG_TYPE_DIGEST_SHA256 } := by
  simp [digest_signature, ndn_signature_set_signature_type, ndn_signature_init]

def data_digest_result (sha : List Nat → List Nat) (d : ndn_data) : ndn_data :=
  let U := data_unsigned_wire (data_digest_prep d)
  let s := digest_signature d.signature
  { data_digest_prep d with
    signature := { s with sig_value := (sha U ++ s.sig_value.drop (sha U).length) } }

theorem ndn_data_tlv_encode_digest_sign_spec (sha : List Nat → List Nat)
    (d : ndn_data) (max : Nat)
    (hsha : (sha (data_unsigned_wire (data_digest_prep d))).length =
            NDN_SEC_SHA256_HASH_SIZE)
    (hcs : d.content_size ≤ d.content_value.length)
    (hcap : (data_digest_packet sha d).length ≤ max) :
    ndn_data_tlv_encode_digest_sign sha (encoder_init max) d =
      (NDN_SUCCESS,
       ⟨data_digest_packet sha d, max, (data_digest_packet sha d).length⟩,
       data_digest_result sha d) := by
  have hplen : (data_digest_packet sha d).length =
      var_size TLV_Data + var_size (digest_block_size d) +
      (data_unsigned_wire (data_digest_prep d)).length +
      var_size TLV_SignatureValue + var_size NDN_SEC_SHA256_HASH_SIZE +
      NDN_SEC_SHA256_HASH_SIZE := by
    simp [data_digest_packet, var_encode_length, hsha]
    omega
  have hsigD := digest_signature_eq d.signature
  have hset : ndn_signature_set_signature_type (ndn_signature_init d.signature)
      NDN_SIG_TYPE_DIGEST_SHA256 = (NDN_SUCCESS, digest_signature d.signature) := by
    simp [digest_signature, Prod.ext_iff, ndn_signature_set_signature_type,
          ndn_signature_init]
  unfold ndn_data_tlv_encode_digest_sign
  dsimp only
  rw [hset]
  dsimp only
  rw [show encoder_init max = ⟨([] : List Nat), max, ([] : List Nat).length⟩
      from rfl]
  rw [encoder_append_type_at_end [] TLV_Data max (by simp; omega)]
  dsimp only
  rw [show ({ d with signature := digest_signature d.signature } : ndn_data) =
      data_digest_prep d from rfl]
  rw [show (ndn_name_probe_block_size d.name +
        ndn_metainfo_probe_block_size d.metainfo +
        encoder_probe_block_size TLV_Content d.content_size +
        ndn_signature_info_probe_block_size (digest_signature d.signature) +
        ndn_signature_value_probe_block_size (digest_signature d.signature)) =
      digest_block_size d from rfl]
  rw [encoder_append_length_at_end _ (digest_block_size d) max
    (by simp [var_encode_length]; omega)]
  dsimp only
  rw [prepare_unsigned_block_at_end _ max (data_digest_prep d)
    (by rw [data_digest_prep, hsigD])
    (by rw [data_digest_prep, hsigD])
    (by rw [data_digest_prep, hsigD])
    (by rw [data_digest_prep, hsigD])
    (by simpa [data_digest_prep] using hcs)
    (by simp [var_encode_length]; omega)]
  dsimp only
  set A : List Nat := [] ++ var_encode TLV_Data ++ var_encode (digest_block_size d) with hA
  set U : List Nat := data_unsigned_wire (data_digest_prep d) with hU
  have hmsg : (List.take ((A ++ U).length - A.length) (List.drop A.length (A ++ U))) = U := by
    simp
  rw [hmsg]
  have hss : (digest_signature d.signature).sig_size = NDN_SEC_SHA256_HASH_SIZE := by
    rw [hsigD]
  have hsign : ndn_sha256_sign sha U (digest_signature d.signature).sig_size =
      (NDN_SUCCESS, sha U, NDN_SEC_SHA256_HASH_SIZE) := by
    rw [hss]
    simp [ndn_sha256_sign]
  rw [hsign]
  dsimp only
  rw [if_neg (show ¬(NDN_SUCCESS < 0) by norm_num [NDN_SUCCESS])]
  rw [hsigD]
  dsimp only
  have hAlen : A.length = var_size TLV_Data + var_size (digest_block_size d) := by
    simp [hA, var_encode_length]
  have htakesig :
      List.take NDN_SEC_SHA256_HASH_SIZE
        (sha U ++ List.drop (sha U).length d.signature.sig_value) = sha U :=
    List.take_left' hsha
  have hswlen : (sigvalue_wire
      { sig_type := NDN_SIG_TYPE_DIGEST_SHA256,
        sig_value := sha U ++ List.drop (sha U).length d.signature.sig_value,
        sig_size := NDN_SEC_SHA256_HASH_SIZE,
        key_locator_name := d.signature.key_locator_name,
        enable_SignatureInfoNonce := 0, signature_info_nonce := 0,
        enable_Timestamp := 0, timestamp := 0,
        validity_period := d.signature.validity_period,
        enable_KeyLocator := 0, enable_ValidityPeriod := 0 }).length =
      var_size TLV_SignatureValue + var_size NDN_SEC_SHA256_HASH_SIZE +
      NDN_SEC_SHA256_HASH_SIZE := by
    simp only [sigvalue_wire]
    rw [htakesig]
    simp [var_encode_length, hsha]
    omega
  rw [ndn_signature_value_tlv_encode_at_end (A ++ U) max _
    (by rw [hswlen]; simp [hAlen]; omega)]
  dsimp only
  have hout : A ++ U ++ sigvalue_wire
      { sig_type := NDN_SIG_TYPE_DIGEST_SHA256,
        sig_value := sha U ++ List.drop (sha U).length d.signature.sig_value,
        sig_size := NDN_SEC_SHA256_HASH_SIZE,
        key_locator_name := d.signature.key_locator_name,
        enable_SignatureInfoNonce := 0, signature_info_nonce := 0,
        enable_Timestamp := 0, timestamp := 0,
        validity_period := d.signature.validity_period,
        enable_KeyLocator := 0, enable_ValidityPeriod := 0 } =
      data_digest_packet sha d := by
    simp only [sigvalue_wire]
    rw [htakesig]
    simp [hA, hU, data_digest_packet, List.append_assoc]
  rw [hout]
  simp [data_digest_result, data_digest_prep, hsigD, ← hU]
  rw [hU]
  simp [data_digest_prep, hsigD]

/-! ### Decoding the wire images -/

theorem name_component_tlv_decode_suffix {L : List Nat} {off : Nat}
    (c : name_component) {rest : List Nat}
    (hL : L.drop off = name_component_wire c ++ rest)
    (htype : c.type < 2 ^ 64)
    (hval : c.value.length ≤ NDN_NAME_COMPONENT_BUFFER_SIZE) :
    name_component_tlv_decode ⟨L, off⟩ =
      (NDN_SUCCESS, c, ⟨L, off + (name_component_wire c).length⟩) := by
  have hL1 : L.drop off = var_encode c.type ++
      (var_encode c.value.length ++ c.value ++ rest) := by
    simpa [name_component_wire, List.append_assoc] using hL
  have hL2 : L.drop (off + var_size c.type) =
      var_encode c.value.length ++ (c.value ++ rest) := by
    have := drop_of_drop_append hL1
    rw [var_encode_length] at this
    simpa [List.append_assoc] using this
  have hL3 : L.drop (off + var_size c.type + var_size c.value.length) =
      c.value ++ rest := by
    have := drop_of_drop_append hL2
    rw [var_encode_length] at this
    exact this
  have hoff1 : off ≤ L.length :=
    offset_le_of_drop_ne_nil (by rw [hL1]; simp [var_encode_ne_nil])
  have hlen1 := length_of_drop_append hL1 hoff1
  simp only [List.length_append, var_encode_length] at hlen1
  have hoff3 : off + var_size c.type + var_size c.value.length ≤ L.length := by
    omega
  unfold name_component_tlv_decode decoder_get_type
  rw [decoder_get_var_suffix hL1 htype]
  dsimp only
  rw [if_neg (show ¬(NDN_SUCCESS < 0) by norm_num [NDN_SUCCESS])]
  unfold decoder_get_length
  rw [decoder_get_var_suffix hL2
    (by unfold NDN_NAME_COMPONENT_BUFFER_SIZE at hval; omega)]
  dsimp only
  rw [if_neg (show ¬(NDN_SUCCESS < 0) by norm_num [NDN_SUCCESS])]
  rw [if_neg (by omega)]
  rw [show c.value.length = ((c.value : List Nat)).length from rfl,
      decoder_get_raw_suffix hL3 (by omega)]
  dsimp only
  rw [if_neg (show ¬(NDN_SUCCESS < 0) by norm_num [NDN_SUCCESS])]
  have : (name_component_wire c).length =
      var_size c.type + var_size c.value.length + c.value.length := by
    simp [name_component_wire, var_encode_length]
    omega
  rw [this]
  simp [Prod.ext_iff]
  omega

def set_list (l : List name_component) (i : Nat) :
    List name_component → List name_component
  | [] => l
  | c :: cs => set_list (l.set i c) (i + 1) cs

theorem set_list_length (cs : List name_component) (l : List name_component)
    (i : Nat) : (set_list l i cs).length = l.length := by
  induction cs generalizing l i with
  | nil => rfl
  | cons c cs ih => simp [set_list, ih]

theorem set_list_getD_lt (cs : List name_component) (l : List name_component)
    (i j : Nat) (h : j < i) (d : name_component) :
    (set_list l i cs).getD j d = l.getD j d := by
  induction cs generalizing l i with
  | nil => rfl
  | cons c cs ih =>
      rw [set_list, ih _ _ (by omega), getD_set_ne (by omega)]

theorem set_list_getD_mem (cs : List name_component) (l : List name_component)
    (i k : Nat) (hk : k < cs.length) (hlen : i + cs.length ≤ l.length)
    (d : name_component) :
    (set_list l i cs).getD (i + k) d = cs.getD k d := by
  induction cs generalizing l i k with
  | nil => simp at hk
  | cons c cs ih =>
      cases k with
      | zero =>
          rw [set_list, set_list_getD_lt _ _ _ _ (by omega)]
          simp only [Nat.add_zero]
          rw [getD_set_self (by simp at hlen ⊢; omega)]
          rfl
      | succ k =>
          rw [set_list, show i + (k + 1) = (i + 1) + k by omega,
              ih _ _ _ (by simp at hk; omega) (by simp at hlen ⊢; omega)]
          rfl

theorem name_component_wire_ne_nil (c : name_component) :
    name_component_wire c ≠ [] := by
  simp [name_component_wire, var_encode_ne_nil]

theorem ndn_name_decode_loop_wire {L : List Nat} {off : Nat}
    (cs : List name_component) {rest : List Nat}
    (hL : L.drop off = (cs.map name_component_wire).flatten ++ rest)
    (hwf : ∀ c ∈ cs, c.type < 2 ^ 64 ∧
      c.value.length ≤ NDN_NAME_COMPONENT_BUFFER_SIZE)
    (counter budget : Nat) (comps : List name_component)
    (hb : cs.length ≤ budget) :
    ndn_name_decode_loop ⟨L, off⟩
        (off + ((cs.map name_component_wire).flatten).length) counter comps
        budget =
      (NDN_SUCCESS, counter + cs.length, set_list comps counter cs,
       ⟨L, off + ((cs.map name_component_wire).flatten).length⟩) := by
  induction cs generalizing off counter comps budget with
  | nil =>
      unfold ndn_name_decode_loop
      simp [set_list]
  | cons c cs ih =>
      have hwnn : 0 < (name_component_wire c).length :=
        List.length_pos.2 (name_component_wire_ne_nil c)
      have hL1 : L.drop off = name_component_wire c ++
          ((cs.map name_component_wire).flatten ++ rest) := by
        simpa [List.append_assoc] using hL
      have hL2 : L.drop (off + (name_component_wire c).length) =
          (cs.map name_component_wire).flatten ++ rest :=
        drop_of_drop_append hL1
      cases budget with
      | zero => simp at hb
      | succ b =>
          unfold ndn_name_decode_loop
          rw [if_pos (by simp; omega)]
          rw [name_component_tlv_decode_suffix c hL1 (hwf c (by simp)).1
            (hwf c (by simp)).2]
          dsimp only
          rw [if_neg (show ¬(NDN_SUCCESS < 0) by norm_num [NDN_SUCCESS])]
          have harith : off + ((c :: cs).map name_component_wire).flatten.length =
              (off + (name_component_wire c).length) +
              ((cs.map name_component_wire).flatten).length := by
            simp
            omega
          rw [harith, ih hL2 (fun x hx => hwf x (by simp [hx])) (counter + 1) b
            (comps.set counter c) (by simp at hb; omega)]
          simp [set_list]
          omega

def name_fits (n : ndn_name) : Prop :=
  n.components_size ≤ NDN_NAME_COMPONENTS_SIZE ∧
  n.components_size ≤ n.components.length ∧
  ∀ c ∈ n.components.take n.components_size,
    c.type < 2 ^ 32 ∧ c.value.length ≤ NDN_NAME_COMPONENT_BUFFER_SIZE

theorem var_size_le (v : Nat) : var_size v ≤ 9 := by
  unfold var_size
  split
  · omega
  · split
    · omega
    · split <;> omega

theorem name_value_size_lt (n : ndn_name) (hf : name_fits n) :
    name_value_size n < 2 ^ 64 := by
  obtain ⟨h1, h2, h3⟩ := hf
  have hb : ∀ x ∈ (n.components.take n.components_size).map
      name_component_probe_block_size, x ≤ 54 := by
    intro x hx
    obtain ⟨c, hc, hcx⟩ := List.mem_map.1 hx
    obtain ⟨_, hv⟩ := h3 c hc
    have := var_size_le c.type
    have := var_size_le c.value.length
    simp [name_component_probe_block_size, encoder_probe_block_size] at hcx
    unfold NDN_NAME_COMPONENT_BUFFER_SIZE at hv
    omega
  have hsum := List.sum_le_card_nsmul _ 54 hb
  have hlen : ((n.components.take n.components_size).map
      name_component_probe_block_size).length ≤ NDN_NAME_COMPONENTS_SIZE := by
    simp [List.length_take]
    unfold NDN_NAME_COMPONENTS_SIZE at h1 ⊢
    omega
  simp only [smul_eq_mul] at hsum
  unfold name_value_size
  unfold NDN_NAME_COMPONENTS_SIZE at hlen
  omega

theorem ndn_name_tlv_decode_wire {L : List Nat} {off : Nat} (n : ndn_name)
    {rest : List Nat} (hL : L.drop off = name_wire n ++ rest)
    (hf : name_fits n) (n0 : ndn_name) :
    ndn_name_tlv_decode ⟨L, off⟩ n0 =
      (NDN_SUCCESS,
       ⟨set_list n0.components 0 (n.components.take n.components_size),
        n.components_size⟩,
       ⟨L, off + (name_wire n).length⟩) := by
  have hS : name_value_size n < 2 ^ 64 := name_value_size_lt n hf
  have hL1 : L.drop off = var_encode TLV_Name ++
      (var_encode (name_value_size n) ++ (name_value_wire n ++ rest)) := by
    simpa [name_wire, List.append_assoc] using hL
  have hL2 : L.drop (off + var_size TLV_Name) =
      var_encode (name_value_size n) ++ (name_value_wire n ++ rest) := by
    have := drop_of_drop_append hL1
    rwa [var_encode_length] at this
  have hL3 : L.drop (off + var_size TLV_Name + var_size (name_value_size n)) =
      name_value_wire n ++ rest := by
    have := drop_of_drop_append hL2
    rwa [var_encode_length] at this
  unfold ndn_name_tlv_decode decoder_get_type
  rw [decoder_get_var_suffix hL1 (by norm_num [TLV_Name])]
  dsimp only
  rw [if_neg (by simp)]
  unfold decoder_get_length
  rw [decoder_get_var_suffix hL2 hS]
  dsimp only
  have hcs_len : (n.components.take n.components_size).length =
      n.components_size := by
    have h2 := hf.2.1
    simp [List.length_take]
    omega
  have hL3f : L.drop (off + var_size TLV_Name + var_size (name_value_size n)) =
      ((n.components.take n.components_size).map
        name_component_wire).flatten ++ rest := by
    simpa [name_value_wire] using hL3
  have hloop := ndn_name_decode_loop_wire
    (n.components.take n.components_size)
    hL3f
    (by intro c hc
        obtain ⟨ht, hv⟩ := hf.2.2 c hc
        exact ⟨by norm_num at ht ⊢; omega, hv⟩)
    0 NDN_NAME_COMPONENTS_SIZE n0.components
    (by rw [hcs_len]; exact hf.1)
  rw [show off + var_size TLV_Name + var_size (name_value_size n) +
        name_value_size n =
      off + var_size TLV_Name + var_size (name_value_size n) +
        (((n.components.take n.components_size).map
          name_component_wire).flatten).length by
    rw [show (((n.components.take n.components_size).map
        name_component_wire).flatten).length = (name_value_wire n).length
      from rfl]
    rw [name_value_wire_length]]
  rw [hloop]
  dsimp only
  rw [if_neg (show ¬(NDN_SUCCESS < 0) by norm_num [NDN_SUCCESS])]
  rw [show (name_wire n).length = var_size TLV_Name +
      var_size (name_value_size n) + (name_value_wire n).length by
    simp [name_wire, var_encode_length]; omega]
  rw [name_value_wire_length]
  simp [Prod.ext_iff, hcs_len, ← List.map_take, map_wire_length_eq,
        name_value_size]
  omega

def metainfo_fits (m : ndn_metainfo) : Prop :=
  m.content_type < 2 ^ 64 ∧ m.freshness_period < 2 ^ 64 ∧
  m.final_block_id.type < 2 ^ 32 ∧
  m.final_block_id.value.length ≤ NDN_NAME_COMPONENT_BUFFER_SIZE

/-- The metainfo record the decoder produces: present fields of `m`
with their enable flag set to 1, absent fields keeping the output
record's previous value with flag 0. -/
def metainfo_decode_image (m m0 : ndn_metainfo) : ndn_metainfo :=
  { content_type := if m.enable_ContentType > 0 then m.content_type
                    else m0.content_type,
    enable_ContentType := if m.enable_ContentType > 0 then 1 else 0,
    freshness_period := if m.enable_FreshnessPeriod > 0 then m.freshness_period
                        else m0.freshness_period,
    enable_FreshnessPeriod := if m.enable_FreshnessPeriod > 0 then 1 else 0,
    final_block_id := if m.enable_FinalBlockId > 0 then m.final_block_id
                      else m0.final_block_id,
    enable_FinalBlockId := if m.enable_FinalBlockId > 0 then 1 else 0 }

theorem metainfo_value_size_eq (m : ndn_metainfo) :
    ndn_metainfo_value_size m = (metainfo_ct_wire m).length +
      (metainfo_fp_wire m).length + (metainfo_fb_wire m).length := by
  rw [ndn_metainfo_value_size, metainfo_ct_wire_length, metainfo_fp_wire_length,
      metainfo_fb_wire_length]

theorem uint_len_le (v : Nat) : encoder_probe_uint_length v ≤ 8 := by
  unfold encoder_probe_uint_length
  split
  · omega
  · split
    · omega
    · split <;> omega

theorem metainfo_value_size_lt (m : ndn_metainfo)
    (hfb : m.final_block_id.value.length ≤ NDN_NAME_COMPONENT_BUFFER_SIZE) :
    ndn_metainfo_value_size m < 2 ^ 64 := by
  have hP : name_component_probe_block_size m.final_block_id ≤ 54 := by
    have := var_size_le m.final_block_id.type
    have := var_size_le m.final_block_id.value.length
    unfold NDN_NAME_COMPONENT_BUFFER_SIZE at hfb
    unfold name_component_probe_block_size encoder_probe_block_size
    omega
  have hct : (if m.enable_ContentType > 0 then
      encoder_probe_block_size TLV_ContentType
        (encoder_probe_uint_length m.content_type) else 0) ≤ 27 := by
    split
    · have := var_size_le TLV_ContentType
      have := var_size_le (encoder_probe_uint_length m.content_type)
      have := uint_len_le m.content_type
      unfold encoder_probe_block_size
      omega
    · omega
  have hfp : (if m.enable_FreshnessPeriod > 0 then
      encoder_probe_block_size TLV_FreshnessPeriod
        (encoder_probe_uint_length m.freshness_period) else 0) ≤ 27 := by
    split
    · have := var_size_le TLV_FreshnessPeriod
      have := var_size_le (encoder_probe_uint_length m.freshness_period)
      have := uint_len_le m.freshness_period
      unfold encoder_probe_block_size
      omega
    · omega
  have hfb2 : (if m.enable_FinalBlockId > 0 then
      encoder_probe_block_size TLV_FinalBlockId
        (name_component_probe_block_size m.final_block_id) else 0) ≤ 72 := by
    split
    · have := var_size_le TLV_FinalBlockId
      have := var_size_le (name_component_probe_block_size m.final_block_id)
      unfold encoder_probe_block_size
      omega
    · omega
  unfold ndn_metainfo_value_size
  omega

theorem var_size_small {v : Nat} (h : v < 253) : var_size v = 1 := by
  unfold var_size
  rw [if_pos h]

theorem uint_field_reads {L : List Nat} {off t v : Nat} {tail : List Nat}
    (hd : L.drop off = var_encode t ++
      (var_encode (encoder_probe_uint_length v) ++ (uint_encode v ++ tail)))
    (ht : t < 2 ^ 64) (hv : v < 2 ^ 64) :
    decoder_get_var ⟨L, off⟩ = (NDN_SUCCESS, t, ⟨L, off + var_size t⟩) ∧
    decoder_get_var ⟨L, off + var_size t⟩ =
      (NDN_SUCCESS, encoder_probe_uint_length v, ⟨L, off + var_size t + 1⟩) ∧
    decoder_get_uint ⟨L, off + var_size t + 1⟩ (encoder_probe_uint_length v) =
      (NDN_SUCCESS, v,
       ⟨L, off + var_size t + 1 + encoder_probe_uint_length v⟩) := by
  have hd2 : L.drop (off + var_size t) =
      var_encode (encoder_probe_uint_length v) ++ (uint_encode v ++ tail) := by
    have := drop_of_drop_append hd
    rwa [var_encode_length] at this
  have hul := uint_len_le v
  have hvs : var_size (encoder_probe_uint_length v) = 1 :=
    var_size_small (by omega)
  have hd3 : L.drop (off + var_size t + 1) = uint_encode v ++ tail := by
    have := drop_of_drop_append hd2
    rwa [var_encode_length, hvs] at this
  have hup : 1 ≤ encoder_probe_uint_length v := by
    unfold encoder_probe_uint_length
    split
    · omega
    · split
      · omega
      · split <;> omega
  have hoff3 : off + var_size t + 1 ≤ L.length := by
    have hne : L.drop (off + var_size t + 1) ≠ [] := by
      rw [hd3]
      intro hcon
      have := congrArg List.length hcon
      simp [uint_encode_length] at this
      omega
    have := offset_le_of_drop_ne_nil hne
    omega
  refine ⟨decoder_get_var_suffix hd ht, ?_, ?_⟩
  · have := decoder_get_var_suffix hd2 (show encoder_probe_uint_length v < 2 ^ 64 by omega)
    rwa [hvs] at this
  · exact decoder_get_uint_suffix hd3 hoff3 hv

theorem comp_field_reads {L : List Nat} {off t : Nat} (c : name_component)
    {tail : List Nat}
    (hd : L.drop off = var_encode t ++
      (var_encode (name_component_probe_block_size c) ++
       (name_component_wire c ++ tail)))
    (ht : t < 2 ^ 64) (hcmt : c.type < 2 ^ 64)
    (hcv : c.value.length ≤ NDN_NAME_COMPONENT_BUFFER_SIZE) :
    decoder_get_var ⟨L, off⟩ = (NDN_SUCCESS, t, ⟨L, off + var_size t⟩) ∧
    decoder_get_var ⟨L, off + var_size t⟩ =
      (NDN_SUCCESS, name_component_probe_block_size c,
       ⟨L, off + var_size t + 1⟩) ∧
    name_component_tlv_decode ⟨L, off + var_size t + 1⟩ =
      (NDN_SUCCESS, c,
       ⟨L, off + var_size t + 1 + (name_component_wire c).length⟩) := by
  have hpb : name_component_probe_block_size c ≤ 54 := by
    have := var_size_le c.type
    have := var_size_le c.value.length
    unfold NDN_NAME_COMPONENT_BUFFER_SIZE at hcv
    unfold name_component_probe_block_size encoder_probe_block_size
    omega
  have hvs : var_size (name_component_probe_block_size c) = 1 :=
    var_size_small (by omega)
  have hd2 : L.drop (off + var_size t) =
      var_encode (name_component_probe_block_size c) ++
      (name_component_wire c ++ tail) := by
    have := drop_of_drop_append hd
    rwa [var_encode_length] at this
  have hd3 : L.drop (off + var_size t + 1) = name_component_wire c ++ tail := by
    have := drop_of_drop_append hd2
    rwa [var_encode_length, hvs] at this
  refine ⟨decoder_get_var_suffix hd ht, ?_, ?_⟩
  · have := decoder_get_var_suffix hd2
      (show name_component_probe_block_size c < 2 ^ 64 by omega)
    rwa [hvs] at this
  · exact name_component_tlv_decode_suffix c hd3 hcmt hcv

theorem var_size_pos (v : Nat) : 1 ≤ var_size v := by
  unfold var_size
  split
  · omega
  · split
    · omega
    · split <;> omega

theorem metainfo_ct_wire_pos (m : ndn_metainfo) (h : m.enable_ContentType > 0) :
    0 < (metainfo_ct_wire m).length := by
  rw [metainfo_ct_wire_length, if_pos h]
  have := var_size_pos TLV_ContentType
  unfold encoder_probe_block_size
  omega

theorem metainfo_fp_wire_pos (m : ndn_metainfo)
    (h : m.enable_FreshnessPeriod > 0) : 0 < (metainfo_fp_wire m).length := by
  rw [metainfo_fp_wire_length, if_pos h]
  have := var_size_pos TLV_FreshnessPeriod
  unfold encoder_probe_block_size
  omega

theorem metainfo_fb_wire_pos (m : ndn_metainfo)
    (h : m.enable_FinalBlockId > 0) : 0 < (metainfo_fb_wire m).length := by
  rw [metainfo_fb_wire_length, if_pos h]
  have := var_size_pos TLV_FinalBlockId
  unfold encoder_probe_block_size
  omega

theorem ndn_metainfo_tlv_decode_wire {L : List Nat} {off : Nat}
    (m : ndn_metainfo) {rest : List Nat}
    (hL : L.drop off = metainfo_wire m ++ rest)
    (hf : metainfo_fits m) (m0 : ndn_metainfo) :
    ndn_metainfo_tlv_decode ⟨L, off⟩ m0 =
      (NDN_SUCCESS, metainfo_decode_image m m0,
       ⟨L, off + (metainfo_wire m).length⟩) := by
  obtain ⟨hctv, hfpv, hfbt, hfbv⟩ := hf
  have hV64 : ndn_metainfo_value_size m < 2 ^ 64 := metainfo_value_size_lt m hfbv
  have hVeq := metainfo_value_size_eq m
  have hL1 : L.drop off = var_encode TLV_MetaInfo ++
      (var_encode (ndn_metainfo_value_size m) ++
       (metainfo_ct_wire m ++ (metainfo_fp_wire m ++
        (metainfo_fb_wire m ++ rest)))) := by
    simpa [metainfo_wire, List.append_assoc] using hL
  have hL2 : L.drop (off + var_size TLV_MetaInfo) =
      var_encode (ndn_metainfo_value_size m) ++
      (metainfo_ct_wire m ++ (metainfo_fp_wire m ++
       (metainfo_fb_wire m ++ rest))) := by
    have := drop_of_drop_append hL1
    rwa [var_encode_length] at this
  have hL3 : L.drop (off + var_size TLV_MetaInfo +
      var_size (ndn_metainfo_value_size m)) =
      metainfo_ct_wire m ++ (metainfo_fp_wire m ++
       (metainfo_fb_wire m ++ rest)) := by
    have := drop_of_drop_append hL2
    rwa [var_encode_length] at this
  unfold ndn_metainfo_tlv_decode decoder_get_type
  rw [decoder_get_var_suffix hL1 (by norm_num [TLV_MetaInfo])]
  dsimp only
  rw [if_neg (show ¬(NDN_SUCCESS < 0) by norm_num [NDN_SUCCESS])]
  rw [if_neg (by simp)]
  unfold decoder_get_length
  rw [decoder_get_var_suffix hL2 hV64]
  dsimp only
  set o2 : Nat := off + var_size TLV_MetaInfo +
    var_size (ndn_metainfo_value_size m) with ho2
  have hwire_len : off + (metainfo_wire m).length =
      o2 + ndn_metainfo_value_size m := by
    simp [metainfo_wire, var_encode_length, ho2, hVeq]
    omega
  simp only [Prod.mk.injEq, ndn_decoder.mk.injEq]
  refine ⟨trivial, ?_⟩
  have hn1 : var_size (encoder_probe_uint_length m.content_type) = 1 :=
    var_size_small (by have := uint_len_le m.content_type; omega)
  have hn2 : var_size (encoder_probe_uint_length m.freshness_period) = 1 :=
    var_size_small (by have := uint_len_le m.freshness_period; omega)
  have hTfpct : (TLV_FreshnessPeriod = TLV_ContentType) = False := by
    norm_num [TLV_FreshnessPeriod, TLV_ContentType]
  have hTfbct : (TLV_FinalBlockId = TLV_ContentType) = False := by
    norm_num [TLV_FinalBlockId, TLV_ContentType]
  have hTfbfp : (TLV_FinalBlockId = TLV_FreshnessPeriod) = False := by
    norm_num [TLV_FinalBlockId, TLV_FreshnessPeriod]
  by_cases hct : m.enable_ContentType > 0
  · -- content-type present
    have hA1 : metainfo_ct_wire m = var_encode TLV_ContentType ++
        (var_encode (encoder_probe_uint_length m.content_type) ++
         uint_encode m.content_type) := by
      simp [metainfo_ct_wire, hct, List.append_assoc]
    have hA1len : (metainfo_ct_wire m).length =
        var_size TLV_ContentType + 1 +
        encoder_probe_uint_length m.content_type := by
      simp [hA1, var_encode_length, uint_encode_length, hn1]
      omega
    have hdA : L.drop o2 = var_encode TLV_ContentType ++
        (var_encode (encoder_probe_uint_length m.content_type) ++
         (uint_encode m.content_type ++
          (metainfo_fp_wire m ++ (metainfo_fb_wire m ++ rest)))) := by
      simpa [hA1, List.append_assoc] using hL3
    obtain ⟨ra1, ra2, ra3⟩ := uint_field_reads hdA
      (by norm_num [TLV_ContentType]) hctv
    have hT1 : L.drop (o2 + var_size TLV_ContentType + 1 +
        encoder_probe_uint_length m.content_type) =
        metainfo_fp_wire m ++ (metainfo_fb_wire m ++ rest) := by
      have := drop_of_drop_append (a := metainfo_ct_wire m) hL3
      rw [hA1len] at this
      rw [show o2 + var_size TLV_ContentType + 1 +
          encoder_probe_uint_length m.content_type =
          o2 + (var_size TLV_ContentType + 1 +
            encoder_probe_uint_length m.content_type) by omega]
      exact this
    have hc1 : (o2 < o2 + ndn_metainfo_value_size m) = True := by
      simp
      omega
    by_cases hfp : m.enable_FreshnessPeriod > 0
    · have hA2 : metainfo_fp_wire m = var_encode TLV_FreshnessPeriod ++
          (var_encode (encoder_probe_uint_length m.freshness_period) ++
           uint_encode m.freshness_period) := by
        simp [metainfo_fp_wire, hfp, List.append_assoc]
      have hA2len : (metainfo_fp_wire m).length =
          var_size TLV_FreshnessPeriod + 1 +
          encoder_probe_uint_length m.freshness_period := by
        simp [hA2, var_encode_length, uint_encode_length, hn2]
        omega
      have hdB : L.drop (o2 + var_size TLV_ContentType + 1 +
          encoder_probe_uint_length m.content_type) =
          var_encode TLV_FreshnessPeriod ++
          (var_encode (encoder_probe_uint_length m.freshness_period) ++
           (uint_encode m.freshness_period ++
            (metainfo_fb_wire m ++ rest))) := by
        simpa [hA2, List.append_assoc] using hT1
      obtain ⟨rb1, rb2, rb3⟩ := uint_field_reads hdB
        (by norm_num [TLV_FreshnessPeriod]) hfpv
      have hT2 : L.drop (o2 + var_size TLV_ContentType + 1 +
          encoder_probe_uint_length m.content_type +
          var_size TLV_FreshnessPeriod + 1 +
          encoder_probe_uint_length m.freshness_period) =
          metainfo_fb_wire m ++ rest := by
        have := drop_of_drop_append (a := metainfo_fp_wire m) hT1
        rw [hA2len] at this
        rw [show o2 + var_size TLV_ContentType + 1 +
            encoder_probe_uint_length m.content_type +
            var_size TLV_FreshnessPeriod + 1 +
            encoder_probe_uint_length m.freshness_period =
            o2 + var_size TLV_ContentType + 1 +
            encoder_probe_uint_length m.content_type +
            (var_size TLV_FreshnessPeriod + 1 +
             encoder_probe_uint_length m.freshness_period) by omega]
        exact this
      have hc2 : (o2 + var_size TLV_ContentType + 1 +
          encoder_probe_uint_length m.content_type <
          o2 + ndn_metainfo_value_size m) = True := by
        simp only [eq_iff_iff, iff_true]
        have h2 : 0 < (metainfo_fp_wire m).length := by rw [hA2len]; omega
        omega
      by_cases hfb : m.enable_FinalBlockId > 0
      · have hA3 : metainfo_fb_wire m = var_encode TLV_FinalBlockId ++
            (var_encode (name_component_probe_block_size m.final_block_id) ++
             name_component_wire m.final_block_id) := by
          simp [metainfo_fb_wire, hfb, List.append_assoc]
        have hdC : L.drop (o2 + var_size TLV_ContentType + 1 +
            encoder_probe_uint_length m.content_type +
            var_size TLV_FreshnessPeriod + 1 +
            encoder_probe_uint_length m.freshness_period) =
            var_encode TLV_FinalBlockId ++
            (var_encode (name_component_probe_block_size m.final_block_id) ++
             (name_component_wire m.final_block_id ++ rest)) := by
          simpa [hA3, List.append_assoc] using hT2
        obtain ⟨rc1, rc2, rc3⟩ := comp_field_reads m.final_block_id hdC
          (by norm_num [TLV_FinalBlockId]) (by omega) hfbv
        have hc3 : (o2 + var_size TLV_ContentType + 1 +
            encoder_probe_uint_length m.content_type +
            var_size TLV_FreshnessPeriod + 1 +
            encoder_probe_uint_length m.freshness_period <
            o2 + ndn_metainfo_value_size m) = True := by
          simp only [eq_iff_iff, iff_true]
          have h3 : 0 < (metainfo_fb_wire m).length := by
            rw [hA3]
            simp [var_encode_ne_nil, List.length_append]
            have := var_encode_ne_nil TLV_FinalBlockId
            cases hnn : var_encode TLV_FinalBlockId with
            | nil => exact absurd hnn this
            | cons a l => simp [hnn]
          omega
        simp only [ra1, ra2, ra3, rb1, rb2, rb3, rc1, rc2, rc3, hc1, hc2, hc3,
                   if_true, hTfpct, hTfbct, hTfbfp, if_false]
        simp [metainfo_decode_image, hct, hfp, hfb]
        omega
      · have hA3 : metainfo_fb_wire m = [] := by simp [metainfo_fb_wire, hfb]
        have hc3 : (o2 + var_size TLV_ContentType + 1 +
            encoder_probe_uint_length m.content_type +
            var_size TLV_FreshnessPeriod + 1 +
            encoder_probe_uint_length m.freshness_period <
            o2 + ndn_metainfo_value_size m) = False := by
          simp only [eq_iff_iff, iff_false, not_lt]
          rw [hVeq, hA1len, hA2len, hA3]
          simp
          omega
        simp only [ra1, ra2, ra3, rb1, rb2, rb3, hc1, hc2, hc3,
                   if_true, hTfpct, if_false]
        simp [metainfo_decode_image, hct, hfp, hfb]
        omega
    · -- freshness absent (content-type present)
      have hA2 : metainfo_fp_wire m = [] := by simp [metainfo_fp_wire, hfp]
      have hT1b : L.drop (o2 + var_size TLV_ContentType + 1 +
          encoder_probe_uint_length m.content_type) =
          metainfo_fb_wire m ++ rest := by
        simpa [hA2] using hT1
      by_cases hfb : m.enable_FinalBlockId > 0
      · have hA3 : metainfo_fb_wire m = var_encode TLV_FinalBlockId ++
            (var_encode (name_component_probe_block_size m.final_block_id) ++
             name_component_wire m.final_block_id) := by
          simp [metainfo_fb_wire, hfb, List.append_assoc]
        have hdC : L.drop (o2 + var_size TLV_ContentType + 1 +
            encoder_probe_uint_length m.content_type) =
            var_encode TLV_FinalBlockId ++
            (var_encode (name_component_probe_block_size m.final_block_id) ++
             (name_component_wire m.final_block_id ++ rest)) := by
          simpa [hA3, List.append_assoc] using hT1b
        obtain ⟨rc1, rc2, rc3⟩ := comp_field_reads m.final_block_id hdC
          (by norm_num [TLV_FinalBlockId]) (by omega) hfbv
        have hc2 : (o2 + var_size TLV_ContentType + 1 +
            encoder_probe_uint_length m.content_type <
            o2 + ndn_metainfo_value_size m) = True := by
          simp only [eq_iff_iff, iff_true]
          have := metainfo_fb_wire_pos m hfb
          omega
        simp only [ra1, ra2, ra3, rc1, rc2, rc3, hc1, hc2, if_true,
                   hTfbfp, if_false]
        simp [metainfo_decode_image, hct, hfp, hfb]
        omega
      · have hA3 : metainfo_fb_wire m = [] := by simp [metainfo_fb_wire, hfb]
        have hc2 : (o2 + var_size TLV_ContentType + 1 +
            encoder_probe_uint_length m.content_type <
            o2 + ndn_metainfo_value_size m) = False := by
          simp only [eq_iff_iff, iff_false, not_lt]
          rw [hVeq, hA1len, hA2, hA3]
          simp
          omega
        simp only [ra1, ra2, ra3, hc1, hc2, if_true, if_false]
        simp [metainfo_decode_image, hct, hfp, hfb]
        omega
  · -- content-type absent
    have hA1 : metainfo_ct_wire m = [] := by simp [metainfo_ct_wire, hct]
    have hT0 : L.drop o2 = metainfo_fp_wire m ++ (metainfo_fb_wire m ++ rest) := by
      simpa [hA1] using hL3
    by_cases hfp : m.enable_FreshnessPeriod > 0
    · have hA2 : metainfo_fp_wire m = var_encode TLV_FreshnessPeriod ++
          (var_encode (encoder_probe_uint_length m.freshness_period) ++
           uint_encode m.freshness_period) := by
        simp [metainfo_fp_wire, hfp, List.append_assoc]
      have hA2len : (metainfo_fp_wire m).length =
          var_size TLV_FreshnessPeriod + 1 +
          encoder_probe_uint_length m.freshness_period := by
        simp [hA2, var_encode_length, uint_encode_length, hn2]
        omega
      have hdB : L.drop o2 = var_encode TLV_FreshnessPeriod ++
          (var_encode (encoder_probe_uint_length m.freshness_period) ++
           (uint_encode m.freshness_period ++
            (metainfo_fb_wire m ++ rest))) := by
        simpa [hA2, List.append_assoc] using hT0
      obtain ⟨rb1, rb2, rb3⟩ := uint_field_reads hdB
        (by norm_num [TLV_FreshnessPeriod]) hfpv
      have hc1 : (o2 < o2 + ndn_metainfo_value_size m) = True := by
        simp only [eq_iff_iff, iff_true]
        have := metainfo_fp_wire_pos m hfp
        omega
      have hT2 : L.drop (o2 + var_size TLV_FreshnessPeriod + 1 +
          encoder_probe_uint_length m.freshness_period) =
          metainfo_fb_wire m ++ rest := by
        have := drop_of_drop_append (a := metainfo_fp_wire m) hT0
        rw [hA2len] at this
        rw [show o2 + var_size TLV_FreshnessPeriod + 1 +
            encoder_probe_uint_length m.freshness_period =
            o2 + (var_size TLV_FreshnessPeriod + 1 +
             encoder_probe_uint_length m.freshness_period) by omega]
        exact this
      by_cases hfb : m.enable_FinalBlockId > 0
      · have hA3 : metainfo_fb_wire m = var_encode TLV_FinalBlockId ++
            (var_encode (name_component_probe_block_size m.final_block_id) ++
             name_component_wire m.final_block_id) := by
          simp [metainfo_fb_wire, hfb, List.append_assoc]
        have hdC : L.drop (o2 + var_size TLV_FreshnessPeriod + 1 +
            encoder_probe_uint_length m.freshness_period) =
            var_encode TLV_FinalBlockId ++
            (var_encode (name_component_probe_block_size m.final_block_id) ++
             (name_component_wire m.final_block_id ++ rest)) := by
          simpa [hA3, List.append_assoc] using hT2
        obtain ⟨rc1, rc2, rc3⟩ := comp_field_reads m.final_block_id hdC
          (by norm_num [TLV_FinalBlockId]) (by omega) hfbv
        have hc3 : (o2 + var_size TLV_FreshnessPeriod + 1 +
            encoder_probe_uint_length m.freshness_period <
            o2 + ndn_metainfo_value_size m) = True := by
          simp only [eq_iff_iff, iff_true]
          have := metainfo_fb_wire_pos m hfb
          omega
        simp only [rb1, rb2, rb3, rc1, rc2, rc3, hc1, hc3, if_true,
                   hTfpct, hTfbct, hTfbfp, if_false]
        simp [metainfo_decode_image, hct, hfp, hfb]
        omega
      · have hA3 : metainfo_fb_wire m = [] := by simp [metainfo_fb_wire, hfb]
        have hc3 : (o2 + var_size TLV_FreshnessPeriod + 1 +
            encoder_probe_uint_length m.freshness_period <
            o2 + ndn_metainfo_value_size m) = False := by
          simp only [eq_iff_iff, iff_false, not_lt]
          rw [hVeq, hA1, hA2len, hA3]
          simp
          omega
        simp only [rb1, rb2, rb3, hc1, hc3, if_true, hTfpct, if_false]
        simp [metainfo_decode_image, hct, hfp, hfb]
        omega
    · have hA2 : metainfo_fp_wire m = [] := by simp [metainfo_fp_wire, hfp]
      have hT0b : L.drop o2 = metainfo_fb_wire m ++ rest := by
        simpa [hA2] using hT0
      by_cases hfb : m.enable_FinalBlockId > 0
      · have hA3 : metainfo_fb_wire m = var_encode TLV_FinalBlockId ++
            (var_encode (name_component_probe_block_size m.final_block_id) ++
             name_component_wire m.final_block_id) := by
          simp [metainfo_fb_wire, hfb, List.append_assoc]
        have hdC : L.drop o2 = var_encode TLV_FinalBlockId ++
            (var_encode (name_component_probe_block_size m.final_block_id) ++
             (name_component_wire m.final_block_id ++ rest)) := by
          simpa [hA3, List.append_assoc] using hT0b
        obtain ⟨rc1, rc2, rc3⟩ := comp_field_reads m.final_block_id hdC
          (by norm_num [TLV_FinalBlockId]) (by omega) hfbv
        have hc1 : (o2 < o2 + ndn_metainfo_value_size m) = True := by
          simp only [eq_iff_iff, iff_true]
          have := metainfo_fb_wire_pos m hfb
          omega
        simp only [rc1, rc2, rc3, hc1, if_true, hTfbct, hTfbfp, if_false]
        simp [metainfo_decode_image, hct, hfp, hfb]
        omega
      · have hA3 : metainfo_fb_wire m = [] := by simp [metainfo_fb_wire, hfb]
        have hc1 : (o2 < o2 + ndn_metainfo_value_size m) = False := by
          simp only [eq_iff_iff, iff_false, not_lt]
          rw [hVeq, hA1, hA2, hA3]
          simp
        simp only [hc1, if_false]
        simp [metainfo_decode_image, hct, hfp, hfb]
        omega

theorem name_value_size_le (n : ndn_name) (hf : name_fits n) :
    name_value_size n ≤ 540 := by
  obtain ⟨h1, h2, h3⟩ := hf
  have hb : ∀ x ∈ (n.components.take n.components_size).map
      name_component_probe_block_size, x ≤ 54 := by
    intro x hx
    obtain ⟨c, hc, hcx⟩ := List.mem_map.1 hx
    obtain ⟨_, hv⟩ := h3 c hc
    have := var_size_le c.type
    have := var_size_le c.value.length
    simp [name_component_probe_block_size, encoder_probe_block_size] at hcx
    unfold NDN_NAME_COMPONENT_BUFFER_SIZE at hv
    omega
  have hsum := List.sum_le_card_nsmul _ 54 hb
  have hlen : ((n.components.take n.components_size).map
      name_component_probe_block_size).length ≤ NDN_NAME_COMPONENTS_SIZE := by
    simp [List.length_take]
    unfold NDN_NAME_COMPONENTS_SIZE at h1 ⊢
    omega
  simp only [smul_eq_mul] at hsum
  unfold name_value_size
  unfold NDN_NAME_COMPONENTS_SIZE at hlen
  omega

theorem ndn_name_probe_le (n : ndn_name) (hf : name_fits n) :
    ndn_name_probe_block_size n ≤ 558 := by
  have h1 := name_value_size_le n hf
  have h2 := var_size_le TLV_Name
  have h3 := var_size_le (name_value_size n)
  unfold ndn_name_probe_block_size encoder_probe_block_size
  unfold name_value_size at h1 h3
  omega

theorem metainfo_probe_le (m : ndn_metainfo) (hf : metainfo_fits m) :
    ndn_metainfo_probe_block_size m ≤ 144 := by
  obtain ⟨_, _, _, hfbv⟩ := hf
  have hP : name_component_probe_block_size m.final_block_id ≤ 54 := by
    have := var_size_le m.final_block_id.type
    have := var_size_le m.final_block_id.value.length
    unfold NDN_NAME_COMPONENT_BUFFER_SIZE at hfbv
    unfold name_component_probe_block_size encoder_probe_block_size
    omega
  have hct : (if m.enable_ContentType > 0 then
      encoder_probe_block_size TLV_ContentType
        (encoder_probe_uint_length m.content_type) else 0) ≤ 27 := by
    split
    · have := var_size_le TLV_ContentType
      have := var_size_le (encoder_probe_uint_length m.content_type)
      have := uint_len_le m.content_type
      unfold encoder_probe_block_size
      omega
    · omega
  have hfp : (if m.enable_FreshnessPeriod > 0 then
      encoder_probe_block_size TLV_FreshnessPeriod
        (encoder_probe_uint_length m.freshness_period) else 0) ≤ 27 := by
    split
    · have := var_size_le TLV_FreshnessPeriod
      have := var_size_le (encoder_probe_uint_length m.freshness_period)
      have := uint_len_le m.freshness_period
      unfold encoder_probe_block_size
      omega
    · omega
  have hfb2 : (if m.enable_FinalBlockId > 0 then
      encoder_probe_block_size TLV_FinalBlockId
        (name_component_probe_block_size m.final_block_id) else 0) ≤ 72 := by
    split
    · have := var_size_le TLV_FinalBlockId
      have := var_size_le (name_component_probe_block_size m.final_block_id)
      unfold encoder_probe_block_size
      omega
    · omega
  have hvs := var_size_le TLV_MetaInfo
  have hvs2 := var_size_le (ndn_metainfo_value_size m)
  unfold ndn_metainfo_probe_block_size encoder_probe_block_size
  unfold ndn_metainfo_value_size at *
  omega

/-- The overall fit hypotheses for the configured bounds. -/
def data_fits (d : ndn_data) : Prop :=
  name_fits d.name ∧ metainfo_fits d.metainfo ∧
  d.content_size ≤ NDN_CONTENT_BUFFER_SIZE ∧
  d.content_size ≤ d.content_value.length

theorem digest_block_size_le (d : ndn_data) (hf : data_fits d) :
    digest_block_size d ≤ 1300 := by
  obtain ⟨hn, hm, hc1, hc2⟩ := hf
  have h1 := ndn_name_probe_le d.name hn
  have h2 := metainfo_probe_le d.metainfo hm
  have h3 : encoder_probe_block_size TLV_Content d.content_size ≤ 274 := by
    have := var_size_le TLV_Content
    have := var_size_le d.content_size
    unfold NDN_CONTENT_BUFFER_SIZE at hc1
    unfold encoder_probe_block_size
    omega
  have hds := digest_signature_eq d.signature
  have h4 : ndn_signature_info_probe_block_size (digest_signature d.signature) = 5 := by
    unfold ndn_signature_info_probe_block_size
    rw [siginfo_plain_value_size (digest_signature d.signature)
      (by rw [hds]) (by rw [hds]) (by rw [hds]) (by rw [hds])]
    decide
  have h5 : ndn_signature_value_probe_block_size (digest_signature d.signature) = 34 := by
    unfold ndn_signature_value_probe_block_size
    rw [hds]
    dsimp only
    decide
  unfold digest_block_size
  omega

/-- When the cursor already sits at the end of the SignatureInfo value,
all four optional sections of the decoder are skipped and the state is
unchanged. -/
theorem ndn_signature_info_tlv_decode_optional_skip {d : ndn_decoder}
    {end_offset : Nat} (h : ¬ d.offset < end_offset)
    (signature : ndn_signature) :
    ndn_signature_info_tlv_decode_optional end_offset signature d =
      (signature, d) := by
  unfold ndn_signature_info_tlv_decode_optional
  rw [if_neg h]
  dsimp only
  rw [if_neg h]
  dsimp only
  rw [if_neg h]
  dsimp only
  rw [if_neg h]

set_option maxHeartbeats 1000000 in
theorem ndn_signature_info_tlv_decode_plain_wire {L : List Nat} {off : Nat}
    (s : ndn_signature) {rest : List Nat}
    (hL : L.drop off = siginfo_plain_wire s ++ rest)
    (hkl : s.enable_KeyLocator = 0) (hvp : s.enable_ValidityPeriod = 0)
    (hn : s.enable_SignatureInfoNonce = 0) (hts : s.enable_Timestamp = 0)
    (s0 : ndn_signature) :
    ndn_signature_info_tlv_decode ⟨L, off⟩ s0 =
      (NDN_SUCCESS,
       { s0 with sig_type := s.sig_type % 256, enable_KeyLocator := 0,
                 enable_ValidityPeriod := 0, enable_SignatureInfoNonce := 0,
                 enable_Timestamp := 0 },
       ⟨L, off + (siginfo_plain_wire s).length⟩) := by
  have hv3 := siginfo_plain_value_size s hkl hvp hn hts
  have hL1 : L.drop off = var_encode TLV_SignatureInfo ++
      (var_encode (ndn_signature_info_value_size s) ++
       (var_encode TLV_SignatureType ++ (var_encode 1 ++
        ([s.sig_type % 256] ++ rest)))) := by
    simpa [siginfo_plain_wire, List.append_assoc] using hL
  have hL2 : L.drop (off + var_size TLV_SignatureInfo) =
      var_encode (ndn_signature_info_value_size s) ++
      (var_encode TLV_SignatureType ++ (var_encode 1 ++
       ([s.sig_type % 256] ++ rest))) := by
    have := drop_of_drop_append hL1
    rwa [var_encode_length] at this
  have hL3 : L.drop (off + var_size TLV_SignatureInfo +
      var_size (ndn_signature_info_value_size s)) =
      var_encode TLV_SignatureType ++ (var_encode 1 ++
       ([s.sig_type % 256] ++ rest)) := by
    have := drop_of_drop_append hL2
    rwa [var_encode_length] at this
  have hL4 : L.drop (off + var_size TLV_SignatureInfo +
      var_size (ndn_signature_info_value_size s) +
      var_size TLV_SignatureType) =
      var_encode 1 ++ ([s.sig_type % 256] ++ rest) := by
    have := drop_of_drop_append hL3
    rwa [var_encode_length] at this
  have hL5 : L.drop (off + var_size TLV_SignatureInfo +
      var_size (ndn_signature_info_value_size s) +
      var_size TLV_SignatureType + var_size 1) =
      [s.sig_type % 256] ++ rest := by
    have := drop_of_drop_append hL4
    rwa [var_encode_length] at this
  have hbyte : ([s.sig_type % 256] : List Nat) = be_bytes 1 (s.sig_type % 256) := by
    simp [be_bytes]
  have hv22 : var_size TLV_SignatureInfo = 1 := by decide
  have hv27 : var_size TLV_SignatureType = 1 := by decide
  have hv1 : var_size 1 = 1 := by decide
  have hv3s : var_size (ndn_signature_info_value_size s) = 1 := by
    rw [hv3]
    decide
  have hoff5 : off + var_size TLV_SignatureInfo +
      var_size (ndn_signature_info_value_size s) +
      var_size TLV_SignatureType + var_size 1 ≤ L.length := by
    have hne : L.drop (off + var_size TLV_SignatureInfo +
        var_size (ndn_signature_info_value_size s) +
        var_size TLV_SignatureType + var_size 1) ≠ [] := by
      rw [hL5]
      simp
    have := offset_le_of_drop_ne_nil hne
    omega
  have rbyte := be_decode_take_suffix (n := 1) (v := s.sig_type % 256)
    (by rw [← hbyte]; exact hL5) hoff5 (by simp; omega)
  unfold ndn_signature_info_tlv_decode decoder_get_type
  rw [decoder_get_var_suffix hL1 (by norm_num [TLV_SignatureInfo])]
  dsimp only
  rw [if_neg (show ¬(NDN_SUCCESS < 0) by norm_num [NDN_SUCCESS])]
  rw [if_neg (by simp)]
  unfold decoder_get_length
  rw [decoder_get_var_suffix hL2 (by rw [hv3]; norm_num)]
  dsimp only
  have r3 := decoder_get_var_suffix hL3 (by norm_num [TLV_SignatureType])
  have r4 := decoder_get_var_suffix hL4 (by norm_num)
  have hwl0 : (siginfo_plain_wire s).length = 5 := by
    simp only [siginfo_plain_wire, List.length_append, var_encode_length,
      List.length_cons, List.length_nil, hv3, hv22, hv27, hv1]
    decide
  have hT27 : (TLV_SignatureType ≠ TLV_SignatureType) = False := by simp
  have hskip : ∀ sig : ndn_signature,
      ndn_signature_info_tlv_decode_optional
        (off + var_size TLV_SignatureInfo +
         var_size (ndn_signature_info_value_size s) +
         ndn_signature_info_value_size s) sig
        ⟨L, off + var_size TLV_SignatureInfo +
            var_size (ndn_signature_info_value_size s) +
            var_size TLV_SignatureType + var_size 1 + 1⟩ =
      (sig, ⟨L, off + var_size TLV_SignatureInfo +
               var_size (ndn_signature_info_value_size s) +
               var_size TLV_SignatureType + var_size 1 + 1⟩) := fun sig =>
    ndn_signature_info_tlv_decode_optional_skip (by dsimp only; omega) sig
  simp only [r3, r4, rbyte, hT27, if_false, hskip]
  simp only [Prod.mk.injEq, ndn_decoder.mk.injEq, true_and, and_true]
  omega

/-- Decoding a signature-value TLV image copies the signature bytes
into the record's bounded buffer, records the length, and advances past
the block. -/
theorem ndn_signature_value_tlv_decode_wire {L : List Nat} {off : Nat}
    (s : ndn_signature) {rest : List Nat}
    (hL : L.drop off = sigvalue_wire s ++ rest)
    (hsz : s.sig_size ≤ NDN_SIGNATURE_BUFFER_SIZE)
    (hlen : s.sig_size ≤ s.sig_value.length)
    (s0 : ndn_signature) :
    ndn_signature_value_tlv_decode ⟨L, off⟩ s0 =
      (NDN_SUCCESS,
       { s0 with sig_size := s.sig_size,
                 sig_value := s.sig_value.take s.sig_size ++
                              s0.sig_value.drop s.sig_size },
       ⟨L, off + (sigvalue_wire s).length⟩) := by
  have hL1 : L.drop off = var_encode TLV_SignatureValue ++
      (var_encode s.sig_size ++ (s.sig_value.take s.sig_size ++ rest)) := by
    simpa [sigvalue_wire, List.append_assoc] using hL
  have hL2 : L.drop (off + var_size TLV_SignatureValue) =
      var_encode s.sig_size ++ (s.sig_value.take s.sig_size ++ rest) := by
    have := drop_of_drop_append hL1
    rwa [var_encode_length] at this
  have hL3 : L.drop (off + var_size TLV_SignatureValue + var_size s.sig_size) =
      s.sig_value.take s.sig_size ++ rest := by
    have := drop_of_drop_append hL2
    rwa [var_encode_length] at this
  have hne : L.drop off ≠ [] := by
    rw [hL1]
    simp [var_encode_ne_nil]
  have hoff : off ≤ L.length := offset_le_of_drop_ne_nil hne
  have hlenL := length_of_drop_append hL hoff
  have hwlen : (sigvalue_wire s).length = var_size TLV_SignatureValue +
      var_size s.sig_size + s.sig_size := by
    simp [sigvalue_wire, var_encode_length]
    omega
  have hbs : (s.sig_value.take s.sig_size).length = s.sig_size := by
    simp [List.length_take, Nat.min_eq_left hlen]
  have rraw := decoder_get_raw_suffix hL3 (by omega)
  rw [hbs] at rraw
  unfold ndn_signature_value_tlv_decode decoder_get_type decoder_get_length
  rw [decoder_get_var_suffix hL1 (by norm_num [TLV_SignatureValue])]
  dsimp only
  rw [if_neg (show ¬(NDN_SUCCESS < 0) by norm_num [NDN_SUCCESS])]
  rw [if_neg (by simp)]
  rw [decoder_get_var_suffix hL2
    (show s.sig_size < 2 ^ 64 by
      have : NDN_SIGNATURE_BUFFER_SIZE = 128 := rfl
      omega)]
  dsimp only
  rw [if_neg (show ¬(s.sig_size > NDN_SIGNATURE_BUFFER_SIZE) by omega)]
  rw [rraw]
  dsimp only
  rw [if_neg (show ¬(NDN_SUCCESS < 0) by norm_num [NDN_SUCCESS])]
  simp only [Prod.mk.injEq, ndn_decoder.mk.injEq, true_and, and_true]
  omega

/-- The Data record produced by decoding a digest-signed packet of `d`
into the output record `d0`: `d`'s name components (over `d0`'s
component slots), the decoded metainfo image, `d`'s content bytes, and
a digest signature carrying the SHA-256 of the signed range. -/
def data_digest_decoded (sha : List Nat → List Nat) (d d0 : ndn_data) :
    ndn_data :=
  { name := ⟨set_list d0.name.components 0
      (d.name.components.take d.name.components_size),
      d.name.components_size⟩,
    metainfo := metainfo_decode_image d.metainfo d0.metainfo,
    content_value := d.content_value.take d.content_size ++
      d0.content_value.drop d.content_size,
    content_size := d.content_size,
    signature := { d0.signature with
      sig_type := NDN_SIG_TYPE_DIGEST_SHA256,
      enable_KeyLocator := 0, enable_ValidityPeriod := 0,
      enable_SignatureInfoNonce := 0, enable_Timestamp := 0,
      sig_size := NDN_SEC_SHA256_HASH_SIZE,
      sig_value := sha (data_unsigned_wire (data_digest_prep d)) ++
        d0.signature.sig_value.drop NDN_SEC_SHA256_HASH_SIZE } }

set_option maxHeartbeats 1000000 in
/-- Decoding and digest-verifying the digest-signed packet of a Data
record `d` that fits the configured bounds succeeds and recovers `d`'s
name, metainfo and content into the output record. -/
theorem ndn_data_tlv_decode_digest_verify_spec (sha : List Nat → List Nat)
    (d : ndn_data) (hf : data_fits d)
    (hsha : (sha (data_unsigned_wire (data_digest_prep d))).length =
            NDN_SEC_SHA256_HASH_SIZE)
    (d0 : ndn_data) :
    ndn_data_tlv_decode_digest_verify sha d0 (data_digest_packet sha d)
        (data_digest_packet sha d).length =
      (NDN_SUCCESS, data_digest_decoded sha d d0) := by
  have hcsl : (d.content_value.take d.content_size).length = d.content_size := by
    simp [List.length_take, Nat.min_eq_left hf.2.2.2]
  have hsw : sigvalue_wire ((data_digest_result sha d).signature) =
      var_encode TLV_SignatureValue ++
      (var_encode NDN_SEC_SHA256_HASH_SIZE ++
       sha (data_unsigned_wire (data_digest_prep d))) := by
    simp only [sigvalue_wire, data_digest_result, digest_signature_eq]
    rw [← hsha, List.take_left]
    simp [List.append_assoc]
  have h0 : (data_digest_packet sha d).drop 0 =
      var_encode TLV_Data ++
      (var_encode (digest_block_size d) ++
       (name_wire d.name ++
        (metainfo_wire d.metainfo ++
         (var_encode TLV_Content ++
          (var_encode d.content_size ++
           (d.content_value.take d.content_size ++
            (siginfo_plain_wire (digest_signature d.signature) ++
             (sigvalue_wire ((data_digest_result sha d).signature) ++
              ([] : List Nat))))))))) := by
    rw [List.drop_zero, hsw]
    simp [data_digest_packet, data_unsigned_wire, data_digest_prep,
          content_wire, List.append_assoc]
  have h1 : (data_digest_packet sha d).drop (0 + var_size TLV_Data) =
      var_encode (digest_block_size d) ++
       (name_wire d.name ++
        (metainfo_wire d.metainfo ++
         (var_encode TLV_Content ++
          (var_encode d.content_size ++
           (d.content_value.take d.content_size ++
            (siginfo_plain_wire (digest_signature d.signature) ++
             (sigvalue_wire ((data_digest_result sha d).signature) ++
              ([] : List Nat)))))))) := by
    have := drop_of_drop_append h0
    rwa [var_encode_length] at this
  have h2 : (data_digest_packet sha d).drop
      (0 + var_size TLV_Data + var_size (digest_block_size d)) =
      name_wire d.name ++
        (metainfo_wire d.metainfo ++
         (var_encode TLV_Content ++
          (var_encode d.content_size ++
           (d.content_value.take d.content_size ++
            (siginfo_plain_wire (digest_signature d.signature) ++
             (sigvalue_wire ((data_digest_result sha d).signature) ++
              ([] : List Nat))))))) := by
    have := drop_of_drop_append h1
    rwa [var_encode_length] at this
  have h3 : (data_digest_packet sha d).drop
      (0 + var_size TLV_Data + var_size (digest_block_size d) +
       (name_wire d.name).length) =
      metainfo_wire d.metainfo ++
         (var_encode TLV_Content ++
          (var_encode d.content_size ++
           (d.content_value.take d.content_size ++
            (siginfo_plain_wire (digest_signature d.signature) ++
             (sigvalue_wire ((data_digest_result sha d).signature) ++
              ([] : List Nat)))))) :=
    drop_of_drop_append h2
  have h4 : (data_digest_packet sha d).drop
      (0 + var_size TLV_Data + var_size (digest_block_size d) +
       (name_wire d.name).length + (metainfo_wire d.metainfo).length) =
      var_encode TLV_Content ++
          (var_encode d.content_size ++
           (d.content_value.take d.content_size ++
            (siginfo_plain_wire (digest_signature d.signature) ++
             (sigvalue_wire ((data_digest_result sha d).signature) ++
              ([] : List Nat))))) :=
    drop_of_drop_append h3
  have h5 : (data_digest_packet sha d).drop
      (0 + var_size TLV_Data + var_size (digest_block_size d) +
       (name_wire d.name).length + (metainfo_wire d.metainfo).length +
       var_size TLV_Content) =
      var_encode d.content_size ++
           (d.content_value.take d.content_size ++
            (siginfo_plain_wire (digest_signature d.signature) ++
             (sigvalue_wire ((data_digest_result sha d).signature) ++
              ([] : List Nat)))) := by
    have := drop_of_drop_append h4
    rwa [var_encode_length] at this
  have h6 : (data_digest_packet sha d).drop
      (0 + var_size TLV_Data + var_size (digest_block_size d) +
       (name_wire d.name).length + (metainfo_wire d.metainfo).length +
       var_size TLV_Content + var_size d.content_size) =
      d.content_value.take d.content_size ++
            (siginfo_plain_wire (digest_signature d.signature) ++
             (sigvalue_wire ((data_digest_result sha d).signature) ++
              ([] : List Nat))) := by
    have := drop_of_drop_append h5
    rwa [var_encode_length] at this
  have h7 : (data_digest_packet sha d).drop
      (0 + var_size TLV_Data + var_size (digest_block_size d) +
       (name_wire d.name).length + (metainfo_wire d.metainfo).length +
       var_size TLV_Content + var_size d.content_size + d.content_size) =
      siginfo_plain_wire (digest_signature d.signature) ++
             (sigvalue_wire ((data_digest_result sha d).signature) ++
              ([] : List Nat)) := by
    have := drop_of_drop_append h6
    rwa [hcsl] at this
  have h8 : (data_digest_packet sha d).drop
      (0 + var_size TLV_Data + var_size (digest_block_size d) +
       (name_wire d.name).length + (metainfo_wire d.metainfo).length +
       var_size TLV_Content + var_size d.content_size + d.content_size +
       (siginfo_plain_wire (digest_signature d.signature)).length) =
      sigvalue_wire ((data_digest_result sha d).signature) ++
        ([] : List Nat) :=
    drop_of_drop_append h7
  have hB64 : digest_block_size d < 2 ^ 64 := by
    have := digest_block_size_le d hf
    omega
  have htake : (data_digest_packet sha d).take
      (data_digest_packet sha d).length = data_digest_packet sha d :=
    List.take_length _
  have rt := decoder_get_var_suffix h0 (by norm_num [TLV_Data])
  have rl := decoder_get_var_suffix h1 hB64
  have rname := ndn_name_tlv_decode_wire d.name h2 hf.1 d0.name
  have rmeta := ndn_metainfo_tlv_decode_wire d.metainfo h3 hf.2.1 d0.metainfo
  have rct := decoder_get_var_suffix h4 (by norm_num [TLV_Content])
  have rcl := decoder_get_var_suffix h5
    (show d.content_size < 2 ^ 64 by
      have h := hf.2.2.1
      have hb : NDN_CONTENT_BUFFER_SIZE = 256 := rfl
      omega)
  have hoc2 : 0 + var_size TLV_Data + var_size (digest_block_size d) +
      (name_wire d.name).length + (metainfo_wire d.metainfo).length +
      var_size TLV_Content + var_size d.content_size ≤
      (data_digest_packet sha d).length := by
    have hne : (data_digest_packet sha d).drop
        (0 + var_size TLV_Data + var_size (digest_block_size d) +
         (name_wire d.name).length + (metainfo_wire d.metainfo).length +
         var_size TLV_Content + var_size d.content_size) ≠ [] := by
      rw [h6]
      simp [siginfo_plain_wire, var_encode_ne_nil]
    exact offset_le_of_drop_ne_nil hne
  have rraw := decoder_get_raw_suffix h6 hoc2
  rw [hcsl] at rraw
  have rsig := ndn_signature_info_tlv_decode_plain_wire
    (digest_signature d.signature) h7
    (by simp [digest_signature_eq]) (by simp [digest_signature_eq])
    (by simp [digest_signature_eq]) (by simp [digest_signature_eq])
    d0.signature
  have rsv := ndn_signature_value_tlv_decode_wire
    ((data_digest_result sha d).signature) h8
    (by simp only [data_digest_result, digest_signature_eq]
        norm_num [NDN_SEC_SHA256_HASH_SIZE, NDN_SIGNATURE_BUFFER_SIZE])
    (by simp only [data_digest_result, digest_signature_eq,
                   List.length_append, hsha]
        omega)
    ({ d0.signature with
       sig_type := (digest_signature d.signature).sig_type % 256,
       enable_KeyLocator := 0, enable_ValidityPeriod := 0,
       enable_SignatureInfoNonce := 0, enable_Timestamp := 0 })
  have hS0 : ¬((NDN_SUCCESS : Int) < 0) := by
    norm_num [NDN_SUCCESS]
  have hno : ¬(d.content_size > NDN_CONTENT_BUFFER_SIZE) := by
    simp only [gt_iff_lt, not_lt]
    exact hf.2.2.1
  unfold ndn_data_tlv_decode_digest_verify decoder_init
    ndn_data_decode_content_step decoder_get_type decoder_get_length
  dsimp only
  rw [htake]
  rw [rt]
  dsimp only
  rw [rl]
  dsimp only
  rw [rname]
  dsimp only
  rw [rmeta]
  dsimp only
  rw [rct]
  dsimp only
  rw [if_pos rfl]
  rw [rcl]
  dsimp only
  rw [if_neg hno]
  dsimp only
  rw [rraw]
  dsimp only
  rw [if_neg hS0]
  rw [rsig]
  dsimp only
  rw [rsv]
  dsimp only
  have hsz32 : ((data_digest_result sha d).signature).sig_size =
      NDN_SEC_SHA256_HASH_SIZE := by
    simp [data_digest_result, digest_signature_eq]
  have hA : List.take NDN_SEC_SHA256_HASH_SIZE
      ((data_digest_result sha d).signature).sig_value =
      sha (data_unsigned_wire (data_digest_prep d)) := by
    simp only [data_digest_result]
    rw [← hsha, List.take_left]
  have hdropU : List.drop
      (0 + var_size TLV_Data + var_size (digest_block_size d))
      (data_digest_packet sha d) =
      data_unsigned_wire (data_digest_prep d) ++
      (sigvalue_wire ((data_digest_result sha d).signature) ++
       ([] : List Nat)) := by
    rw [h2]
    simp [data_unsigned_wire, data_digest_prep, content_wire,
          List.append_assoc]
  have hUl : (data_unsigned_wire (data_digest_prep d)).length =
      (name_wire d.name).length + (metainfo_wire d.metainfo).length +
      (var_size TLV_Content + var_size d.content_size + d.content_size) +
      (siginfo_plain_wire (digest_signature d.signature)).length := by
    simp [data_unsigned_wire, data_digest_prep, content_wire,
          var_encode_length, hcsl]
    omega
  have hsub : 0 + var_size TLV_Data + var_size (digest_block_size d) +
      (name_wire d.name).length + (metainfo_wire d.metainfo).length +
      var_size TLV_Content + var_size d.content_size + d.content_size +
      (siginfo_plain_wire (digest_signature d.signature)).length -
      (0 + var_size TLV_Data + var_size (digest_block_size d)) =
      (data_unsigned_wire (data_digest_prep d)).length := by
    omega
  have hmsg : List.take
      (0 + var_size TLV_Data + var_size (digest_block_size d) +
       (name_wire d.name).length + (metainfo_wire d.metainfo).length +
       var_size TLV_Content + var_size d.content_size + d.content_size +
       (siginfo_plain_wire (digest_signature d.signature)).length -
       (0 + var_size TLV_Data + var_size (digest_block_size d)))
      (List.drop (0 + var_size TLV_Data + var_size (digest_block_size d))
        (data_digest_packet sha d)) =
      data_unsigned_wire (data_digest_prep d) := by
    rw [hdropU, hsub]
    exact List.take_left _ _
  have harg : List.take ((data_digest_result sha d).signature).sig_size
      (List.take ((data_digest_result sha d).signature).sig_size
         ((data_digest_result sha d).signature).sig_value ++
       List.drop ((data_digest_result sha d).signature).sig_size
         d0.signature.sig_value) =
      sha (data_unsigned_wire (data_digest_prep d)) := by
    rw [hsz32, hA]
    rw [← hsha, List.take_left]
  have hver : ndn_sha256_verify sha (data_unsigned_wire (data_digest_prep d))
      (sha (data_unsigned_wire (data_digest_prep d))) = NDN_SUCCESS := by
    simp [ndn_sha256_verify, hsha]
  have hst : (digest_signature d.signature).sig_type % 256 =
      NDN_SIG_TYPE_DIGEST_SHA256 := by
    simp [digest_signature_eq, NDN_SIG_TYPE_DIGEST_SHA256]
  rw [hmsg, harg, hver, if_pos (show (NDN_SUCCESS : Int) = 0 from rfl)]
  simp only [data_digest_decoded, Prod.mk.injEq, ndn_data.mk.injEq,
             ndn_signature.mk.injEq, ndn_name.mk.injEq, hcsl, hsz32, hA,
             hst, true_and, and_true]

theorem getD_take_lt (l : List name_component) {n i : Nat} (h : i < n)
    (c : name_component) : (l.take n).getD i c = l.getD i c := by
  simp [List.getD_eq_getElem?_getD, List.getElem?_take, h]

/-- A name decoded over fresh component slots compares equal (by the
source's `ndn_name_compare`) to the name whose wire image was decoded. -/
theorem decoded_name_compare (d0n : ndn_name) (n : ndn_name)
    (hf : name_fits n)
    (hd0 : NDN_NAME_COMPONENTS_SIZE ≤ d0n.components.length) :
    ndn_name_compare
      ⟨set_list d0n.components 0 (n.components.take n.components_size),
       n.components_size⟩ n = 0 := by
  obtain ⟨hsz, hlen, _⟩ := hf
  have htl : (n.components.take n.components_size).length =
      n.components_size := by
    simp [List.length_take, Nat.min_eq_left hlen]
  unfold ndn_name_compare
  rw [if_neg (by simp)]
  rw [if_pos]
  rw [List.all_eq_true]
  intro i hi
  have hir : i < n.components_size := by
    simpa [List.mem_range] using hi
  have hmem := set_list_getD_mem (n.components.take n.components_size)
    d0n.components 0 i (by omega) (by omega) default_component
  rw [Nat.zero_add] at hmem
  simp only [hmem, getD_take_lt _ hir]
  simp [name_component_compare_self]

/-- Semantic equality of metainfo records: the same optional fields are
present, and present fields carry the same values. -/
def metainfo_equal (a b : ndn_metainfo) : Prop :=
  (a.enable_ContentType > 0 ↔ b.enable_ContentType > 0) ∧
  (a.enable_ContentType > 0 → a.content_type = b.content_type) ∧
  (a.enable_FreshnessPeriod > 0 ↔ b.enable_FreshnessPeriod > 0) ∧
  (a.enable_FreshnessPeriod > 0 → a.freshness_period = b.freshness_period) ∧
  (a.enable_FinalBlockId > 0 ↔ b.enable_FinalBlockId > 0) ∧
  (a.enable_FinalBlockId > 0 → a.final_block_id = b.final_block_id)

instance (a b : ndn_metainfo) : Decidable (metainfo_equal a b) := by
  unfold metainfo_equal
  infer_instance

theorem metainfo_decode_image_equal (m m0 : ndn_metainfo) :
    metainfo_equal (metainfo_decode_image m m0) m := by
  unfold metainfo_equal metainfo_decode_image
  by_cases hct : m.enable_ContentType > 0 <;>
    by_cases hfp : m.enable_FreshnessPeriod > 0 <;>
      by_cases hfb : m.enable_FinalBlockId > 0 <;>
        simp [hct, hfp, hfb]

set_option maxHeartbeats 400000 in
/-- Claim C2: for every Data value `d` whose name, metainfo, content
and signature fit the configured bounds, encoding `d` with
`ndn_data_tlv_encode_digest_sign` and then decoding the produced
buffer with `ndn_data_tlv_decode_digest_verify` succeeds, the
verification returns 0, and the decoded Data's name, metainfo and
content equal `d`'s. -/
theorem claim_C2_digest_sign_roundtrip (sha : List Nat → List Nat)
    (d : ndn_data) (max : Nat) (d0 : ndn_data)
    (hsha32 : ∀ bs : List Nat, (sha bs).length = NDN_SEC_SHA256_HASH_SIZE)
    (hf : data_fits d)
    (hcap : (data_digest_packet sha d).length ≤ max)
    (hd0 : NDN_NAME_COMPONENTS_SIZE ≤ d0.name.components.length) :
    (ndn_data_tlv_encode_digest_sign sha (encoder_init max) d).1 =
      NDN_SUCCESS ∧
    (ndn_data_tlv_decode_digest_verify sha d0
        (ndn_data_tlv_encode_digest_sign sha (encoder_init max) d).2.1.output
        (ndn_data_tlv_encode_digest_sign sha
          (encoder_init max) d).2.1.offset).1 = NDN_SUCCESS ∧
    ndn_name_compare
      (ndn_data_tlv_decode_digest_verify sha d0
        (ndn_data_tlv_encode_digest_sign sha (encoder_init max) d).2.1.output
        (ndn_data_tlv_encode_digest_sign sha
          (encoder_init max) d).2.1.offset).2.name d.name = 0 ∧
    metainfo_equal
      (ndn_data_tlv_decode_digest_verify sha d0
        (ndn_data_tlv_encode_digest_sign sha (encoder_init max) d).2.1.output
        (ndn_data_tlv_encode_digest_sign sha
          (encoder_init max) d).2.1.offset).2.metainfo d.metainfo ∧
    (ndn_data_tlv_decode_digest_verify sha d0
        (ndn_data_tlv_encode_digest_sign sha (encoder_init max) d).2.1.output
        (ndn_data_tlv_encode_digest_sign sha
          (encoder_init max) d).2.1.offset).2.content_size =
      d.content_size ∧
    ((ndn_data_tlv_decode_digest_verify sha d0
        (ndn_data_tlv_encode_digest_sign sha (encoder_init max) d).2.1.output
        (ndn_data_tlv_encode_digest_sign sha
          (encoder_init max) d).2.1.offset).2.content_value.take
      d.content_size) = d.content_value.take d.content_size := by
  have henc := ndn_data_tlv_encode_digest_sign_spec sha d max
    (hsha32 _) hf.2.2.2 hcap
  have hdec := ndn_data_tlv_decode_digest_verify_spec sha d hf (hsha32 _) d0
  rw [henc]
  dsimp only
  rw [hdec]
  dsimp only
  refine ⟨rfl, rfl, ?_, ?_, rfl, ?_⟩
  · exact decoded_name_compare d0.name d.name hf.1 hd0
  · exact metainfo_decode_image_equal d.metainfo d0.metainfo
  · simp only [data_digest_decoded]
    exact List.take_left' (by simp [List.length_take, Nat.min_eq_left hf.2.2.2])

/-! ### Concrete fixtures used by the claim witnesses -/

/-- A stand-in SHA-256 backend: every digest is 32 zero bytes. -/
def sha_zeros : List Nat → List Nat := fun _ => List.replicate 32 0

def sample_name : ndn_name :=
  ⟨⟨8, [97]⟩ :: List.replicate 9 default_component, 1⟩

def sample_metainfo : ndn_metainfo := ⟨0, 0, 0, 0, default_component, 0⟩

def zero_signature : ndn_signature :=
  ⟨0, List.replicate 128 0, 32, ⟨List.replicate 10 default_component, 0⟩,
   0, 0, 0, 0, ⟨List.replicate 15 0, List.replicate 15 0⟩, 0, 0⟩

def sample_data : ndn_data :=
  ⟨sample_name, sample_metainfo, [1, 2, 3], 3, zero_signature⟩

def out_data : ndn_data :=
  ⟨⟨List.replicate 10 default_component, 0⟩, sample_metainfo,
   List.replicate 256 0, 0, zero_signature⟩

/-- Witness for claim C2 at a concrete Data value, output record and
zero-digest backend. -/
theorem claim_C2_witness :
    ((∀ bs : List Nat, (sha_zeros bs).length = NDN_SEC_SHA256_HASH_SIZE) ∧
     data_fits sample_data ∧
     (data_digest_packet sha_zeros sample_data).length ≤ 2000 ∧
     NDN_NAME_COMPONENTS_SIZE ≤ out_data.name.components.length) ∧
    (ndn_data_tlv_encode_digest_sign sha_zeros (encoder_init 2000)
        sample_data).1 = NDN_SUCCESS ∧
    (ndn_data_tlv_decode_digest_verify sha_zeros out_data
        (ndn_data_tlv_encode_digest_sign sha_zeros (encoder_init 2000)
          sample_data).2.1.output
        (ndn_data_tlv_encode_digest_sign sha_zeros (encoder_init 2000)
          sample_data).2.1.offset).1 = NDN_SUCCESS ∧
    ndn_name_compare
      (ndn_data_tlv_decode_digest_verify sha_zeros out_data
        (ndn_data_tlv_encode_digest_sign sha_zeros (encoder_init 2000)
          sample_data).2.1.output
        (ndn_data_tlv_encode_digest_sign sha_zeros (encoder_init 2000)
          sample_data).2.1.offset).2.name sample_data.name = 0 ∧
    metainfo_equal
      (ndn_data_tlv_decode_digest_verify sha_zeros out_data
        (ndn_data_tlv_encode_digest_sign sha_zeros (encoder_init 2000)
          sample_data).2.1.output
        (ndn_data_tlv_encode_digest_sign sha_zeros (encoder_init 2000)
          sample_data).2.1.offset).2.metainfo sample_data.metainfo ∧
    (ndn_data_tlv_decode_digest_verify sha_zeros out_data
        (ndn_data_tlv_encode_digest_sign sha_zeros (encoder_init 2000)
          sample_data).2.1.output
        (ndn_data_tlv_encode_digest_sign sha_zeros (encoder_init 2000)
          sample_data).2.1.offset).2.content_size =
      sample_data.content_size ∧
    ((ndn_data_tlv_decode_digest_verify sha_zeros out_data
        (ndn_data_tlv_encode_digest_sign sha_zeros (encoder_init 2000)
          sample_data).2.1.output
        (ndn_data_tlv_encode_digest_sign sha_zeros (encoder_init 2000)
          sample_data).2.1.offset).2.content_value.take
      sample_data.content_size) =
      sample_data.content_value.take sample_data.content_size :=
  ⟨⟨fun _ => rfl, by unfold data_fits name_fits metainfo_fits; decide,
    by decide, by decide⟩,
   claim_C2_digest_sign_roundtrip sha_zeros sample_data 2000 out_data
     (fun _ => rfl) (by unfold data_fits name_fits metainfo_fits; decide)
     (by decide) (by decide)⟩

/-- Claim C7: `ndn_name_is_prefix_of` is reflexive and transitive —
`is_prefix_of(a, a)` returns 0 for every name, and two chained prefix
relations (both returning 0) compose. -/
theorem claim_C7_prefix_refl_trans :
    (∀ a : ndn_name, ndn_name_is_prefix_of a a = 0) ∧
    (∀ a b c : ndn_name, ndn_name_is_prefix_of a b = 0 →
      ndn_name_is_prefix_of b c = 0 → ndn_name_is_prefix_of a c = 0) := by
  have hall : ∀ x y : ndn_name, ndn_name_is_prefix_of x y = 0 →
      ¬ x.components_size > y.components_size ∧
      ∀ i < x.components_size,
        x.components.getD i default_component =
        y.components.getD i default_component := by
    intro x y h
    unfold ndn_name_is_prefix_of at h
    by_cases hgt : x.components_size > y.components_size
    · rw [if_pos hgt] at h
      norm_num at h
    · rw [if_neg hgt] at h
      refine ⟨hgt, ?_⟩
      by_cases hb : (List.range x.components_size).all (fun i =>
          name_component_compare (x.components.getD i default_component)
            (y.components.getD i default_component) == 0)
      · intro i hi
        rw [List.all_eq_true] at hb
        have := hb i (by simpa [List.mem_range] using hi)
        exact name_component_compare_eq_zero
          (by simpa [beq_iff_eq] using this)
      · rw [if_neg hb] at h
        norm_num at h
  constructor
  · intro a
    unfold ndn_name_is_prefix_of
    rw [if_neg (by omega), if_pos]
    rw [List.all_eq_true]
    intro i hi
    simp [name_component_compare_self]
  · intro a b c h1 h2
    obtain ⟨hab, hcomp1⟩ := hall a b h1
    obtain ⟨hbc, hcomp2⟩ := hall b c h2
    unfold ndn_name_is_prefix_of
    rw [if_neg (by omega), if_pos]
    rw [List.all_eq_true]
    intro i hi
    have hia : i < a.components_size := by
      simpa [List.mem_range] using hi
    rw [hcomp1 i hia, hcomp2 i (by omega)]
    simp [name_component_compare_self]

def nameA : ndn_name := ⟨[⟨8, [97]⟩, ⟨8, [98]⟩, ⟨8, [99]⟩], 1⟩
def nameB : ndn_name := ⟨[⟨8, [97]⟩, ⟨8, [98]⟩, ⟨8, [99]⟩], 2⟩
def nameC : ndn_name := ⟨[⟨8, [97]⟩, ⟨8, [98]⟩, ⟨8, [99]⟩], 3⟩

/-- Witness for claim C7: reflexivity at a concrete name and
transitivity along a concrete chain `/a ⊑ /a/b ⊑ /a/b/c`. -/
theorem claim_C7_witness :
    ndn_name_is_prefix_of nameA nameA = 0 ∧
    (ndn_name_is_prefix_of nameA nameB = 0 ∧
     ndn_name_is_prefix_of nameB nameC = 0 ∧
     ndn_name_is_prefix_of nameA nameC = 0) :=
  ⟨claim_C7_prefix_refl_trans.1 nameA,
   by decide, by decide,
   claim_C7_prefix_refl_trans.2 nameA nameB nameC (by decide) (by decide)⟩

/-- Claim C4 (corrected): `ndn_signature_set_signature` accepts exactly
size 32 for DIGEST_SHA256 and HMAC_SHA256 and exactly size 64 for
ECDSA_SHA256 (not the full ASN.1 DER range the spec describes); sizes
above the signature buffer fail `OVERSIZE`, in-range wrong sizes fail
`SEC_WRONG_SIG_SIZE`, and the record is unchanged on every error. -/
theorem claim_C4_set_signature_sizes (s : ndn_signature) (v : List Nat)
    (n : Nat) :
    ((s.sig_type = NDN_SIG_TYPE_DIGEST_SHA256 ∨
      s.sig_type = NDN_SIG_TYPE_HMAC_SHA256) →
      ((ndn_signature_set_signature s v n).1 = NDN_SUCCESS ↔ n = 32)) ∧
    (s.sig_type = NDN_SIG_TYPE_ECDSA_SHA256 →
      ((ndn_signature_set_signature s v n).1 = NDN_SUCCESS ↔ n = 64)) ∧
    (n > NDN_SIGNATURE_BUFFER_SIZE →
      (ndn_signature_set_signature s v n).1 = NDN_OVERSIZE) ∧
    ((s.sig_type = NDN_SIG_TYPE_DIGEST_SHA256 ∨
      s.sig_type = NDN_SIG_TYPE_HMAC_SHA256) → n ≤ NDN_SIGNATURE_BUFFER_SIZE →
      n ≠ 32 → (ndn_signature_set_signature s v n).1 =
        NDN_SEC_WRONG_SIG_SIZE) ∧
    (s.sig_type = NDN_SIG_TYPE_ECDSA_SHA256 → n ≤ NDN_SIGNATURE_BUFFER_SIZE →
      n ≠ 64 → (ndn_signature_set_signature s v n).1 =
        NDN_SEC_WRONG_SIG_SIZE) ∧
    ((ndn_signature_set_signature s v n).1 ≠ NDN_SUCCESS →
      (ndn_signature_set_signature s v n).2 = s) := by
  unfold ndn_signature_set_signature
  split_ifs with h1 h2 h3 h4 <;>
    simp_all [NDN_SUCCESS, NDN_OVERSIZE, NDN_SEC_WRONG_SIG_SIZE,
              NDN_SIG_TYPE_DIGEST_SHA256, NDN_SIG_TYPE_ECDSA_SHA256,
              NDN_SIG_TYPE_HMAC_SHA256, NDN_SIGNATURE_BUFFER_SIZE] <;>
    omega

def ecdsa_sig_record : ndn_signature :=
  { zero_signature with sig_type := NDN_SIG_TYPE_ECDSA_SHA256 }

/-- Witness for claim C4 at a concrete ECDSA signature record: size 64
is accepted, and an in-buffer non-64 size is rejected with
`SEC_WRONG_SIG_SIZE`. -/
theorem claim_C4_witness :
    ecdsa_sig_record.sig_type = NDN_SIG_TYPE_ECDSA_SHA256 ∧
    ((ndn_signature_set_signature ecdsa_sig_record
        (List.replicate 64 1) 64).1 = NDN_SUCCESS ↔ (64 : Nat) = 64) ∧
    (ndn_signature_set_signature ecdsa_sig_record
        (List.replicate 70 1) 70).1 = NDN_SEC_WRONG_SIG_SIZE :=
  ⟨by decide,
   (claim_C4_set_signature_sizes ecdsa_sig_record
     (List.replicate 64 1) 64).2.1 (by decide),
   (claim_C4_set_signature_sizes ecdsa_sig_record
     (List.replicate 70 1) 70).2.2.2.2.1 (by decide) (by decide) (by decide)⟩

/-- Counterexample for claim C4's original wording: size 70 lies inside
the ASN.1 DER ECDSA range the spec allows, yet the code rejects it with
`SEC_WRONG_SIG_SIZE` instead of succeeding. -/
theorem claim_C4_counterexample :
    NDN_ASN1_ECDSA_MIN_ENCODED_SIG_SIZE ≤ 70 ∧
    70 ≤ NDN_ASN1_ECDSA_MAX_ENCODED_SIG_SIZE ∧
    ecdsa_sig_record.sig_type = NDN_SIG_TYPE_ECDSA_SHA256 ∧
    (ndn_signature_set_signature ecdsa_sig_record
        (List.replicate 70 1) 70).1 = NDN_SEC_WRONG_SIG_SIZE ∧
    (ndn_signature_set_signature ecdsa_sig_record
        (List.replicate 70 1) 70).1 ≠ NDN_SUCCESS := by
  refine ⟨by decide, by decide, by decide, ?_, by decide⟩
  decide

/-- Claim C5: the content switch shared by the Data decode variants.
After the next TLV type is peeked: `TLV_Content` reads the declared
bytes into the content buffer, failing `OVERSIZE` when the declared
length exceeds the content buffer; `TLV_SignatureInfo` rewinds the
decoder exactly one byte and records content size 0; any other type
fails `WRONG_TLV_TYPE`. -/
theorem claim_C5_content_switch (d : ndn_decoder) (data : ndn_data)
    (r : Int) (t : Nat) (d1 : ndn_decoder)
    (hpeek : decoder_get_type d = (r, t, d1)) :
    (t = TLV_Content →
      ∀ (rl : Int) (l : Nat) (d2 : ndn_decoder),
        decoder_get_length d1 = (rl, l, d2) →
        (l > NDN_CONTENT_BUFFER_SIZE →
          ndn_data_decode_content_step d data = (NDN_OVERSIZE, data, d2)) ∧
        (l ≤ NDN_CONTENT_BUFFER_SIZE →
          ndn_data_decode_content_step d data =
            (NDN_SUCCESS,
             { data with
               content_size := l,
               content_value := ((decoder_get_raw_buffer_value d2 l).2.1 ++
                 data.content_value.drop
                   (decoder_get_raw_buffer_value d2 l).2.1.length) },
             (decoder_get_raw_buffer_value d2 l).2.2))) ∧
    (t = TLV_SignatureInfo →
      ndn_data_decode_content_step d data =
        (NDN_SUCCESS, { data with content_size := 0 },
         decoder_move_backward d1 1)) ∧
    (t ≠ TLV_Content → t ≠ TLV_SignatureInfo →
      ndn_data_decode_content_step d data =
        (NDN_WRONG_TLV_TYPE, data, d1)) := by
  refine ⟨?_, ?_, ?_⟩
  · intro ht rl l d2 hlen
    subst ht
    constructor
    · intro hover
      unfold ndn_data_decode_content_step
      rw [hpeek]
      dsimp only
      rw [if_pos rfl, hlen]
      dsimp only
      rw [if_pos hover]
    · intro hle
      unfold ndn_data_decode_content_step
      rw [hpeek]
      dsimp only
      rw [if_pos rfl, hlen]
      dsimp only
      rw [if_neg (by omega)]
  · intro ht
    subst ht
    unfold ndn_data_decode_content_step
    rw [hpeek]
    dsimp only
    rw [if_neg (by decide), if_pos rfl]
  · intro htc hts
    unfold ndn_data_decode_content_step
    rw [hpeek]
    dsimp only
    rw [if_neg htc, if_neg hts]

/-- Witness for claim C5: a concrete buffer `[21, 2, 5, 6]` whose next
TLV is a 2-byte Content block; the read succeeds with content size 2. -/
theorem claim_C5_witness :
    decoder_get_type ⟨[21, 2, 5, 6], 0⟩ =
      (NDN_SUCCESS, 21, ⟨[21, 2, 5, 6], 1⟩) ∧
    (21 : Nat) = TLV_Content ∧
    decoder_get_length ⟨[21, 2, 5, 6], 1⟩ =
      (NDN_SUCCESS, 2, ⟨[21, 2, 5, 6], 2⟩) ∧
    (2 : Nat) ≤ NDN_CONTENT_BUFFER_SIZE ∧
    ndn_data_decode_content_step ⟨[21, 2, 5, 6], 0⟩ out_data =
      (NDN_SUCCESS,
       { out_data with
         content_size := 2,
         content_value :=
           ((decoder_get_raw_buffer_value (⟨[21, 2, 5, 6], 2⟩ : ndn_decoder)
             2).2.1 ++
           out_data.content_value.drop
             (decoder_get_raw_buffer_value (⟨[21, 2, 5, 6], 2⟩ : ndn_decoder)
               2).2.1.length) },
       (decoder_get_raw_buffer_value (⟨[21, 2, 5, 6], 2⟩ : ndn_decoder)
         2).2.2) :=
  ⟨by decide, by decide, by decide, by decide,
   (((claim_C5_content_switch ⟨[21, 2, 5, 6], 0⟩ out_data NDN_SUCCESS 21
       ⟨[21, 2, 5, 6], 1⟩ (by decide)).1 (by decide) NDN_SUCCESS 2
       ⟨[21, 2, 5, 6], 2⟩ (by decide)).2 (by decide))⟩

/-- The number of component appends `ndn_name_from_string_loop`
attempts from state `(fuel, i)`: one per unescaped slash plus the
final-index flush. -/
def append_count (s : List Char) (size : Nat) : Nat → Nat → Nat
  | 0, _ => 0
  | fuel + 1, i =>
    if i < size then
      (if s.getD i nul_char = '/' then 1 else 0) +
      ((if i = size - 1 then 1 else 0) + append_count s size fuel (i + 1))
    else 0

theorem append_component_success (name : ndn_name) (c : name_component)
    (h : name.components_size + 1 ≤ NDN_NAME_COMPONENTS_SIZE) :
    ndn_name_append_component name c =
      (NDN_SUCCESS, ⟨name.components.set name.components_size c,
                     name.components_size + 1⟩) := by
  unfold ndn_name_append_component
  rw [if_pos h]

theorem append_component_oversize (name : ndn_name) (c : name_component)
    (h : ¬ name.components_size + 1 ≤ NDN_NAME_COMPONENTS_SIZE) :
    ndn_name_append_component name c = (NDN_OVERSIZE, name) := by
  unfold ndn_name_append_component
  rw [if_neg h]

/-- When every pending append fits, the scan loop succeeds and grows
the component count by exactly the append count. -/
theorem from_string_loop_success (s : List Char) (size : Nat) :
    ∀ (fuel i ld : Nat) (name : ndn_name),
      name.components_size + append_count s size fuel i ≤
        NDN_NAME_COMPONENTS_SIZE →
      (ndn_name_from_string_loop s size fuel i ld name).1 = NDN_SUCCESS ∧
      (ndn_name_from_string_loop s size fuel i ld name).2.components_size =
        name.components_size + append_count s size fuel i := by
  intro fuel
  induction fuel with
  | zero =>
      intro i ld name h
      simp [ndn_name_from_string_loop, append_count]
  | succ fuel ih =>
      intro i ld name h
      simp only [ndn_name_from_string_loop]
      by_cases hi : i < size
      · rw [if_pos hi]
        by_cases hsl : s.getD i nul_char = '/'
        · rw [if_pos hsl]
          by_cases hlast : i = size - 1
          · have hACv : append_count s size (fuel + 1) i =
                1 + (1 + append_count s size fuel (i + 1)) := by
              simp only [append_count]
              rw [if_pos hi, if_pos hsl, if_pos hlast]
            rw [hACv] at h
            dsimp only
            rw [append_component_success _ _ (by omega)]
            dsimp only
            rw [if_neg (by norm_num [NDN_SUCCESS]), if_pos hlast]
            rw [append_component_success _ _ (by dsimp only; omega)]
            dsimp only
            rw [if_neg (by norm_num [NDN_SUCCESS])]
            have := ih (i + 1) i
              ⟨(name.components.set name.components_size
                  (name_component_from_string (s.drop (ld + 1))
                    (i - ld - 1)).2).set (name.components_size + 1)
                  (name_component_from_string (s.drop (i + 1))
                    (i - i)).2,
               name.components_size + 1 + 1⟩ (by dsimp only; omega)
            dsimp only at this
            refine ⟨this.1, ?_⟩
            rw [this.2, hACv]
            omega
          · have hACv : append_count s size (fuel + 1) i =
                1 + (0 + append_count s size fuel (i + 1)) := by
              simp only [append_count]
              rw [if_pos hi, if_pos hsl, if_neg hlast]
            rw [hACv] at h
            dsimp only
            rw [append_component_success _ _ (by omega)]
            dsimp only
            rw [if_neg (by norm_num [NDN_SUCCESS]), if_neg hlast]
            have := ih (i + 1) i
              ⟨name.components.set name.components_size
                 (name_component_from_string (s.drop (ld + 1))
                   (i - ld - 1)).2,
               name.components_size + 1⟩ (by dsimp only; omega)
            dsimp only at this
            refine ⟨this.1, ?_⟩
            rw [this.2, hACv]
            omega
        · rw [if_neg hsl]
          by_cases hlast : i = size - 1
          · have hACv : append_count s size (fuel + 1) i =
                0 + (1 + append_count s size fuel (i + 1)) := by
              simp only [append_count]
              rw [if_pos hi, if_neg hsl, if_pos hlast]
            rw [hACv] at h
            dsimp only
            rw [if_neg (by norm_num [NDN_SUCCESS]), if_pos hlast]
            rw [append_component_success _ _ (by omega)]
            dsimp only
            rw [if_neg (by norm_num [NDN_SUCCESS])]
            have := ih (i + 1) ld
              ⟨name.components.set name.components_size
                 (name_component_from_string (s.drop (ld + 1))
                   (i - ld)).2,
               name.components_size + 1⟩ (by dsimp only; omega)
            dsimp only at this
            refine ⟨this.1, ?_⟩
            rw [this.2, hACv]
            omega
          · have hACv : append_count s size (fuel + 1) i =
                0 + (0 + append_count s size fuel (i + 1)) := by
              simp only [append_count]
              rw [if_pos hi, if_neg hsl, if_neg hlast]
            rw [hACv] at h
            dsimp only
            rw [if_neg (by norm_num [NDN_SUCCESS]), if_neg hlast]
            have := ih (i + 1) ld name (by omega)
            refine ⟨this.1, ?_⟩
            rw [this.2, hACv]
            omega
      · rw [if_neg hi]
        have hAC0 : append_count s size (fuel + 1) i = 0 := by
          simp only [append_count]
          rw [if_neg hi]
        simp [hAC0]

/-- When the pending appends overflow the component array, the scan
loop fails with `OVERSIZE`. -/
theorem from_string_loop_oversize (s : List Char) (size : Nat) :
    ∀ (fuel i ld : Nat) (name : ndn_name),
      name.components_size ≤ NDN_NAME_COMPONENTS_SIZE →
      NDN_NAME_COMPONENTS_SIZE <
        name.components_size + append_count s size fuel i →
      (ndn_name_from_string_loop s size fuel i ld name).1 =
        NDN_OVERSIZE := by
  intro fuel
  induction fuel with
  | zero =>
      intro i ld name h1 h2
      simp only [append_count] at h2
      omega
  | succ fuel ih =>
      intro i ld name h1 h2
      simp only [ndn_name_from_string_loop]
      by_cases hi : i < size
      · rw [if_pos hi]
        by_cases hsl : s.getD i nul_char = '/'
        · rw [if_pos hsl]
          by_cases hfit : name.components_size + 1 ≤ NDN_NAME_COMPONENTS_SIZE
          · rw [append_component_success _ _ hfit]
            dsimp only
            rw [if_neg (by norm_num [NDN_SUCCESS])]
            by_cases hlast : i = size - 1
            · have hACv : append_count s size (fuel + 1) i =
                  1 + (1 + append_count s size fuel (i + 1)) := by
                simp only [append_count]
                rw [if_pos hi, if_pos hsl, if_pos hlast]
              rw [hACv] at h2
              rw [if_pos hlast]
              by_cases hfit2 : name.components_size + 1 + 1 ≤
                  NDN_NAME_COMPONENTS_SIZE
              · rw [append_component_success _ _ (by dsimp only; omega)]
                dsimp only
                rw [if_neg (by norm_num [NDN_SUCCESS])]
                exact ih (i + 1) i _ (by dsimp only; omega)
                  (by dsimp only; omega)
              · rw [append_component_oversize _ _ (by dsimp only; omega)]
                dsimp only
                rw [if_pos (by norm_num [NDN_OVERSIZE])]
            · have hACv : append_count s size (fuel + 1) i =
                  1 + (0 + append_count s size fuel (i + 1)) := by
                simp only [append_count]
                rw [if_pos hi, if_pos hsl, if_neg hlast]
              rw [hACv] at h2
              rw [if_neg hlast]
              exact ih (i + 1) i _ (by dsimp only; omega)
                (by dsimp only; omega)
          · rw [append_component_oversize _ _ hfit]
            dsimp only
            rw [if_pos (by norm_num [NDN_OVERSIZE])]
        · rw [if_neg hsl]
          dsimp only
          rw [if_neg (by norm_num [NDN_SUCCESS])]
          by_cases hlast : i = size - 1
          · have hACv : append_count s size (fuel + 1) i =
                0 + (1 + append_count s size fuel (i + 1)) := by
              simp only [append_count]
              rw [if_pos hi, if_neg hsl, if_pos hlast]
            rw [hACv] at h2
            rw [if_pos hlast]
            by_cases hfit : name.components_size + 1 ≤
                NDN_NAME_COMPONENTS_SIZE
            · rw [append_component_success _ _ hfit]
              dsimp only
              rw [if_neg (by norm_num [NDN_SUCCESS])]
              exact ih (i + 1) ld _ (by dsimp only; omega)
                (by dsimp only; omega)
            · rw [append_component_oversize _ _ hfit]
              dsimp only
              rw [if_pos (by norm_num [NDN_OVERSIZE])]
          · have hACv : append_count s size (fuel + 1) i =
                0 + (0 + append_count s size fuel (i + 1)) := by
              simp only [append_count]
              rw [if_pos hi, if_neg hsl, if_neg hlast]
            rw [hACv] at h2
            rw [if_neg hlast]
            exact ih (i + 1) ld name h1 (by omega)
      · have hAC0 : append_count s size (fuel + 1) i = 0 := by
          simp only [append_count]
          rw [if_neg hi]
        rw [hAC0] at h2
        omega

/-- Claim C6: `ndn_name_from_string` rejects every string without a
leading slash with `INVALID_FORMAT`; with a leading slash it fails
`OVERSIZE` exactly when the number of parsed components (one per
unescaped slash plus the trailing component) exceeds the component
array, succeeds otherwise with that many components, and splits
"/hello/world" into the two generic components "hello" and "world". -/
theorem claim_C6_from_string :
    (∀ (name : ndn_name) (s : List Char) (size : Nat),
       s.getD 0 nul_char ≠ '/' →
       ndn_name_from_string name s size =
         (NDN_NAME_INVALID_FORMAT, ⟨name.components, 0⟩)) ∧
    (∀ (name : ndn_name) (s : List Char) (size : Nat),
       s.getD 0 nul_char = '/' →
       NDN_NAME_COMPONENTS_SIZE < append_count s size (size - 1) 1 →
       (ndn_name_from_string name s size).1 = NDN_OVERSIZE) ∧
    (∀ (name : ndn_name) (s : List Char) (size : Nat),
       s.getD 0 nul_char = '/' →
       append_count s size (size - 1) 1 ≤ NDN_NAME_COMPONENTS_SIZE →
       (ndn_name_from_string name s size).1 = NDN_SUCCESS ∧
       (ndn_name_from_string name s size).2.components_size =
         append_count s size (size - 1) 1) ∧
    ndn_name_from_string ⟨List.replicate 10 default_component, 0⟩
        "/hello/world".toList 12 =
      (NDN_SUCCESS,
       ⟨⟨8, [104, 101, 108, 108, 111]⟩ :: ⟨8, [119, 111, 114, 108, 100]⟩ ::
          List.replicate 8 default_component, 2⟩) := by
  refine ⟨?_, ?_, ?_, by decide⟩
  · intro name s size h
    unfold ndn_name_from_string
    rw [if_pos h]
  · intro name s size h hover
    unfold ndn_name_from_string
    rw [if_neg (show ¬(s.getD 0 nul_char ≠ '/') from fun hc => hc h)]
    exact from_string_loop_oversize s size (size - 1) 1 0
      ⟨name.components, 0⟩ (by simp [NDN_NAME_COMPONENTS_SIZE])
      (by simpa using hover)
  · intro name s size h hle
    unfold ndn_name_from_string
    rw [if_neg (show ¬(s.getD 0 nul_char ≠ '/') from fun hc => hc h)]
    have := from_string_loop_success s size (size - 1) 1 0
      ⟨name.components, 0⟩ (by simpa using hle)
    simpa using this

/-- Witness for claim C6: "hello/world" (no leading slash) is rejected
as `INVALID_FORMAT`, and a string of eleven slashes overflows the
ten-slot component array with `OVERSIZE`. -/
theorem claim_C6_witness :
    ("hello/world".toList.getD 0 nul_char ≠ '/' ∧
     ndn_name_from_string ⟨List.replicate 10 default_component, 0⟩
         "hello/world".toList 11 =
       (NDN_NAME_INVALID_FORMAT, ⟨List.replicate 10 default_component, 0⟩)) ∧
    ("///////////".toList.getD 0 nul_char = '/' ∧
     NDN_NAME_COMPONENTS_SIZE <
       append_count "///////////".toList 11 10 1 ∧
     (ndn_name_from_string ⟨List.replicate 10 default_component, 0⟩
         "///////////".toList 11).1 = NDN_OVERSIZE) :=
  ⟨⟨by decide,
    claim_C6_from_string.1 ⟨List.replicate 10 default_component, 0⟩
      "hello/world".toList 11 (by decide)⟩,
   ⟨by decide, by decide,
    claim_C6_from_string.2.1 ⟨List.replicate 10 default_component, 0⟩
      "///////////".toList 11 (by decide) (by decide)⟩⟩

/-- The component-decoding loop's counter never exceeds the slot budget
it started with. -/
theorem name_decode_loop_counter_le :
    ∀ (budget : Nat) (d : ndn_decoder) (eo counter : Nat)
      (comps : List name_component),
      ¬ (ndn_name_decode_loop d eo counter comps budget).1 < 0 →
      (ndn_name_decode_loop d eo counter comps budget).2.1 ≤
        counter + budget := by
  intro budget
  induction budget with
  | zero =>
      intro d eo counter comps h
      rw [ndn_name_decode_loop] at h ⊢
      by_cases hlt : d.offset < eo
      · rw [if_pos hlt] at h
        dsimp only at h
        norm_num [NDN_OVERSIZE] at h
      · rw [if_neg hlt]
        dsimp only
        omega
  | succ budget ih =>
      intro d eo counter comps h
      rw [ndn_name_decode_loop] at h ⊢
      by_cases hlt : d.offset < eo
      · rw [if_pos hlt] at h ⊢
        dsimp only at h ⊢
        revert h
        rcases hc : name_component_tlv_decode d with ⟨r, c, d2⟩
        dsimp only
        intro h
        by_cases hr : r < 0
        · rw [if_pos hr] at h
          dsimp only at h
          exact absurd hr h
        · rw [if_neg hr] at h ⊢
          have := ih d2 eo (counter + 1) (comps.set counter c) h
          omega
      · rw [if_neg hlt]
        dsimp only
        omega

/-- The component-decoding loop never writes a slot at or past
`counter + budget`. -/
theorem name_decode_loop_slots_high :
    ∀ (budget : Nat) (d : ndn_decoder) (eo counter : Nat)
      (comps : List name_component) (j : Nat), counter + budget ≤ j →
      (ndn_name_decode_loop d eo counter comps budget).2.2.1.getD j
          default_component =
        comps.getD j default_component := by
  intro budget
  induction budget with
  | zero =>
      intro d eo counter comps j hj
      rw [ndn_name_decode_loop]
      by_cases hlt : d.offset < eo
      · rw [if_pos hlt]
      · rw [if_neg hlt]
  | succ budget ih =>
      intro d eo counter comps j hj
      rw [ndn_name_decode_loop]
      by_cases hlt : d.offset < eo
      · rw [if_pos hlt]
        dsimp only
        rcases hc : name_component_tlv_decode d with ⟨r, c, d2⟩
        dsimp only
        by_cases hr : r < 0
        · rw [if_pos hr]
        · rw [if_neg hr]
          rw [ih d2 eo (counter + 1) (comps.set counter c) j (by omega)]
          rw [getD_set_ne (by omega)]
      · rw [if_neg hlt]

/-- Claim C9: every name-building operation preserves the component
bound — `ndn_name_init` and `ndn_name_append_component` succeed exactly
within `NDN_NAME_COMPONENTS_SIZE` and return `OVERSIZE` leaving the
record unchanged otherwise, and `ndn_name_tlv_decode` never yields a
component count above the bound on success nor writes any slot at or
past the bound. -/
theorem claim_C9_name_component_bound :
    (∀ (name : ndn_name) (cs : List name_component) (size : Nat),
       (size ≤ NDN_NAME_COMPONENTS_SIZE →
         (ndn_name_init name cs size).1 = NDN_SUCCESS ∧
         (ndn_name_init name cs size).2.components_size = size) ∧
       (NDN_NAME_COMPONENTS_SIZE < size →
         ndn_name_init name cs size = (NDN_OVERSIZE, name))) ∧
    (∀ (name : ndn_name) (c : name_component),
       (name.components_size + 1 ≤ NDN_NAME_COMPONENTS_SIZE →
         (ndn_name_append_component name c).1 = NDN_SUCCESS ∧
         (ndn_name_append_component name c).2.components_size =
           name.components_size + 1) ∧
       (NDN_NAME_COMPONENTS_SIZE < name.components_size + 1 →
         ndn_name_append_component name c = (NDN_OVERSIZE, name))) ∧
    (∀ (d : ndn_decoder) (name : ndn_name),
       (ndn_name_tlv_decode d name).1 = NDN_SUCCESS →
       (ndn_name_tlv_decode d name).2.1.components_size ≤
         NDN_NAME_COMPONENTS_SIZE) ∧
    (∀ (d : ndn_decoder) (name : ndn_name) (j : Nat),
       NDN_NAME_COMPONENTS_SIZE ≤ j →
       (ndn_name_tlv_decode d name).2.1.components.getD j
           default_component =
         name.components.getD j default_component) := by
  refine ⟨?_, ?_, ?_, ?_⟩
  · intro name cs size
    constructor
    · intro h
      unfold ndn_name_init
      rw [if_pos h]
      exact ⟨rfl, rfl⟩
    · intro h
      unfold ndn_name_init
      rw [if_neg (by omega)]
  · intro name c
    constructor
    · intro h
      rw [append_component_success _ _ h]
      exact ⟨rfl, rfl⟩
    · intro h
      exact append_component_oversize _ _ (by omega)
  · intro d name h
    unfold ndn_name_tlv_decode at h ⊢
    revert h
    rcases h0 : decoder_get_type d with ⟨r0, t, d1⟩
    dsimp only
    intro h
    by_cases ht : t ≠ TLV_Name
    · rw [if_pos ht] at h
      norm_num [NDN_WRONG_TLV_TYPE, NDN_SUCCESS] at h
    · rw [if_neg ht] at h ⊢
      revert h
      rcases h1 : decoder_get_length d1 with ⟨r1, len, d2⟩
      dsimp only
      intro h
      revert h
      rcases h2 : ndn_name_decode_loop d2 (d2.offset + len) 0
          name.components NDN_NAME_COMPONENTS_SIZE with ⟨r, counter, comps, d3⟩
      dsimp only
      intro h
      by_cases hr : r < 0
      · rw [if_pos hr] at h
        dsimp only at h
        norm_num [NDN_SUCCESS] at h
        omega
      · rw [if_neg hr] at h ⊢
        have := name_decode_loop_counter_le NDN_NAME_COMPONENTS_SIZE d2
          (d2.offset + len) 0 name.components
        rw [h2] at this
        dsimp only at this ⊢
        have h10 := this hr
        omega
  · intro d name j hj
    unfold ndn_name_tlv_decode
    rcases h0 : decoder_get_type d with ⟨r0, t, d1⟩
    dsimp only
    by_cases ht : t ≠ TLV_Name
    · rw [if_pos ht]
    · rw [if_neg ht]
      rcases h1 : decoder_get_length d1 with ⟨r1, len, d2⟩
      dsimp only
      have hs := name_decode_loop_slots_high NDN_NAME_COMPONENTS_SIZE d2
        (d2.offset + len) 0 name.components j (by omega)
      rcases h2 : ndn_name_decode_loop d2 (d2.offset + len) 0
          name.components NDN_NAME_COMPONENTS_SIZE with ⟨r, counter, comps, d3⟩
      rw [h2] at hs
      dsimp only at hs ⊢
      by_cases hr : r < 0
      · rw [if_pos hr]
        exact hs
      · rw [if_neg hr]
        exact hs

def init_components : List name_component :=
  List.replicate 12 ⟨8, [120]⟩

/-- Witness for claim C9: initializing from 11 components overflows
(leaving the record unchanged), appending to a full name overflows,
and a decode of a concrete two-component wire stays within bounds. -/
theorem claim_C9_witness :
    (NDN_NAME_COMPONENTS_SIZE < 11 ∧
     ndn_name_init ⟨List.replicate 10 default_component, 0⟩
         init_components 11 =
       (NDN_OVERSIZE, ⟨List.replicate 10 default_component, 0⟩)) ∧
    (NDN_NAME_COMPONENTS_SIZE <
       (⟨List.replicate 10 default_component, 10⟩ :
         ndn_name).components_size + 1 ∧
     ndn_name_append_component ⟨List.replicate 10 default_component, 10⟩
         ⟨8, [120]⟩ =
       (NDN_OVERSIZE, ⟨List.replicate 10 default_component, 10⟩)) ∧
    ((ndn_name_tlv_decode ⟨[7, 6, 8, 1, 97, 8, 1, 98], 0⟩
        ⟨List.replicate 10 default_component, 0⟩).1 = NDN_SUCCESS ∧
     (ndn_name_tlv_decode ⟨[7, 6, 8, 1, 97, 8, 1, 98], 0⟩
        ⟨List.replicate 10 default_component, 0⟩).2.1.components_size ≤
       NDN_NAME_COMPONENTS_SIZE) :=
  ⟨⟨by decide,
    (claim_C9_name_component_bound.1 ⟨List.replicate 10 default_component, 0⟩
      init_components 11).2 (by decide)⟩,
   ⟨by decide,
    (claim_C9_name_component_bound.2.1 ⟨List.replicate 10 default_component, 10⟩
      ⟨8, [120]⟩).2 (by decide)⟩,
   ⟨by decide,
    claim_C9_name_component_bound.2.2.1 ⟨[7, 6, 8, 1, 97, 8, 1, 98], 0⟩
      ⟨List.replicate 10 default_component, 0⟩ (by decide)⟩⟩

/-- The spec's notion of a matching callback-table entry: exact-match
entries (flag 0) match data by name equality, prefix entries (flag 1)
match interests by name prefix. -/
def face_entry_matches (isInterest : Nat) (name : ndn_name)
    (e : ndn_cb_entry) : Bool :=
  (e.prefix_flag == isInterest && isInterest == 0 &&
     ndn_name_compare e.interest_name name == 0) ||
  (e.prefix_flag == isInterest && isInterest == 1 &&
     ndn_name_is_prefix_of e.interest_name name == 0)

/-- The table scan dispatches exactly the first matching entry (in
index order), or reports no matched callback. -/
theorem send_loop_first_match (isInterest : Nat) (name : ndn_name) :
    ∀ entries : List ndn_cb_entry,
      (entries.find? (face_entry_matches isInterest name) = none →
        ndn_direct_face_send_loop entries isInterest name =
          (NDN_FWD_NO_MATCHED_CALLBACK, [])) ∧
      (∀ e, entries.find? (face_entry_matches isInterest name) = some e →
        ndn_direct_face_send_loop entries isInterest name =
          (NDN_SUCCESS,
           [if isInterest = 0 then face_callback.onData e.on_data
            else face_callback.onInterest e.on_interest])) := by
  intro entries
  induction entries with
  | nil =>
      constructor
      · intro _
        rfl
      · intro e hf
        simp at hf
  | cons entry rest ih =>
      by_cases hm : face_entry_matches isInterest name entry = true
      · have hm2 := hm
        simp only [face_entry_matches, Bool.or_eq_true, Bool.and_eq_true,
                   beq_iff_eq] at hm2
        constructor
        · intro hf
          rw [List.find?_cons_of_pos _ hm] at hf
          simp at hf
        · intro e hf
          rw [List.find?_cons_of_pos _ hm] at hf
          have he : entry = e := by
            simpa using hf
          subst he
          rcases hm2 with ⟨⟨hp, h0⟩, hcmp⟩ | ⟨⟨hp, h1⟩, hpre⟩
          · unfold ndn_direct_face_send_loop
            rw [if_pos ⟨hp, h0, hcmp⟩]
            subst h0
            rw [if_pos rfl]
          · unfold ndn_direct_face_send_loop
            rw [if_neg (by rintro ⟨-, h0, -⟩; omega)]
            rw [if_pos ⟨hp, h1, hpre⟩]
            subst h1
            rw [if_neg (by omega)]
      · have hm2 := hm
        simp only [face_entry_matches, Bool.or_eq_true, Bool.and_eq_true,
                   beq_iff_eq, not_or, not_and] at hm2
        rw [List.find?_cons_of_neg _ hm]
        constructor
        · intro hf
          unfold ndn_direct_face_send_loop
          rw [if_neg (by
                rintro ⟨hp, h0, hcmp⟩
                exact absurd hcmp ((hm2.1 ⟨hp, h0⟩))),
              if_neg (by
                rintro ⟨hp, h1, hpre⟩
                exact absurd hpre ((hm2.2 ⟨hp, h1⟩)))]
          exact ih.1 hf
        · intro e hf
          unfold ndn_direct_face_send_loop
          rw [if_neg (by
                rintro ⟨hp, h0, hcmp⟩
                exact absurd hcmp ((hm2.1 ⟨hp, h0⟩))),
              if_neg (by
                rintro ⟨hp, h1, hpre⟩
                exact absurd hpre ((hm2.2 ⟨hp, h1⟩)))]
          exact ih.2 e hf

/-- The table scan fires at most one callback. -/
theorem send_loop_at_most_one (isInterest : Nat) (name : ndn_name) :
    ∀ entries : List ndn_cb_entry,
      (ndn_direct_face_send_loop entries isInterest name).2.length ≤ 1 := by
  intro entries
  induction entries with
  | nil => simp [ndn_direct_face_send_loop]
  | cons entry rest ih =>
      unfold ndn_direct_face_send_loop
      by_cases h1 : entry.prefix_flag = isInterest ∧ isInterest = 0 ∧
          ndn_name_compare entry.interest_name name = 0
      · rw [if_pos h1]
        simp
      · rw [if_neg h1]
        by_cases h2 : entry.prefix_flag = isInterest ∧ isInterest = 1 ∧
            ndn_name_is_prefix_of entry.interest_name name = 0
        · rw [if_pos h2]
          simp
        · rw [if_neg h2]
          exact ih

/-- Claim C8: `ndn_direct_face_send` scans the callback table in index
order and dispatches the first matching entry — for a Data packet an
exact-match entry (flag 0) whose name equals the packet name fires its
`on_data`, for an Interest packet a prefix entry (flag 1) whose name is
a prefix of the packet name fires its `on_interest`; with no matching
entry it returns `FWD_NO_MATCHED_CALLBACK`, and at most one callback
fires per call. -/
theorem claim_C8_direct_face_dispatch (entries : List ndn_cb_entry)
    (name : ndn_name) (packet : List Nat) (size : Nat) :
    ((decoder_get_type (decoder_init (packet.take size))).2.1 = TLV_Data →
      (entries.find? (face_entry_matches 0 name) = none →
        ndn_direct_face_send entries (some name) packet size =
          (NDN_FWD_NO_MATCHED_CALLBACK, [])) ∧
      (∀ e, entries.find? (face_entry_matches 0 name) = some e →
        ndn_direct_face_send entries (some name) packet size =
          (NDN_SUCCESS, [face_callback.onData e.on_data]))) ∧
    ((decoder_get_type (decoder_init (packet.take size))).2.1 =
        TLV_Interest →
      (entries.find? (face_entry_matches 1 name) = none →
        ndn_direct_face_send entries (some name) packet size =
          (NDN_FWD_NO_MATCHED_CALLBACK, [])) ∧
      (∀ e, entries.find? (face_entry_matches 1 name) = some e →
        ndn_direct_face_send entries (some name) packet size =
          (NDN_SUCCESS, [face_callback.onInterest e.on_interest]))) ∧
    (ndn_direct_face_send entries (some name) packet size).2.length ≤ 1 := by
  unfold ndn_direct_face_send
  dsimp only
  rcases hp : decoder_get_type (decoder_init (packet.take size))
    with ⟨r0, probe, d1⟩
  dsimp only
  refine ⟨?_, ?_, ?_⟩
  · intro hD
    subst hD
    rw [if_pos (Or.inr rfl)]
    rw [if_neg (by norm_num [TLV_Data, TLV_Interest])]
    constructor
    · intro hf
      exact (send_loop_first_match 0 name entries).1 hf
    · intro e hf
      have := (send_loop_first_match 0 name entries).2 e hf
      rw [this]
      norm_num
  · intro hI
    subst hI
    rw [if_pos (Or.inl rfl)]
    rw [if_pos rfl]
    constructor
    · intro hf
      exact (send_loop_first_match 1 name entries).1 hf
    · intro e hf
      have := (send_loop_first_match 1 name entries).2 e hf
      rw [this]
      norm_num
  · by_cases hio : probe = TLV_Interest ∨ probe = TLV_Data
    · rw [if_pos hio]
      by_cases hi : probe = TLV_Interest
      · rw [if_pos hi]
        exact send_loop_at_most_one 1 name entries
      · rw [if_neg hi]
        exact send_loop_at_most_one 0 name entries
    · rw [if_neg hio]
      simp

def face_entry_a : ndn_cb_entry := ⟨nameB, 1, 11, 12, 13⟩
def face_entry_b : ndn_cb_entry := ⟨nameA, 0, 21, 22, 23⟩

/-- Witness for claim C8: a Data packet named `/a` skips the leading
prefix entry and fires `on_data` of the first exact-match entry. -/
theorem claim_C8_witness :
    (decoder_get_type (decoder_init (([6, 0] : List Nat).take 2))).2.1 =
      TLV_Data ∧
    [face_entry_a, face_entry_b].find? (face_entry_matches 0 nameA) =
      some face_entry_b ∧
    ndn_direct_face_send [face_entry_a, face_entry_b] (some nameA)
        [6, 0] 2 =
      (NDN_SUCCESS, [face_callback.onData face_entry_b.on_data]) :=
  ⟨by decide, by decide,
   ((claim_C8_direct_face_dispatch [face_entry_a, face_entry_b] nameA
       [6, 0] 2).1 (by decide)).2 face_entry_b (by decide)⟩

/-- An AES backend that records the sizes it receives: the "ciphertext"
it writes is the pair of size arguments. -/
def size_leak_backend : ndn_aes_backend :=
  ⟨fun _ input_size output_size _ => (NDN_SUCCESS, [input_size, output_size])⟩

/-- Claim C10: the AES-CBC boundary narrows both size arguments to
8 bits (`uint8_t` in the `ndn-lite-aes` prototypes): every call
forwards `input_size % 2^8` and `output_size % 2^8` to the backend, so
any plaintext length of 256 or more reaches the backend strictly
reduced; with a size-recording backend, length 260 arrives as 4. -/
theorem claim_C10_aes_uint8_narrowing :
    (∀ (backend : ndn_aes_backend) (input : List Nat)
       (input_size output_size : Nat) (aes_iv : List Nat),
       ndn_aes_cbc_encrypt backend input input_size output_size aes_iv =
         backend.cbc_encrypt input (input_size % 2 ^ 8)
           (output_size % 2 ^ 8) aes_iv) ∧
    (∀ input_size : Nat, 256 ≤ input_size →
       input_size % 2 ^ 8 < input_size) ∧
    ndn_aes_cbc_encrypt size_leak_backend (List.replicate 260 7) 260 300
        (List.replicate 16 0) =
      (NDN_SUCCESS, [4, 44]) := by
  refine ⟨fun _ _ _ _ _ => rfl, ?_, by decide⟩
  intro n hn
  have := Nat.mod_lt n (show 0 < 2 ^ 8 by norm_num)
  have h2 : n % 2 ^ 8 < 2 ^ 8 := Nat.mod_lt n (by norm_num)
  omega

/-- Witness for claim C10: the narrowing applied at length 260. -/
theorem claim_C10_witness :
    (256 : Nat) ≤ 260 ∧ 260 % 2 ^ 8 < 260 :=
  ⟨by decide, claim_C10_aes_uint8_narrowing.2.1 260 (by decide)⟩

/-- An AES backend producing a padded ciphertext of the contractual
`input_size + 16` bytes. -/
def toy_aes_backend : ndn_aes_backend :=
  ⟨fun _ input_size _ _ => (NDN_SUCCESS, List.replicate (input_size + 16) 9)⟩

def keyid_name : ndn_name :=
  ⟨⟨8, [107]⟩ :: List.replicate 9 default_component, 1⟩

/-- Claim C3 (code bug): `ndn_data_set_encrypted_content` does fail
`OVERSIZE` when the probed envelope exceeds the content buffer, but on
success it advances the cursor by the *stale* `data->content_size`
read before assignment, so the recorded `content_size` is not the
total encoded envelope size: with a 3-byte plaintext into a record
whose previous content size is 0, it records 43 while the envelope
occupies 46 bytes. -/
theorem claim_C3_encrypted_content_stale_size (backend : ndn_aes_backend)
    (data : ndn_data) (cv : List Nat) (n : Nat) (kid : ndn_name)
    (iv : List Nat) :
    (NDN_CONTENT_BUFFER_SIZE <
       ndn_name_probe_block_size kid +
       encoder_probe_block_size TLV_AC_AES_IV NDN_AES_BLOCK_SIZE +
       encoder_probe_block_size TLV_AC_ENCRYPTED_PAYLOAD
         (n + NDN_AES_BLOCK_SIZE) →
      ndn_data_set_encrypted_content backend data cv n kid iv =
        (NDN_OVERSIZE, data)) ∧
    ((ndn_data_set_encrypted_content toy_aes_backend out_data [5, 6, 7] 3
        keyid_name (List.replicate 16 1)).1 = NDN_SUCCESS ∧
     (ndn_data_set_encrypted_content toy_aes_backend out_data [5, 6, 7] 3
        keyid_name (List.replicate 16 1)).2.content_size = 43 ∧
     encoder_probe_block_size TLV_AC_ENCRYPTED_CONTENT
       (ndn_name_probe_block_size keyid_name +
        encoder_probe_block_size TLV_AC_AES_IV NDN_AES_BLOCK_SIZE +
        encoder_probe_block_size TLV_AC_ENCRYPTED_PAYLOAD
          (3 + NDN_AES_BLOCK_SIZE)) = 46) := by
  constructor
  · intro h
    unfold ndn_data_set_encrypted_content
    dsimp only
    rw [if_pos (by omega)]
  · exact ⟨by decide, by decide, by decide⟩

/-- Counterexample for claim C3's success clause: the call succeeds
but records content size 43 where the encoded envelope is 46 bytes. -/
theorem claim_C3_counterexample :
    (ndn_data_set_encrypted_content toy_aes_backend out_data [5, 6, 7] 3
        keyid_name (List.replicate 16 1)).1 = NDN_SUCCESS ∧
    (ndn_data_set_encrypted_content toy_aes_backend out_data [5, 6, 7] 3
        keyid_name (List.replicate 16 1)).2.content_size ≠
      encoder_probe_block_size TLV_AC_ENCRYPTED_CONTENT
        (ndn_name_probe_block_size keyid_name +
         encoder_probe_block_size TLV_AC_AES_IV NDN_AES_BLOCK_SIZE +
         encoder_probe_block_size TLV_AC_ENCRYPTED_PAYLOAD
           (3 + NDN_AES_BLOCK_SIZE)) := by
  exact ⟨by decide, by decide⟩

/-- Witness for claim C3's oversize clause at plaintext length 250. -/
theorem claim_C3_witness :
    NDN_CONTENT_BUFFER_SIZE <
      ndn_name_probe_block_size keyid_name +
      encoder_probe_block_size TLV_AC_AES_IV NDN_AES_BLOCK_SIZE +
      encoder_probe_block_size TLV_AC_ENCRYPTED_PAYLOAD
        (250 + NDN_AES_BLOCK_SIZE) ∧
    ndn_data_set_encrypted_content toy_aes_backend out_data
        (List.replicate 250 0) 250 keyid_name (List.replicate 16 1) =
      (NDN_OVERSIZE, out_data) :=
  ⟨by decide,
   (claim_C3_encrypted_content_stale_size toy_aes_backend out_data
     (List.replicate 250 0) 250 keyid_name (List.replicate 16 1)).1
     (by decide)⟩

/-- An ECDSA backend producing a fixed 70-byte DER signature (a legal
length within the ASN.1 range). -/
def toy_ecdsa : List Nat → List Nat := fun _ => List.replicate 70 3

def producer_name : ndn_name :=
  ⟨⟨8, [112]⟩ :: List.replicate 9 default_component, 1⟩

def sample_prv_key : ndn_ecc_prv := ⟨258, 1⟩

/-- Claim C1 (code bug): `ndn_data_tlv_encode_ecdsa_sign` emits an
outer `TLV_Data` length that does not cover the signature-value TLV
header.  On a one-component name with 3-byte content and a 70-byte
signature the call succeeds with the packet occupying offsets 0..110,
a one-byte length field carrying 106 at offset 1 — but 108 bytes
actually follow the length field. -/
theorem claim_C1_ecdsa_outer_length :
    (ndn_data_tlv_encode_ecdsa_sign toy_ecdsa (encoder_init 2000)
        sample_data producer_name sample_prv_key).1 = NDN_SUCCESS ∧
    (ndn_data_tlv_encode_ecdsa_sign toy_ecdsa (encoder_init 2000)
        sample_data producer_name sample_prv_key).2.1.output.getD 0 0 =
      TLV_Data ∧
    (ndn_data_tlv_encode_ecdsa_sign toy_ecdsa (encoder_init 2000)
        sample_data producer_name sample_prv_key).2.1.output.getD 1 0 =
      106 ∧
    var_size 106 = 1 ∧
    (ndn_data_tlv_encode_ecdsa_sign toy_ecdsa (encoder_init 2000)
        sample_data producer_name sample_prv_key).2.1.offset = 110 ∧
    (110 : Nat) - (var_size TLV_Data + var_size 106) = 108 ∧
    (106 : Nat) ≠ 108 := by
  refine ⟨by decide, by decide, by decide, by decide, by decide,
          by decide, by decide⟩

/-- Counterexample for claim C1: the emitted outer length differs from
the number of bytes between the end of the length field and the packet
tail. -/
theorem claim_C1_counterexample :
    (ndn_data_tlv_encode_ecdsa_sign toy_ecdsa (encoder_init 2000)
        sample_data producer_name sample_prv_key).1 = NDN_SUCCESS ∧
    (ndn_data_tlv_encode_ecdsa_sign toy_ecdsa (encoder_init 2000)
        sample_data producer_name sample_prv_key).2.1.output.getD 1 0 ≠
      (ndn_data_tlv_encode_ecdsa_sign toy_ecdsa (encoder_init 2000)
          sample_data producer_name sample_prv_key).2.1.offset -
        (var_size TLV_Data + var_size 106) := by
  exact ⟨by decide, by decide⟩
